import Mathlib

/-!
# Scene-context synthesis of `server.js`

A shallow embedding of the pure functions of `src/server.js` that turn the
provider's tag / color / object results into the derived scene context, and of
the response mapping of the route `/api/recognize-face`.

Modelling conventions.

* JavaScript numbers are modelled by rationals `ℚ`. The confidence and color code is
  modelled in exact arithmetic, every constant (`0.8`, `0.5`, ...) being the rational it
  denotes; `getConfidenceLevelDouble_eq` shows that the level label is the same when the
  quotient and the literals are rounded as doubles.
* Where a label depends on the rounding of double-precision arithmetic (the score of
  `calculateComplexity`, the average of `calculateVibrancy`, the product `100 * v`), every
  decimal literal and every operation is rounded to the nearest binary64 value, ties to
  even, by `roundDouble`. The exponent range is not modelled: no overflow, no subnormals.
* `toFixed2` rounds the exact rational it is given. Where the code hands `toFixed(2)` a
  rounded double product, the two-decimal value can differ in its last digit when the
  exact product is a tie of the third decimal, as for the raw confidence `0.50125`.
* A property that may be missing (`t.confidence`, `t.tag?.en`, `c.hex`,
  `c.percentage`, the three result sections) is an `Option`; `x || d` is
  `Option.getD`-like defaulting that also replaces the falsy values `0` and `''`.
* `Math.sqrt(n) > k` on a natural radicand is modelled by `k * k < n`
  (`sqrtGt`), and is related to the real square root by `sqrtGt_iff`.
* Labels are strings, exactly the literals of the source.
-/

namespace SceneContext

/-! ## Data model -/

/-- One entry of `tags.result.tags` or of `objects.result.tags`. -/
structure Tag where
  /-- The property `tag.en`, when present. -/
  en : Option String
  /-- The property `confidence`, when present and a number. -/
  confidence : Option ℚ
deriving DecidableEq

/-- One entry of `colors.result.colors`. -/
structure Color where
  /-- The property `hex`, when present. -/
  hex : Option String
  /-- The property `percentage`, when present and a number. -/
  percentage : Option ℚ
deriving DecidableEq

/-- The argument of `generateSceneContext`: `analysisData.tags?.result?.tags`,
`analysisData.colors?.result?.colors` and `analysisData.objects?.result?.tags`,
each `none` when some link of the chain is null or absent. -/
structure AnalysisData where
  tags : Option (List Tag)
  colors : Option (List Color)
  objects : Option (List Tag)
deriving DecidableEq

/-- The object returned by `hexToRgb`. -/
structure Rgb where
  r : ℕ
  g : ℕ
  b : ℕ
deriving DecidableEq

/-! ## Numeric helpers of the JavaScript runtime -/

/-- The expression `x || 0` on an optional number. -/
def orZero (x : Option ℚ) : ℚ := x.getD 0

/-- The expression `Math.round(x)`: the nearest integer, halves going up. -/
def mathRound (x : ℚ) : ℤ := ⌊x + 1 / 2⌋

/-- The expression `parseFloat(x.toFixed(2))`: `x` rounded to two decimals, a
half going away from zero. -/
def toFixed2 (x : ℚ) : ℚ :=
  if x < 0 then -((⌊(-x) * 100 + 1 / 2⌋ : ℤ) : ℚ) / 100
  else ((⌊x * 100 + 1 / 2⌋ : ℤ) : ℚ) / 100

/-- The test `Math.sqrt(n) > k` for a natural radicand `n` and a natural `k`. -/
def sqrtGt (n k : ℕ) : Bool := decide (k * k < n)

/-- The implicit `String(hex)` conversion of `RegExp.prototype.exec`. -/
def jsString (hex : Option String) : String := hex.getD "undefined"

/-- The integer nearest to `q`, a tie going to the even neighbour. -/
def roundHalfEven (q : ℚ) : ℤ :=
  if q - ⌊q⌋ < 1 / 2 then ⌊q⌋
  else if q - ⌊q⌋ > 1 / 2 then ⌊q⌋ + 1
  else if ⌊q⌋ % 2 = 0 then ⌊q⌋ else ⌊q⌋ + 1

/-- The binary64 value nearest to `x`, a tie going to the even significand: the rounding
that JavaScript applies to a decimal literal and to the exact result of each arithmetic
operation. A double of magnitude in `[2^e, 2^(e+1))` is an integer multiple of `2^(e-52)`. -/
def roundDouble (x : ℚ) : ℚ :=
  if x = 0 then 0
  else (roundHalfEven (x / 2 ^ (Int.log 2 |x| - 52)) : ℚ) * 2 ^ (Int.log 2 |x| - 52)

/-- The JavaScript product `a * b` of two doubles. -/
def fmul (a b : ℚ) : ℚ := roundDouble (a * b)

/-- The JavaScript sum `a + b` of two doubles. -/
def fadd (a b : ℚ) : ℚ := roundDouble (a + b)

/-- The JavaScript quotient `a / b` of two doubles, for `b` other than zero. -/
def fdiv (a b : ℚ) : ℚ := roundDouble (a / b)

/-! ## `getConfidenceLevel` -/

/-- The function `getConfidenceLevel(confidence)` of the source. -/
def getConfidenceLevel (confidence : ℚ) : String :=
  let normalized := if confidence > 1 then confidence / 100 else confidence
  if normalized ≥ 0.8 then "ALTO"
  else if normalized ≥ 0.5 then "MEDIO"
  else "BAJO"

/-- The function `getConfidenceLevel(confidence)` with the quotient and the two literals
rounded as doubles. -/
def getConfidenceLevelDouble (confidence : ℚ) : String :=
  let normalized := if confidence > 1 then fdiv confidence 100 else confidence
  if normalized ≥ roundDouble 0.8 then "ALTO"
  else if normalized ≥ roundDouble 0.5 then "MEDIO"
  else "BAJO"

/-! ## Hex decoding and brightness -/

/-- The character class `[a-f\d]` under the flag `i`. -/
def isHexChar (c : Char) : Bool :=
  ('0' ≤ c ∧ c ≤ '9') ∨ ('a' ≤ c ∧ c ≤ 'f') ∨ ('A' ≤ c ∧ c ≤ 'F')

/-- The value of one hexadecimal digit, as `parseInt(_, 16)` reads it. -/
def hexDigitVal (c : Char) : ℕ :=
  if '0' ≤ c ∧ c ≤ '9' then c.toNat - '0'.toNat
  else if 'a' ≤ c ∧ c ≤ 'f' then c.toNat - 'a'.toNat + 10
  else if 'A' ≤ c ∧ c ≤ 'F' then c.toNat - 'A'.toNat + 10
  else 0

/-- The call `parseInt(result[i], 16)` on a captured pair of hex digits. -/
def parseHexPair (hi lo : Char) : ℕ := 16 * hexDigitVal hi + hexDigitVal lo

/-- The function `hexToRgb(hex)` on a string: the regular expression
`/^#?([a-f\d]{2})([a-f\d]{2})([a-f\d]{2})$/i` followed by three `parseInt`. -/
def hexToRgbStr (hex : String) : Option Rgb :=
  let body := match hex.data with
    | '#' :: rest => rest
    | cs => cs
  match body with
  | [a, b, c, d, e, f] =>
    if isHexChar a && isHexChar b && isHexChar c && isHexChar d && isHexChar e && isHexChar f then
      some { r := parseHexPair a b, g := parseHexPair c d, b := parseHexPair e f }
    else none
  | _ => none

/-- The function `hexToRgb(hex)` of the source, on a possibly absent `hex`. -/
def hexToRgb (hex : Option String) : Option Rgb := hexToRgbStr (jsString hex)

/-- The function `calculateBrightness(hex)` of the source. -/
def calculateBrightness (hex : Option String) : ℤ :=
  match hexToRgb hex with
  | none => 50
  | some rgb => mathRound (((rgb.r * 299 + rgb.g * 587 + rgb.b * 114 : ℕ) : ℚ) / 1000)

/-! ## Strings -/

/-- The method `String.prototype.toLowerCase`, on the ASCII letters. -/
def toLowerCase (s : String) : String := s.map Char.toLower

/-- The method `String.prototype.includes`: `kw` occurs in `s` as a substring. -/
def includes (s kw : String) : Bool := decide (kw.data <:+: s.data)

/-- The method `Array.prototype.join` for an array of strings. -/
def join (sep : String) (parts : List String) : String := sep.intercalate parts

/-- A string-valued property is falsy when it is absent or the empty string. -/
def strFalsy (s : Option String) : Bool := s.isNone || s == some ""

/-- The expression `t.tag?.en || 'Unknown'`. -/
def labelOf (t : Tag) : String := if strFalsy t.en then "Unknown" else t.en.getD "Unknown"

/-- The expression `tags.map(t => (t.tag?.en || 'Unknown').toLowerCase()).join(' ')`. -/
def tagNamesOf (tags : List Tag) : String := join " " (tags.map fun t => toLowerCase (labelOf t))

/-! ## Per-item confidence -/

/-- The expression `confValue > 1 ? confValue : confValue * 100`. -/
def confPercent (confValue : ℚ) : ℚ := if confValue > 1 then confValue else confValue * 100

/-- The argument handed to `getConfidenceLevel` by every per-item mapping:
`confValue > 1 ? confValue / 100 : confValue`. -/
def confFraction (confValue : ℚ) : ℚ := if confValue > 1 then confValue / 100 else confValue

/-- An entry of `objects_detected.high_confidence` and `objects_detected.all_objects`. -/
structure ObjectItem where
  name : String
  confidence : ℚ
  level : String
deriving DecidableEq

/-- An entry of `all_tags` and of the lists of `tags_by_category`. -/
structure TagItem where
  tag : String
  confidence : ℚ
  level : String
deriving DecidableEq

/-- The mapping `o => (...)` applied to the objects in `generateSceneContext`. -/
def objectItem (o : Tag) : ObjectItem :=
  let confValue := orZero o.confidence
  { name := labelOf o
    confidence := toFixed2 (confPercent confValue)
    level := getConfidenceLevel (confFraction confValue) }

/-- The mapping `t => (...)` applied to the tags in `generateSceneContext` and the
`item` built in `categorizeTags`. -/
def tagItem (t : Tag) : TagItem :=
  let confValue := orZero t.confidence
  { tag := labelOf t
    confidence := toFixed2 (confPercent confValue)
    level := getConfidenceLevel (confFraction confValue) }

/-! ## Colors -/

/-- The radicand of the Euclidean distance of two colors:
`Math.pow(r1 - r2, 2) + Math.pow(g1 - g2, 2) + Math.pow(b1 - b2, 2)`. -/
def distSq (x y : Rgb) : ℕ :=
  (((x.r : ℤ) - y.r) ^ 2 + ((x.g : ℤ) - y.g) ^ 2 + ((x.b : ℤ) - y.b) ^ 2).toNat

/-- An entry of `dominant` as `analyzeColorsAdvanced` returns it. -/
structure DominantRaw where
  hex : Option String
  rgb : Option Rgb
  percentage : ℚ
deriving DecidableEq

/-- The object returned by `analyzeColorsAdvanced`. -/
structure ColorAnalysis where
  dominant : List DominantRaw
  palette : List (Option String)
  avg_brightness : ℚ
deriving DecidableEq

/-- The call `[...colors].sort((a, b) => (b.percentage || 0) - (a.percentage || 0))`:
a stable sort in descending order of percentage. -/
def sortByPercentage (colors : List Color) : List Color :=
  colors.insertionSort fun a b => orZero a.percentage ≥ orZero b.percentage

/-- The function `analyzeColorsAdvanced(colors)` of the source. -/
def analyzeColorsAdvanced (colors : List Color) : ColorAnalysis :=
  if colors.length = 0 then { dominant := [], palette := [], avg_brightness := 50 }
  else
    let sorted := sortByPercentage colors
    -- the filter `b => b !== null` keeps every entry: `calculateBrightness` never returns null
    let brightness := colors.map fun c => calculateBrightness c.hex
    let avgBrightness : ℚ :=
      if brightness.length > 0 then ((brightness.sum : ℤ) : ℚ) / brightness.length else 50
    { dominant := (sorted.take 5).map fun c =>
        { hex := c.hex, rgb := hexToRgb c.hex, percentage := orZero c.percentage }
      palette := sorted.map fun c => c.hex
      avg_brightness := avgBrightness }

/-- The table `colorNames` of `colorNameFromHex`, in key order. -/
def colorNames : List (String × String) :=
  [("#000000", "Negro"), ("#FFFFFF", "Blanco"), ("#FF0000", "Rojo"), ("#00FF00", "Verde"),
   ("#0000FF", "Azul"), ("#FFFF00", "Amarillo"), ("#FF00FF", "Magenta"), ("#00FFFF", "Cyan"),
   ("#808080", "Gris"), ("#FFA500", "Naranja"), ("#800080", "Púrpura"), ("#FFC0CB", "Rosa")]

/-- One iteration of the search loop of `colorNameFromHex`; the state is
`(minDistance, closestColor)`, the radicand `none` standing for `Infinity`. -/
def colorNameStep (rgb : Rgb) (st : Option ℕ × String) (entry : String × String) :
    Option ℕ × String :=
  match hexToRgbStr entry.1 with
  | none => st
  | some refRgb =>
    let distance := distSq rgb refRgb
    match st.1 with
    | none => (some distance, entry.2)
    | some minDistance => if distance < minDistance then (some distance, entry.2) else st

/-- The function `colorNameFromHex(hex)` of the source. -/
def colorNameFromHex (hex : Option String) : String :=
  match hexToRgb hex with
  | none => "Desconocido"
  | some rgb => (colorNames.foldl (colorNameStep rgb) (none, "Desconocido")).2

/-- The function `analyzeColorHarmony(colors)` of the source. -/
def analyzeColorHarmony (colors : List Color) : String :=
  if colors.length < 2 then "Insuficientes datos"
  else
    let dominant := colors.take 2
    let hex1 := (dominant.get? 0).bind Color.hex
    let hex2 := (dominant.get? 1).bind Color.hex
    if strFalsy hex1 || strFalsy hex2 then "Insuficientes datos"
    else
      match hexToRgb hex1, hexToRgb hex2 with
      | some rgb1, some rgb2 =>
        let diff := distSq rgb1 rgb2
        if sqrtGt diff 200 then "Contrastado"
        else if sqrtGt diff 100 then "Complementario"
        else "Análogo"
      | _, _ => "Insuficientes datos"

/-! ## Tag categories -/

/-- The five keys of `keywords` and of `categorized`. -/
inductive Category where
  | entities
  | attributes
  | environment
  | actions
  | concepts
deriving DecidableEq

/-- The table `keywords` of `categorizeTags`, in key order. -/
def keywords : List (Category × List String) :=
  [(.entities, ["person", "people", "man", "woman", "child", "animal", "dog", "cat", "bird",
      "car", "building", "tree", "flower", "plant"]),
   (.attributes, ["beautiful", "dark", "bright", "color", "colorful", "monochrome", "small",
      "large", "old", "new"]),
   (.environment, ["outdoor", "indoor", "nature", "mountain", "sea", "beach", "forest", "city",
      "street", "sky", "water", "ground"]),
   (.actions, ["running", "walking", "sitting", "standing", "playing", "sleeping", "eating",
      "jumping", "flying", "swimming"]),
   (.concepts, ["love", "happy", "sad", "beautiful", "ugly", "fun", "serious", "calm",
      "exciting", "peaceful"])]

/-- The object `categorized` of `categorizeTags`. -/
structure Categorized where
  entities : List TagItem
  attributes : List TagItem
  environment : List TagItem
  actions : List TagItem
  concepts : List TagItem
deriving DecidableEq

/-- The list `categorized[category]`. -/
def Categorized.get (c : Categorized) : Category → List TagItem
  | .entities => c.entities
  | .attributes => c.attributes
  | .environment => c.environment
  | .actions => c.actions
  | .concepts => c.concepts

/-- The statement `categorized[category].push(item)`. -/
def Categorized.push (c : Categorized) (category : Category) (item : TagItem) : Categorized :=
  match category with
  | .entities => { c with entities := c.entities ++ [item] }
  | .attributes => { c with attributes := c.attributes ++ [item] }
  | .environment => { c with environment := c.environment ++ [item] }
  | .actions => { c with actions := c.actions ++ [item] }
  | .concepts => { c with concepts := c.concepts ++ [item] }

/-- The category chosen by the inner `for` loop of `categorizeTags` for a
lower-cased label: the first one with a matching keyword, `concepts` after the loop. -/
def categoryOf (tagName : String) : Category :=
  match keywords.find? fun entry => entry.2.any fun kw => includes tagName kw with
  | some entry => entry.1
  | none => .concepts

/-- The function `categorizeTags(tags)` of the source. -/
def categorizeTags (tags : List Tag) : Categorized :=
  tags.foldl
    (fun categorized t =>
      let tagName := toLowerCase (labelOf t)
      categorized.push (categoryOf tagName) (tagItem t))
    { entities := [], attributes := [], environment := [], actions := [], concepts := [] }

/-! ## Scene heuristics -/

/-- The function `detectSceneType(tags, objects)` of the source. -/
def detectSceneType (tags : List Tag) (_objects : List Tag) : String :=
  let tagNames := tagNamesOf tags
  if includes tagNames "portrait" || includes tagNames "person" then "Retrato"
  else if includes tagNames "landscape" || includes tagNames "mountain" then "Paisaje"
  else if includes tagNames "food" || includes tagNames "drink" then "Comida"
  else if includes tagNames "animal" then "Vida Silvestre"
  else if includes tagNames "building" || includes tagNames "architecture" then "Arquitectura"
  else if includes tagNames "nature" || includes tagNames "outdoor" then "Naturaleza"
  else "General"

/-- The function `detectSetting(tags)` of the source. -/
def detectSetting (tags : List Tag) : String :=
  let tagNames := tagNamesOf tags
  if includes tagNames "indoor" then "Interior"
  else if includes tagNames "outdoor" || includes tagNames "sky" then "Exterior"
  else if includes tagNames "night" then "Noche"
  else if includes tagNames "day" then "Día"
  else "No especificado"

/-- The number `brightness` computed at the head of `detectMood`. -/
def moodBrightness (colors : List Color) : ℚ :=
  if colors.length > 0 then
    ((((colors.take 3).map fun c => calculateBrightness c.hex).sum : ℤ) : ℚ) / 3
  else 50

/-- The function `detectMood(colors, tags)` of the source. -/
def detectMood (colors : List Color) (tags : List Tag) : String :=
  let tagNames := tagNamesOf tags
  let brightness := moodBrightness colors
  if brightness > 70 then "Alegre y Luminoso"
  else if brightness < 30 then "Oscuro y Misterioso"
  else if includes tagNames "nature" || includes tagNames "calm" then "Tranquilo y Sereno"
  else if includes tagNames "action" || includes tagNames "sport" then "Dinámico y Energético"
  else "Neutral"

/-- The function `findDominantTheme(tags)` of the source. -/
def findDominantTheme (tags : List Tag) : String :=
  if tags.length = 0 then "Desconocido"
  else
    let en := (tags.get? 0).bind Tag.en
    if strFalsy en then "Desconocido" else en.getD "Desconocido"

/-- The function `generateDetailedSceneDescription(tags, colors, objects)` of the source. -/
def generateDetailedSceneDescription (tags : List Tag) (colors : List Color)
    (objects : List Tag) : String :=
  let topTags := (tags.take 6).map labelOf
  let topColors := (colors.take 3).map fun c => colorNameFromHex c.hex
  let topObjects := (objects.take 3).map labelOf
  let description := "Imagen que contiene: " ++ join ", " topTags ++ ". "
  let description :=
    if topObjects.length > 0 then
      description ++ "Objetos principales: " ++ join ", " topObjects ++ ". "
    else description
  let description :=
    if topColors.length > 0 then description ++ "Tonalidades: " ++ join ", " topColors ++ "."
    else description
  description

/-! ## Composition metrics -/

/-- The constant `score` of `calculateComplexity`:
`(tags.length * 0.4 + objects.length * 0.3 + colors.length * 0.3) / 2`, evaluated from left
to right in double arithmetic. -/
def complexityScore (tags : List Tag) (colors : List Color) (objects : List Tag) : ℚ :=
  fdiv
    (fadd
      (fadd (fmul tags.length (roundDouble 0.4)) (fmul objects.length (roundDouble 0.3)))
      (fmul colors.length (roundDouble 0.3)))
    2

/-- The function `calculateComplexity(tags, colors, objects)` of the source. -/
def calculateComplexity (tags : List Tag) (colors : List Color) (objects : List Tag) : String :=
  let score := complexityScore tags colors objects
  if score > 7 then "Muy Alta"
  else if score > 5 then "Alta"
  else if score > 3 then "Media"
  else "Baja"

/-- The mapping `c => (...)` of `calculateVibrancy`: the saturation of one color; the
difference `max - min` of two integers is exact, the quotient is rounded. -/
def saturation (c : Color) : ℚ :=
  match hexToRgb c.hex with
  | none => 0
  | some rgb =>
    let max := Nat.max (Nat.max rgb.r rgb.g) rgb.b
    let min := Nat.min (Nat.min rgb.r rgb.g) rgb.b
    if max = 0 then 0 else fdiv ((max : ℚ) - min) max

/-- The call `saturations.reduce((a, b) => a + b)`: with no initial value the accumulator
starts at the first element and the others are added from left to right. The empty array,
on which `reduce` throws, is excluded by the guard of `calculateVibrancy`. -/
def reduceAdd : List ℚ → ℚ
  | [] => 0
  | first :: rest => rest.foldl fadd first

/-- The constant `avgSaturation` of `calculateVibrancy`:
`saturations.reduce((a, b) => a + b) / saturations.length`. -/
def avgSaturation (colors : List Color) : ℚ :=
  let saturations := colors.map saturation
  fdiv (reduceAdd saturations) saturations.length

/-- The function `calculateVibrancy(colors)` of the source. -/
def calculateVibrancy (colors : List Color) : String :=
  if colors.length = 0 then "Baja"
  else
    let avgSaturation := avgSaturation colors
    if avgSaturation > roundDouble 0.5 then "Muy Alta"
    else if avgSaturation > roundDouble 0.3 then "Alta"
    else if avgSaturation > roundDouble 0.1 then "Media"
    else "Baja"

/-- The object returned by `calculateSceneMetrics`. -/
structure SceneMetrics where
  object_diversity : ℕ
  color_diversity : ℕ
  tag_diversity : ℕ
  complexity : String
  vibrancy : String
deriving DecidableEq

/-- The function `calculateSceneMetrics(tags, colors, objects)` of the source. -/
def calculateSceneMetrics (tags : List Tag) (colors : List Color) (objects : List Tag) :
    SceneMetrics :=
  { object_diversity := Nat.min objects.length 10
    color_diversity := Nat.min colors.length 10
    tag_diversity := Nat.min tags.length 10
    complexity := calculateComplexity tags colors objects
    vibrancy := calculateVibrancy colors }

/-- The function `calculateAverageConfidence(tags)` of the source. -/
def calculateAverageConfidence (tags : List Tag) : ℚ :=
  if tags.length = 0 then 0
  else
    let firstConfidence := orZero ((tags.get? 0).bind Tag.confidence)
    let isDecimal : Bool := firstConfidence ≤ 1
    let sum := tags.foldl
      (fun acc t =>
        let conf := orZero t.confidence
        acc + (if isDecimal then conf * 100 else conf))
      (0 : ℚ)
    let avg := sum / tags.length
    min 100 (max 0 avg)

/-! ## The scene context -/

/-- The field `objects_detected` of the context. -/
structure ObjectsDetected where
  high_confidence : List ObjectItem
  all_objects : List ObjectItem
deriving DecidableEq

/-- An entry of `color_analysis.dominant` of the context. -/
structure DominantColor where
  hex : Option String
  rgb : Option Rgb
  percentage : ℚ
  name : String
  brightness : ℤ
deriving DecidableEq

/-- The field `color_analysis` of the context. -/
structure ColorSection where
  dominant : List DominantColor
  palette : List (Option String)
  color_harmony : String
  avg_brightness : ℚ
deriving DecidableEq

/-- The field `scene_analysis` of the context; `type` is spelled `sceneType`. -/
structure SceneAnalysis where
  description : String
  sceneType : String
  setting : String
  mood : String
  dominant_theme : String
deriving DecidableEq

/-- The object `context` returned by `generateSceneContext`. -/
structure Context where
  objects_detected : ObjectsDetected
  color_analysis : ColorSection
  tags_by_category : Categorized
  scene_analysis : SceneAnalysis
  composition_metrics : SceneMetrics
  overall_confidence : ℚ
  all_tags : List TagItem
deriving DecidableEq

/-- The predicate `o => o.confidence >= confidenceThreshold` of the object filter,
false on a missing confidence. -/
def passesThreshold (confidenceThreshold : ℚ) (o : Tag) : Bool :=
  match o.confidence with
  | none => false
  | some c => c ≥ confidenceThreshold

/-- The function `generateSceneContext(analysisData)` of the source. -/
def generateSceneContext (analysisData : AnalysisData) : Context :=
  let tags := (analysisData.tags.getD []).take 20
  let colors := analysisData.colors.getD []
  let objects := analysisData.objects.getD []
  let confidenceThreshold : ℚ := 0.5
  let highConfidenceObjects := objects.filter (passesThreshold confidenceThreshold)
  let allObjects := objects.take 10
  let colorAnalysis := analyzeColorsAdvanced colors
  let categorizedTags := categorizeTags tags
  let sceneMetrics := calculateSceneMetrics tags colors objects
  { objects_detected :=
      { high_confidence := (highConfidenceObjects.take 5).map objectItem
        all_objects := allObjects.map objectItem }
    color_analysis :=
      { dominant := (colorAnalysis.dominant.take 5).map fun c =>
          { hex := c.hex
            rgb := c.rgb
            percentage := toFixed2 c.percentage
            name := colorNameFromHex c.hex
            brightness := calculateBrightness c.hex }
        palette := colorAnalysis.palette.take 8
        color_harmony := analyzeColorHarmony colors
        avg_brightness := toFixed2 colorAnalysis.avg_brightness }
    tags_by_category :=
      { entities := categorizedTags.entities.take 8
        attributes := categorizedTags.attributes.take 8
        environment := categorizedTags.environment.take 8
        actions := categorizedTags.actions.take 8
        concepts := categorizedTags.concepts.take 8 }
    scene_analysis :=
      { description := generateDetailedSceneDescription tags colors objects
        sceneType := detectSceneType tags objects
        setting := detectSetting tags
        mood := detectMood colors tags
        dominant_theme := findDominantTheme tags }
    composition_metrics := sceneMetrics
    overall_confidence := toFixed2 (calculateAverageConfidence tags)
    all_tags := (tags.take 20).map tagItem }

/-! ## The response of `/api/recognize-face` -/

/-- One entry of `response.data.result.people`, with a numeric score. -/
structure Person where
  id : Option String
  score : ℚ
deriving DecidableEq

/-- An entry of `matches` in the response. -/
structure FaceMatch where
  personId : Option String
  confidence : ℚ
  level : String
deriving DecidableEq

/-- The object `topMatch` of the response. -/
structure TopMatch where
  personId : Option String
  confidence : ℚ
  isMatch : Bool
deriving DecidableEq

/-- The field `matches` of the response: `people.map(p => (...))`. -/
def recognizeMatches (people : List Person) : List FaceMatch :=
  people.map fun p =>
    { personId := p.id
      confidence := toFixed2 p.score
      level := if p.score > (80 : ℚ) then "ALTO" else if p.score > (50 : ℚ) then "MEDIO" else "BAJO" }

/-- The field `topMatch` of the response: built from `people[0]` when
`people.length > 0`, and `null` otherwise. -/
def recognizeTopMatch (people : List Person) : Option TopMatch :=
  if people.length > 0 then
    (people.get? 0).map fun p =>
      { personId := p.id
        confidence := toFixed2 p.score
        isMatch := decide (p.score > (80 : ℚ)) }
  else none

/-! ## Predicates and sample inputs used by the statements -/

/-- The threshold reading of a level label on a 0-100 confidence `p`: the label is
one of the three, `ALTO` exactly from 80, `MEDIO` exactly on `[50, 80)`, `BAJO` below 50. -/
def LevelByThresholds (p : ℚ) (level : String) : Prop :=
  (level = "ALTO" ∨ level = "MEDIO" ∨ level = "BAJO") ∧
  (level = "ALTO" ↔ 80 ≤ p) ∧
  (level = "MEDIO" ↔ 50 ≤ p ∧ p < 80) ∧
  (level = "BAJO" ↔ p < 50)

/-- The rational `v` is a double: rounding leaves it unchanged. -/
def IsDouble (v : ℚ) : Prop := roundDouble v = v

/-- The threshold reading of a level label on a raw confidence `v` taken in its own unit:
a value of at most 1 is a fraction, read against 0.8 and 0.5; a value above 1 is a
percentage, read against 80 and 50. -/
def LevelByRawThresholds (v : ℚ) (level : String) : Prop :=
  (v ≤ 1 →
    (level = "ALTO" ↔ 0.8 ≤ v) ∧ (level = "MEDIO" ↔ 0.5 ≤ v ∧ v < 0.8) ∧
    (level = "BAJO" ↔ v < 0.5)) ∧
  (1 < v →
    (level = "ALTO" ↔ 80 ≤ v) ∧ (level = "MEDIO" ↔ 50 ≤ v ∧ v < 80) ∧
    (level = "BAJO" ↔ v < 50))

/-- An emitted tag item read against the input tag it was built from: it carries the label
of the tag, its level is one of the three labels, and when the raw confidence of the tag
(0 when missing) is at most 100 the level is fixed by the thresholds on that raw confidence. -/
def TagLevelByRaw (t : Tag) (it : TagItem) : Prop :=
  it.tag = labelOf t ∧ (it.level = "ALTO" ∨ it.level = "MEDIO" ∨ it.level = "BAJO") ∧
  (orZero t.confidence ≤ 100 → LevelByRawThresholds (orZero t.confidence) it.level)

/-- An emitted object item read against the input object it was built from, as
`TagLevelByRaw` reads a tag item. -/
def ObjectLevelByRaw (o : Tag) (it : ObjectItem) : Prop :=
  it.name = labelOf o ∧ (it.level = "ALTO" ∨ it.level = "MEDIO" ∨ it.level = "BAJO") ∧
  (orZero o.confidence ≤ 100 → LevelByRawThresholds (orZero o.confidence) it.level)

/-- The saturation of one color in exact arithmetic: `(max - min) / max` of its channels,
0 when `max` is 0 or the hex does not decode. -/
def exactSaturation (c : Color) : ℚ :=
  match hexToRgb c.hex with
  | none => 0
  | some rgb =>
    let max := Nat.max (Nat.max rgb.r rgb.g) rgb.b
    let min := Nat.min (Nat.min rgb.r rgb.g) rgb.b
    if max = 0 then 0 else ((max : ℚ) - min) / max

/-- Three colors of exact saturation `1/10`, `1/5` and 0, of exact mean `1/10`. -/
def roundingSample : List Color :=
  [{ hex := some "#0A0909", percentage := some 50 },
   { hex := some "#0A0808", percentage := some 30 },
   { hex := some "#000000", percentage := some 20 }]

/-- An entry without label and without confidence, used to build lists of a given length. -/
def blankTag : Tag := { en := none, confidence := none }

/-- A color without hex and without percentage, used to build lists of a given length. -/
def blankColor : Color := { hex := none, percentage := none }

/-- A response with one tag whose raw confidence is 250. -/
def outOfRangeTagData : AnalysisData :=
  { tags := some [{ en := some "sky", confidence := some 250 }], colors := none, objects := none }

/-- A response with one object reported at 30 percent on the 0-100 scale. -/
def lowPercentObjectData : AnalysisData :=
  { tags := some [], colors := none, objects := some [{ en := some "cat", confidence := some 30 }] }

/-- A response with a tag of raw confidence 150 and a tag of raw confidence 0.79996. -/
def levelMismatchData : AnalysisData :=
  { tags := some [{ en := some "dog", confidence := some 150 },
                  { en := some "cat", confidence := some 0.79996 }]
    colors := none
    objects := none }

/-- A response with a fraction-scale tag and a percent-scale object, both at most 100. -/
def mixedUnitData : AnalysisData :=
  { tags := some [{ en := some "tree", confidence := some 0.85 }]
    colors := none
    objects := some [{ en := some "car", confidence := some 62 }] }

/-- A color list whose input order differs from its order of dominance: the most
dominant color, white at 70 percent, comes last. -/
def unsortedColorData : AnalysisData :=
  { tags := some []
    colors := some [{ hex := some "#000000", percentage := some 10 },
                    { hex := some "#000001", percentage := some 20 },
                    { hex := some "#FFFFFF", percentage := some 70 }]
    objects := none }

/-- A single mid-grey color, of brightness 60. -/
def singleGrey : List Color := [{ hex := some "#3C3C3C", percentage := some 100 }]

/-- The sixteen hexadecimal digits in both letter cases. -/
def hexDigits : List Char := "0123456789abcdefABCDEF".data

/-- A valid hex color: six hexadecimal digits of any letter case, after an optional
leading `#`. -/
def ValidHex (s : String) : Prop :=
  ∃ a b c d e f : Char,
    (s.data = [a, b, c, d, e, f] ∨ s.data = ['#', a, b, c, d, e, f]) ∧
    a ∈ hexDigits ∧ b ∈ hexDigits ∧ c ∈ hexDigits ∧ d ∈ hexDigits ∧ e ∈ hexDigits ∧
    f ∈ hexDigits

/-- The position of a category in the key order of `keywords`. -/
def Category.rank : Category → ℕ
  | .entities => 0
  | .attributes => 1
  | .environment => 2
  | .actions => 3
  | .concepts => 4

/-- The keyword list stored in `keywords` under the key `cat`. -/
def keywordsOf (cat : Category) : List String :=
  ((keywords.find? fun entry => decide (entry.1 = cat)).map Prod.snd).getD []

/-- Some keyword of the category `cat` is a substring of the lower-cased label `name`. -/
def MatchesCategory (name : String) (cat : Category) : Prop :=
  ∃ kw ∈ keywordsOf cat, kw.data <:+: name.data

/-- The category `cat` is the first one, in key order, with a keyword that is a substring
of `name`, or it is `concepts` and no category has such a keyword. -/
def FirstMatchingCategory (name : String) (cat : Category) : Prop :=
  (MatchesCategory name cat ∧ ∀ c : Category, c.rank < cat.rank → ¬ MatchesCategory name c) ∨
  (cat = .concepts ∧ ∀ c : Category, ¬ MatchesCategory name c)

/-- The keyword `kw` occurs, case-insensitively, as a substring of the label of some tag. -/
def labelHas (tags : List Tag) (kw : String) : Bool :=
  tags.any fun t => decide (kw.data <:+: (toLowerCase (labelOf t)).data)

/-- The label of the first rule of an ordered rule table one of whose keywords occurs in
some tag label, and `dflt` when no rule applies. -/
def firstRuleLabel (rules : List (List String × String)) (dflt : String) (tags : List Tag) :
    String :=
  match rules.find? fun rule => rule.1.any fun kw => labelHas tags kw with
  | some rule => rule.2
  | none => dflt

/-- The ordered rules of the scene type: keywords and label. -/
def sceneTypeRules : List (List String × String) :=
  [(["portrait", "person"], "Retrato"), (["landscape", "mountain"], "Paisaje"),
   (["food", "drink"], "Comida"), (["animal"], "Vida Silvestre"),
   (["building", "architecture"], "Arquitectura"), (["nature", "outdoor"], "Naturaleza")]

/-- The twelve reference colors of `colorNames`, decoded, in key order. -/
def referencePalette : List (Rgb × String) :=
  [(⟨0, 0, 0⟩, "Negro"), (⟨255, 255, 255⟩, "Blanco"), (⟨255, 0, 0⟩, "Rojo"),
   (⟨0, 255, 0⟩, "Verde"), (⟨0, 0, 255⟩, "Azul"), (⟨255, 255, 0⟩, "Amarillo"),
   (⟨255, 0, 255⟩, "Magenta"), (⟨0, 255, 255⟩, "Cyan"), (⟨128, 128, 128⟩, "Gris"),
   (⟨255, 165, 0⟩, "Naranja"), (⟨128, 0, 128⟩, "Púrpura"), (⟨255, 192, 203⟩, "Rosa")]

/-- The loop body of `colorNameFromHex` on a reference entry that is already decoded. -/
def paletteStep (rgb : Rgb) (st : Option ℕ × String) (entry : Rgb × String) :
    Option ℕ × String :=
  match st.1 with
  | none => (some (distSq rgb entry.1), entry.2)
  | some minDistance =>
    if distSq rgb entry.1 < minDistance then (some (distSq rgb entry.1), entry.2) else st

/-- Seven colors: five whites, one black and one entry with a malformed hex. -/
def sevenColors : List Color :=
  [{ hex := some "#FFFFFF", percentage := some 30 }, { hex := some "#FFFFFF", percentage := some 20 },
   { hex := some "#FFFFFF", percentage := some 15 }, { hex := some "#FFFFFF", percentage := some 12 },
   { hex := some "#FFFFFF", percentage := some 10 }, { hex := some "#000000", percentage := some 8 },
   { hex := some "zzz", percentage := some 5 }]

/-- The ordered rules of the setting: keywords and label. -/
def settingRules : List (List String × String) :=
  [(["indoor"], "Interior"), (["outdoor", "sky"], "Exterior"), (["night"], "Noche"),
   (["day"], "Día")]

/-! ## Auxiliary lemmas -/

/-- The modelled test `sqrtGt n k` is the comparison `k < √n` over the reals. -/
theorem sqrtGt_iff (n k : ℕ) : sqrtGt n k = true ↔ (k : ℝ) < Real.sqrt (n : ℝ) := by
  unfold sqrtGt
  rw [decide_eq_true_iff, Real.lt_sqrt (by positivity)]
  constructor
  · intro h
    have : ((k * k : ℕ) : ℝ) < n := by exact_mod_cast h
    push_cast at this
    nlinarith
  · intro h
    have : ((k * k : ℕ) : ℝ) < n := by push_cast; nlinarith
    exact_mod_cast this

/-- Rounding a quotient by 1000 of a natural number, in natural-number arithmetic. -/
theorem mathRound_div_thousand (n : ℕ) :
    mathRound ((n : ℚ) / 1000) = (((n + 500) / 1000 : ℕ) : ℤ) := by
  unfold mathRound
  have h1 := Nat.div_add_mod (n + 500) 1000
  have h2 := Nat.mod_lt (n + 500) (by norm_num : 1000 > 0)
  generalize (n + 500) / 1000 = q at h1 ⊢
  generalize (n + 500) % 1000 = r at h1 h2
  have hq : (n : ℚ) + 500 = 1000 * q + r := by exact_mod_cast h1.symm
  have hr : (r : ℚ) < 1000 := by exact_mod_cast h2
  have hr0 : (0 : ℚ) ≤ r := Nat.cast_nonneg _
  rw [Int.floor_eq_iff]
  push_cast
  constructor <;> linarith

/-- Rounding to two decimals keeps a value of `[0, 100]` inside `[0, 100]`. -/
theorem toFixed2_mem_range {x : ℚ} (h0 : 0 ≤ x) (h1 : x ≤ 100) :
    0 ≤ toFixed2 x ∧ toFixed2 x ≤ 100 := by
  unfold toFixed2
  rw [if_neg (not_lt.mpr h0)]
  have hf0 : (0 : ℤ) ≤ ⌊x * 100 + 1 / 2⌋ := Int.floor_nonneg.mpr (by linarith)
  have hf1 : ⌊x * 100 + 1 / 2⌋ ≤ (10000 : ℤ) := by
    have : ⌊x * 100 + 1 / 2⌋ < (10001 : ℤ) := Int.floor_lt.mpr (by push_cast; linarith)
    omega
  have hf0q : (0 : ℚ) ≤ (⌊x * 100 + 1 / 2⌋ : ℤ) := by exact_mod_cast hf0
  have hf1q : ((⌊x * 100 + 1 / 2⌋ : ℤ) : ℚ) ≤ 10000 := by exact_mod_cast hf1
  constructor
  · exact div_nonneg hf0q (by norm_num)
  · rw [div_le_iff₀ (by norm_num)]
    linarith

/-- The normalized percentage of a raw confidence of `[0, 100]` is in `[0, 100]`. -/
theorem confPercent_mem_range {v : ℚ} (h0 : 0 ≤ v) (h1 : v ≤ 100) :
    0 ≤ confPercent v ∧ confPercent v ≤ 100 := by
  unfold confPercent
  split_ifs with h
  · exact ⟨h0, h1⟩
  · push_neg at h
    constructor <;> linarith

/-- Reading a category list after one `push`. -/
theorem Categorized.get_push (c : Categorized) (k cat : Category) (item : TagItem) :
    (c.push k item).get cat = if k = cat then c.get cat ++ [item] else c.get cat := by
  cases k <;> cases cat <;> simp [Categorized.push, Categorized.get]

/-- The effect of the `forEach` loop of `categorizeTags` on one category list. -/
theorem categorize_foldl_get (tags : List Tag) (acc : Categorized) (cat : Category) :
    (tags.foldl
      (fun categorized t =>
        let tagName := toLowerCase (labelOf t)
        categorized.push (categoryOf tagName) (tagItem t)) acc).get cat
      = acc.get cat ++
        (tags.filter fun t => decide (categoryOf (toLowerCase (labelOf t)) = cat)).map tagItem := by
  induction tags generalizing acc with
  | nil => simp
  | cons t ts ih =>
    rw [List.foldl_cons, ih, Categorized.get_push]
    by_cases h : categoryOf (toLowerCase (labelOf t)) = cat
    · simp [h, List.filter_cons]
    · simp [h, List.filter_cons]

/-- Each category list of `categorizeTags` is the input filtered by category, in
input order, every tag turned into its item. -/
theorem categorizeTags_get (tags : List Tag) (cat : Category) :
    (categorizeTags tags).get cat
      = (tags.filter fun t => decide (categoryOf (toLowerCase (labelOf t)) = cat)).map tagItem := by
  unfold categorizeTags
  rw [categorize_foldl_get]
  cases cat <;> simp [Categorized.get]

/-- The `reduce` of `calculateAverageConfidence` is the sum of the scaled confidences. -/
theorem foldl_add_eq_sum (f : Tag → ℚ) (tags : List Tag) (init : ℚ) :
    tags.foldl (fun acc t => acc + f t) init = init + (tags.map f).sum := by
  induction tags generalizing init with
  | nil => simp
  | cons t ts ih => rw [List.foldl_cons, ih]; simp [add_assoc]

/-! ## Double-precision rounding -/

/-- Rounding to the nearest integer, ties to even, once the floor is known. -/
theorem roundHalfEven_of_floor (q : ℚ) (f : ℤ) (h1 : (f : ℚ) ≤ q) (h2 : q < f + 1) :
    roundHalfEven q =
      if q - f < 1 / 2 then f else if q - f > 1 / 2 then f + 1
      else if f % 2 = 0 then f else f + 1 := by
  have hf : ⌊q⌋ = f := Int.floor_eq_iff.mpr ⟨h1, h2⟩
  unfold roundHalfEven
  rw [hf]

/-- The nearest integer is within one half of the argument. -/
theorem roundHalfEven_bounds (q : ℚ) :
    q - 1 / 2 ≤ (roundHalfEven q : ℚ) ∧ (roundHalfEven q : ℚ) ≤ q + 1 / 2 := by
  have h1 : ((⌊q⌋ : ℤ) : ℚ) ≤ q := Int.floor_le q
  have h2 : q < ((⌊q⌋ : ℤ) : ℚ) + 1 := Int.lt_floor_add_one q
  unfold roundHalfEven
  split_ifs with a b c
  · constructor <;> linarith
  · push_cast
    constructor <;> linarith
  · constructor <;> linarith
  · push_cast
    have : q - ⌊q⌋ = 1 / 2 := le_antisymm (not_lt.mp b) (not_lt.mp a)
    constructor <;> linarith

/-- An integer is its own nearest integer. -/
theorem roundHalfEven_intCast (n : ℤ) : roundHalfEven (n : ℚ) = n := by
  rw [roundHalfEven_of_floor (n : ℚ) n le_rfl (by linarith)]
  simp

/-- Rounding to the nearest integer is monotone. -/
theorem roundHalfEven_mono {q q' : ℚ} (h : q ≤ q') : roundHalfEven q ≤ roundHalfEven q' := by
  have hf : ⌊q⌋ ≤ ⌊q'⌋ := Int.floor_mono h
  have a1 : ⌊q⌋ ≤ roundHalfEven q := by
    unfold roundHalfEven
    split_ifs <;> omega
  have a2 : roundHalfEven q ≤ ⌊q⌋ + 1 := by
    unfold roundHalfEven
    split_ifs <;> omega
  have b1 : ⌊q'⌋ ≤ roundHalfEven q' := by
    unfold roundHalfEven
    split_ifs <;> omega
  rcases eq_or_lt_of_le hf with he | hlt
  · unfold roundHalfEven
    rw [← he]
    have hd : q - ⌊q⌋ ≤ q' - ⌊q⌋ := by linarith
    split_ifs <;> first | omega | (exfalso; linarith)
  · omega

/-- The binary exponent of a positive rational lying in `[2^e, 2^(e+1))` is `e`. -/
theorem int_log_two_eq (x : ℚ) (e : ℤ) (hx : 0 < x) (h1 : (2 : ℚ) ^ e ≤ x)
    (h2 : x < (2 : ℚ) ^ (e + 1)) : Int.log 2 x = e := by
  have a : e ≤ Int.log 2 x :=
    (Int.zpow_le_iff_le_log (by norm_num) hx).mp (by exact_mod_cast h1)
  have b : Int.log 2 x < e + 1 :=
    (Int.lt_zpow_iff_log_lt (by norm_num) hx).mp (by exact_mod_cast h2)
  omega

/-- The double nearest to a positive `x` whose scaled value `x * 2^k` lies in
`[2^52, 2^53)`: the scaled value is rounded to the nearest integer `n`, ties to even, and
the double is `n / 2^k`. -/
theorem roundDouble_eval (x : ℚ) (k : ℕ) (f n : ℤ) (hx : 0 < x)
    (h1 : (2 : ℚ) ^ 52 ≤ x * 2 ^ k) (h2 : x * 2 ^ k < 2 ^ 53)
    (hf1 : (f : ℚ) ≤ x * 2 ^ k) (hf2 : x * 2 ^ k < f + 1)
    (hn : (if x * 2 ^ k - f < 1 / 2 then f else if x * 2 ^ k - f > 1 / 2 then f + 1
      else if f % 2 = 0 then f else f + 1) = n) :
    roundDouble x = n / 2 ^ k := by
  have hk : (0 : ℚ) < 2 ^ k := by positivity
  have hz : ((2 : ℚ) ^ ((52 : ℤ) - k)) = 2 ^ 52 / 2 ^ k := by
    rw [zpow_sub₀ (by norm_num)]
    norm_cast
  have hz1 : ((2 : ℚ) ^ ((52 : ℤ) - k + 1)) = 2 ^ 53 / 2 ^ k := by
    rw [zpow_add_one₀ (by norm_num), hz]
    ring
  have hlog : Int.log 2 |x| = 52 - k := by
    rw [abs_of_pos hx]
    apply int_log_two_eq x _ hx
    · rw [hz, div_le_iff₀ hk]
      exact h1
    · rw [hz1, lt_div_iff₀ hk]
      exact h2
  have hu : ((2 : ℚ) ^ ((52 : ℤ) - k - 52)) = 1 / 2 ^ k := by
    have : (52 : ℤ) - k - 52 = -(k : ℤ) := by ring
    rw [this, zpow_neg, zpow_natCast, one_div]
  unfold roundDouble
  rw [if_neg (ne_of_gt hx), hlog, hu]
  have hq : x / (1 / 2 ^ k) = x * 2 ^ k := by
    field_simp
  rw [hq, roundHalfEven_of_floor _ f hf1 hf2, hn]
  ring

/-- Rounding a nonnegative value to a double changes it by a relative error of at most
`2^-53`. -/
theorem roundDouble_rel (x : ℚ) (hx : 0 ≤ x) :
    x * (1 - 1 / 2 ^ 53) ≤ roundDouble x ∧ roundDouble x ≤ x * (1 + 1 / 2 ^ 53) := by
  rcases eq_or_lt_of_le hx with h0 | hpos
  · subst h0
    simp [roundDouble]
  · unfold roundDouble
    rw [if_neg (ne_of_gt hpos), abs_of_pos hpos]
    have hu : (0 : ℚ) < 2 ^ (Int.log 2 x - 52) := by positivity
    have hb := roundHalfEven_bounds (x / 2 ^ (Int.log 2 x - 52))
    have hle : (2 : ℚ) ^ (Int.log 2 x) ≤ x := by
      have := Int.zpow_log_le_self (b := 2) (by norm_num) hpos
      exact_mod_cast this
    have hsplit : (2 : ℚ) ^ (Int.log 2 x - 52) = 2 ^ (Int.log 2 x) / 2 ^ 52 := by
      rw [zpow_sub₀ (by norm_num)]
      norm_cast
    have hux : (2 : ℚ) ^ (Int.log 2 x - 52) ≤ x / 2 ^ 52 := by
      rw [hsplit]
      exact div_le_div_of_nonneg_right hle (by positivity)
    generalize (2 : ℚ) ^ (Int.log 2 x - 52) = u at *
    have e1 : x / u * u = x := div_mul_cancel₀ x (ne_of_gt hu)
    have l1 := mul_le_mul_of_nonneg_right hb.1 (le_of_lt hu)
    have l2 := mul_le_mul_of_nonneg_right hb.2 (le_of_lt hu)
    rw [sub_mul, e1] at l1
    rw [add_mul, e1] at l2
    constructor
    · have : x * (1 - 1 / 2 ^ 53) = x - x / 2 ^ 52 * (1 / 2) := by ring
      rw [this]
      nlinarith
    · have : x * (1 + 1 / 2 ^ 53) = x + x / 2 ^ 52 * (1 / 2) := by ring
      rw [this]
      nlinarith

/-- The double nearest to a positive value, with the absolute value removed. -/
theorem roundDouble_of_pos {x : ℚ} (hx : 0 < x) :
    roundDouble x = (roundHalfEven (x / 2 ^ (Int.log 2 x - 52)) : ℚ) * 2 ^ (Int.log 2 x - 52) := by
  unfold roundDouble
  rw [if_neg (ne_of_gt hx), abs_of_pos hx]

/-- A positive value divided by the spacing of its binade lies in `[2^52, 2^53)`. -/
theorem scaled_bounds {x : ℚ} (hx : 0 < x) :
    (2 : ℚ) ^ 52 ≤ x / 2 ^ (Int.log 2 x - 52) ∧ x / 2 ^ (Int.log 2 x - 52) < 2 ^ 53 := by
  have hu : (0 : ℚ) < 2 ^ (Int.log 2 x - 52) := by positivity
  have hle : (2 : ℚ) ^ (Int.log 2 x) ≤ x := by
    have := Int.zpow_log_le_self (b := 2) (by norm_num) hx
    exact_mod_cast this
  have hlt : x < (2 : ℚ) ^ (Int.log 2 x + 1) := by
    have := Int.lt_zpow_succ_log_self (b := 2) (by norm_num) x
    exact_mod_cast this
  have e1 : (2 : ℚ) ^ (Int.log 2 x) = 2 ^ 52 * 2 ^ (Int.log 2 x - 52) := by
    rw [zpow_sub₀ (by norm_num)]
    field_simp
    ring
  have e2 : (2 : ℚ) ^ (Int.log 2 x + 1) = 2 ^ 53 * 2 ^ (Int.log 2 x - 52) := by
    rw [zpow_add_one₀ (by norm_num), e1]
    ring
  constructor
  · rw [le_div_iff₀ hu, ← e1]
    exact hle
  · rw [div_lt_iff₀ hu, ← e2]
    exact hlt

/-- The double nearest to a positive value stays in the closure of its binade. -/
theorem roundDouble_binade {x : ℚ} (hx : 0 < x) :
    (2 : ℚ) ^ (Int.log 2 x) ≤ roundDouble x ∧ roundDouble x ≤ 2 ^ (Int.log 2 x + 1) := by
  have hu : (0 : ℚ) < 2 ^ (Int.log 2 x - 52) := by positivity
  have hb := scaled_bounds hx
  have e1 : (2 : ℚ) ^ (Int.log 2 x) = 2 ^ 52 * 2 ^ (Int.log 2 x - 52) := by
    rw [zpow_sub₀ (by norm_num)]
    field_simp
    ring
  have e2 : (2 : ℚ) ^ (Int.log 2 x + 1) = 2 ^ 53 * 2 ^ (Int.log 2 x - 52) := by
    rw [zpow_add_one₀ (by norm_num), e1]
    ring
  have m1 : ((2 ^ 52 : ℤ) : ℚ) ≤ x / 2 ^ (Int.log 2 x - 52) := by
    push_cast
    exact hb.1
  have m2 : x / 2 ^ (Int.log 2 x - 52) ≤ ((2 ^ 53 : ℤ) : ℚ) := by
    push_cast
    exact le_of_lt hb.2
  have r1 := roundHalfEven_mono m1
  have r2 := roundHalfEven_mono m2
  rw [roundHalfEven_intCast] at r1 r2
  have r1q : ((2 : ℚ) ^ 52) ≤ (roundHalfEven (x / 2 ^ (Int.log 2 x - 52)) : ℚ) := by
    exact_mod_cast r1
  have r2q : (roundHalfEven (x / 2 ^ (Int.log 2 x - 52)) : ℚ) ≤ (2 : ℚ) ^ 53 := by
    exact_mod_cast r2
  rw [roundDouble_of_pos hx, e1, e2]
  constructor
  · exact mul_le_mul_of_nonneg_right r1q (le_of_lt hu)
  · exact mul_le_mul_of_nonneg_right r2q (le_of_lt hu)

/-- Zero is a double. -/
theorem roundDouble_zero : roundDouble 0 = 0 := by
  simp [roundDouble]

/-- The double nearest to a nonnegative value is nonnegative. -/
theorem roundDouble_nonneg {x : ℚ} (hx : 0 ≤ x) : 0 ≤ roundDouble x := by
  rcases eq_or_lt_of_le hx with h0 | hpos
  · subst h0
    rw [roundDouble_zero]
  · exact le_trans (by positivity) (roundDouble_binade hpos).1

/-- Rounding to the nearest double is monotone on the nonnegative values. -/
theorem roundDouble_mono {x y : ℚ} (hx : 0 ≤ x) (h : x ≤ y) : roundDouble x ≤ roundDouble y := by
  rcases eq_or_lt_of_le hx with h0 | hpos
  · subst h0
    rw [roundDouble_zero]
    exact roundDouble_nonneg h
  · have hy : 0 < y := lt_of_lt_of_le hpos h
    have hlog : Int.log 2 x ≤ Int.log 2 y := Int.log_mono_right hpos h
    rcases eq_or_lt_of_le hlog with he | hlt
    · rw [roundDouble_of_pos hpos, roundDouble_of_pos hy, he]
      have hu : (0 : ℚ) < 2 ^ (Int.log 2 y - 52) := by positivity
      have hq : x / 2 ^ (Int.log 2 y - 52) ≤ y / 2 ^ (Int.log 2 y - 52) :=
        div_le_div_of_nonneg_right h (le_of_lt hu)
      have := roundHalfEven_mono hq
      have hc : (roundHalfEven (x / 2 ^ (Int.log 2 y - 52)) : ℚ)
          ≤ (roundHalfEven (y / 2 ^ (Int.log 2 y - 52)) : ℚ) := by exact_mod_cast this
      exact mul_le_mul_of_nonneg_right hc (le_of_lt hu)
    · have h1 := (roundDouble_binade hpos).2
      have h2 := (roundDouble_binade hy).1
      have h3 : (2 : ℚ) ^ (Int.log 2 x + 1) ≤ 2 ^ (Int.log 2 y) :=
        zpow_le_zpow_right₀ (by norm_num) (by omega)
      linarith

/-- A positive double whose scaled value `v * 2^k` lies in `[2^52, 2^53)` is an integer
multiple of `1 / 2^k`. -/
theorem double_grid {v : ℚ} (k : ℕ) (hd : IsDouble v) (hv : 0 < v)
    (h1 : (2 : ℚ) ^ 52 ≤ v * 2 ^ k) (h2 : v * 2 ^ k < 2 ^ 53) :
    ∃ n : ℤ, v = n / 2 ^ k := by
  unfold IsDouble at hd
  have hk : (0 : ℚ) < 2 ^ k := by positivity
  have hz : ((2 : ℚ) ^ ((52 : ℤ) - k)) = 2 ^ 52 / 2 ^ k := by
    rw [zpow_sub₀ (by norm_num)]
    norm_cast
  have hz1 : ((2 : ℚ) ^ ((52 : ℤ) - k + 1)) = 2 ^ 53 / 2 ^ k := by
    rw [zpow_add_one₀ (by norm_num), hz]
    ring
  have hlog : Int.log 2 v = 52 - k := by
    apply int_log_two_eq v _ hv
    · rw [hz, div_le_iff₀ hk]
      exact h1
    · rw [hz1, lt_div_iff₀ hk]
      exact h2
  have hu : ((2 : ℚ) ^ ((52 : ℤ) - k - 52)) = 1 / 2 ^ k := by
    have : (52 : ℤ) - k - 52 = -(k : ℤ) := by ring
    rw [this, zpow_neg, zpow_natCast, one_div]
  rw [roundDouble_of_pos hv, hlog, hu] at hd
  refine ⟨roundHalfEven (v / (1 / 2 ^ k)), ?_⟩
  rw [eq_div_iff (ne_of_gt hk)]
  have e : (roundHalfEven (v / (1 / 2 ^ k)) : ℚ) * (1 / 2 ^ k) * 2 ^ k
      = roundHalfEven (v / (1 / 2 ^ k)) := by
    field_simp
  rw [← e, hd]

/-- The double nearest to a nonnegative value is a double: rounding it again changes
nothing. -/
theorem isDouble_roundDouble {x : ℚ} (hx : 0 ≤ x) : IsDouble (roundDouble x) := by
  unfold IsDouble
  rcases eq_or_lt_of_le hx with h0 | hpos
  · subst h0
    rw [roundDouble_zero, roundDouble_zero]
  · have hu : (0 : ℚ) < 2 ^ (Int.log 2 x - 52) := by positivity
    have hb := scaled_bounds hpos
    have e1 : (2 : ℚ) ^ (Int.log 2 x) = 2 ^ 52 * 2 ^ (Int.log 2 x - 52) := by
      rw [zpow_sub₀ (by norm_num)]
      field_simp
      ring
    have e2 : (2 : ℚ) ^ (Int.log 2 x + 1) = 2 ^ 53 * 2 ^ (Int.log 2 x - 52) := by
      rw [zpow_add_one₀ (by norm_num), e1]
      ring
    have e3 : (2 : ℚ) ^ (Int.log 2 x + 1 + 1) = 2 ^ 54 * 2 ^ (Int.log 2 x - 52) := by
      rw [zpow_add_one₀ (by norm_num), e2]
      ring
    have e4 : (2 : ℚ) ^ (Int.log 2 x + 1 - 52) = 2 * 2 ^ (Int.log 2 x - 52) := by
      have : Int.log 2 x + 1 - 52 = Int.log 2 x - 52 + 1 := by ring
      rw [this, zpow_add_one₀ (by norm_num)]
      ring
    have m1 : ((2 ^ 52 : ℤ) : ℚ) ≤ x / 2 ^ (Int.log 2 x - 52) := by
      push_cast
      exact hb.1
    have m2 : x / 2 ^ (Int.log 2 x - 52) ≤ ((2 ^ 53 : ℤ) : ℚ) := by
      push_cast
      exact le_of_lt hb.2
    have r1 := roundHalfEven_mono m1
    have r2 := roundHalfEven_mono m2
    rw [roundHalfEven_intCast] at r1 r2
    rw [roundDouble_of_pos hpos]
    generalize roundHalfEven (x / 2 ^ (Int.log 2 x - 52)) = n at r1 r2
    have r1q : ((2 : ℚ) ^ 52) ≤ (n : ℚ) := by exact_mod_cast r1
    have hy : (0 : ℚ) < (n : ℚ) * 2 ^ (Int.log 2 x - 52) :=
      mul_pos (lt_of_lt_of_le (by norm_num) r1q) hu
    rcases eq_or_lt_of_le r2 with htop | hlt
    · -- the significand overflows to the next power of two
      have hn : (n : ℚ) = 2 ^ 53 := by
        rw [htop]
        norm_num
      have hlog : Int.log 2 ((n : ℚ) * 2 ^ (Int.log 2 x - 52)) = Int.log 2 x + 1 := by
        apply int_log_two_eq _ _ hy
        · rw [e2, hn]
        · rw [e3, hn]
          exact mul_lt_mul_of_pos_right (by norm_num) hu
      rw [roundDouble_of_pos hy, hlog, e4, hn]
      have hq : (2 : ℚ) ^ 53 * 2 ^ (Int.log 2 x - 52) / (2 * 2 ^ (Int.log 2 x - 52))
          = ((2 ^ 52 : ℤ) : ℚ) := by
        push_cast
        field_simp
        ring
      rw [hq, roundHalfEven_intCast]
      push_cast
      ring
    · have hltq : (n : ℚ) < 2 ^ 53 := by exact_mod_cast hlt
      have hlog : Int.log 2 ((n : ℚ) * 2 ^ (Int.log 2 x - 52)) = Int.log 2 x := by
        apply int_log_two_eq _ _ hy
        · rw [e1]
          exact mul_le_mul_of_nonneg_right r1q (le_of_lt hu)
        · rw [e2]
          exact mul_lt_mul_of_pos_right hltq hu
      rw [roundDouble_of_pos hy, hlog, mul_div_assoc, div_self (ne_of_gt hu), mul_one,
        roundHalfEven_intCast]

/-- The literal `0.4` denotes the double `7205759403792794 / 2^54`. -/
theorem roundDouble_two_fifths : roundDouble 0.4 = 7205759403792794 / 2 ^ 54 := by
  apply roundDouble_eval 0.4 54 7205759403792793 7205759403792794 <;> norm_num

/-- The literal `0.3` denotes the double `5404319552844595 / 2^54`. -/
theorem roundDouble_three_tenths : roundDouble 0.3 = 5404319552844595 / 2 ^ 54 := by
  apply roundDouble_eval 0.3 54 5404319552844595 5404319552844595 <;> norm_num

/-- The literal `0.1` denotes the double `7205759403792794 / 2^56`. -/
theorem roundDouble_one_tenth : roundDouble 0.1 = 7205759403792794 / 2 ^ 56 := by
  apply roundDouble_eval 0.1 56 7205759403792793 7205759403792794 <;> norm_num

/-- The literal `0.5` is a double. -/
theorem roundDouble_one_half : roundDouble 0.5 = 1 / 2 := by
  have := roundDouble_eval 0.5 53 4503599627370496 4503599627370496 (by norm_num) (by norm_num)
    (by norm_num) (by norm_num) (by norm_num) (by norm_num)
  rw [this]
  norm_num

/-- The literal `0.01` denotes the double `5764607523034235 / 2^59`. -/
theorem roundDouble_one_hundredth : roundDouble 0.01 = 5764607523034235 / 2 ^ 59 := by
  apply roundDouble_eval 0.01 59 5764607523034234 5764607523034235 <;> norm_num

/-- The literal `0.8` denotes the double `7205759403792794 / 2^53`. -/
theorem roundDouble_four_fifths : roundDouble 0.8 = 7205759403792794 / 2 ^ 53 := by
  apply roundDouble_eval 0.8 53 7205759403792793 7205759403792794 <;> norm_num

/-- The number 1 is a double. -/
theorem roundDouble_one : roundDouble 1 = 1 := by
  have := roundDouble_eval 1 52 4503599627370496 4503599627370496 (by norm_num)
    (by norm_num) (by norm_num) (by norm_num) (by norm_num) (by norm_num)
  rw [this]
  norm_num

/-- The number 80 is a double. -/
theorem roundDouble_eighty : roundDouble 80 = 80 := by
  have := roundDouble_eval 80 46 5629499534213120 5629499534213120 (by norm_num)
    (by norm_num) (by norm_num) (by norm_num) (by norm_num) (by norm_num)
  rw [this]
  norm_num

/-- The number 50 is a double. -/
theorem roundDouble_fifty : roundDouble 50 = 50 := by
  have := roundDouble_eval 50 47 7036874417766400 7036874417766400 (by norm_num)
    (by norm_num) (by norm_num) (by norm_num) (by norm_num) (by norm_num)
  rw [this]
  norm_num

/-- One more rounding lowers a lower bound by one more factor `1 - 2^-53`. -/
theorem roundDouble_lower {x L : ℚ} {k : ℕ} (hL : 0 ≤ L) (h : L * (1 - 1 / 2 ^ 53) ^ k ≤ x) :
    L * (1 - 1 / 2 ^ 53) ^ (k + 1) ≤ roundDouble x := by
  have hlo : (0 : ℚ) ≤ 1 - 1 / 2 ^ 53 := by norm_num
  have hx : 0 ≤ x := le_trans (mul_nonneg hL (pow_nonneg hlo k)) h
  have h1 := (roundDouble_rel x hx).1
  have h2 := mul_le_mul_of_nonneg_right h hlo
  rw [pow_succ, ← mul_assoc]
  linarith

/-- One more rounding raises an upper bound by one more factor `1 + 2^-53`. -/
theorem roundDouble_upper {x U : ℚ} {k : ℕ} (hx : 0 ≤ x) (h : x ≤ U * (1 + 1 / 2 ^ 53) ^ k) :
    roundDouble x ≤ U * (1 + 1 / 2 ^ 53) ^ (k + 1) := by
  have hhi : (0 : ℚ) ≤ 1 + 1 / 2 ^ 53 := by norm_num
  have h1 := (roundDouble_rel x hx).2
  have h2 := mul_le_mul_of_nonneg_right h hhi
  rw [pow_succ, ← mul_assoc]
  linarith

/-- A lower bound with more roundings is weaker. -/
theorem lower_weaken {L : ℚ} {j k : ℕ} (hL : 0 ≤ L) (hjk : j ≤ k) :
    L * (1 - 1 / 2 ^ 53) ^ k ≤ L * (1 - 1 / 2 ^ 53) ^ j :=
  mul_le_mul_of_nonneg_left
    (pow_le_pow_of_le_one (by norm_num) (by norm_num) hjk) hL

/-- An upper bound with more roundings is weaker. -/
theorem upper_weaken {U : ℚ} {j k : ℕ} (hU : 0 ≤ U) (hjk : j ≤ k) :
    U * (1 + 1 / 2 ^ 53) ^ j ≤ U * (1 + 1 / 2 ^ 53) ^ k :=
  mul_le_mul_of_nonneg_left (pow_le_pow_right₀ (by norm_num) hjk) hU

/-! ## The level label under double rounding -/

/-- The level of a percentage above 1, by the thresholds 80 and 50. -/
theorem getConfidenceLevel_percent {p : ℚ} (hp : 1 < p) :
    (80 ≤ p → getConfidenceLevel p = "ALTO") ∧
    (50 ≤ p → p < 80 → getConfidenceLevel p = "MEDIO") ∧
    (p < 50 → getConfidenceLevel p = "BAJO") := by
  unfold getConfidenceLevel
  simp only [if_pos hp]
  refine ⟨?_, ?_, ?_⟩
  · intro h
    rw [if_pos (by norm_num; linarith)]
  · intro h1 h2
    rw [if_neg (by norm_num; linarith), if_pos (by norm_num; linarith)]
  · intro h
    rw [if_neg (by norm_num; linarith), if_neg (by norm_num; linarith)]

/-- The level of a fraction of at most 1, by the thresholds 0.8 and 0.5. -/
theorem getConfidenceLevel_fraction {v : ℚ} (hv : v ≤ 1) :
    (4 / 5 ≤ v → getConfidenceLevel v = "ALTO") ∧
    (1 / 2 ≤ v → v < 4 / 5 → getConfidenceLevel v = "MEDIO") ∧
    (v < 1 / 2 → getConfidenceLevel v = "BAJO") := by
  unfold getConfidenceLevel
  simp only [if_neg (not_lt.mpr hv)]
  refine ⟨?_, ?_, ?_⟩
  · intro h
    rw [if_pos (by norm_num; linarith)]
  · intro h1 h2
    rw [if_neg (by norm_num; linarith), if_pos (by norm_num; linarith)]
  · intro h
    rw [if_neg (by norm_num; linarith), if_neg (by norm_num; linarith)]

/-- A double is at least the literal `0.8` exactly when it is at least four fifths. -/
theorem double_ge_four_fifths {v : ℚ} (hd : IsDouble v) : roundDouble 0.8 ≤ v ↔ 4 / 5 ≤ v := by
  rw [roundDouble_four_fifths]
  constructor
  · intro h
    norm_num at h ⊢
    linarith
  · intro h
    by_cases h1 : v < 1
    · obtain ⟨n, hn⟩ := double_grid 53 hd (by linarith) (by linarith) (by linarith)
      have hn1 : (36028797018963968 : ℚ) ≤ 5 * n := by
        have : (n : ℚ) = v * 2 ^ 53 := by
          rw [hn]
          field_simp
        rw [this]
        norm_num
        linarith
      have hn2 : (36028797018963968 : ℤ) ≤ 5 * n := by exact_mod_cast hn1
      have hn3 : (7205759403792794 : ℤ) ≤ n := by omega
      have hn4 : (7205759403792794 : ℚ) ≤ n := by exact_mod_cast hn3
      rw [hn]
      exact div_le_div_of_nonneg_right hn4 (by positivity)
    · have : 1 ≤ v := not_lt.mp h1
      norm_num at this ⊢
      linarith

/-- The rounded quotient `v / 100` of a positive double reaches the literal `0.8` exactly
when `v` reaches 80, and reaches `0.5` exactly when `v` reaches 50. -/
theorem fdiv_hundred_thresholds {v : ℚ} (hd : IsDouble v) (hv : 0 < v) :
    (roundDouble 0.8 ≤ fdiv v 100 ↔ 80 ≤ v) ∧ (roundDouble 0.5 ≤ fdiv v 100 ↔ 50 ≤ v) := by
  have hq0 : 0 ≤ v / 100 := by positivity
  unfold fdiv
  constructor
  · constructor
    · intro h
      by_contra hlt
      have hlt' : v < 80 := not_le.mp hlt
      have hv1 : v ≤ 5629499534213119 / 2 ^ 46 := by
        by_cases hq : 64 ≤ v
        · obtain ⟨n, hn⟩ := double_grid 46 hd hv (by norm_num at hq ⊢; linarith)
            (by norm_num; linarith)
          have hn1 : (n : ℚ) < 5629499534213120 := by
            have : (n : ℚ) = v * 2 ^ 46 := by
              rw [hn]
              field_simp
            rw [this]
            norm_num
            linarith
          have hn2 : n < 5629499534213120 := by exact_mod_cast hn1
          have hn3 : n ≤ 5629499534213119 := by omega
          have hn4 : (n : ℚ) ≤ 5629499534213119 := by exact_mod_cast hn3
          rw [hn]
          exact div_le_div_of_nonneg_right hn4 (by positivity)
        · have : v < 64 := not_le.mp hq
          norm_num at this ⊢
          linarith
      have hup := roundDouble_mono hq0
        (show v / 100 ≤ 5629499534213119 / 2 ^ 46 / 100 by linarith)
      have e : roundDouble (5629499534213119 / 2 ^ 46 / 100) = 7205759403792792 / 2 ^ 53 :=
        roundDouble_eval _ 53 7205759403792792 7205759403792792 (by norm_num)
          (by norm_num) (by norm_num) (by norm_num) (by norm_num) (by norm_num)
      rw [e] at hup
      rw [roundDouble_four_fifths] at h
      norm_num at h hup
      linarith
    · intro h
      have := roundDouble_mono (show (0 : ℚ) ≤ 0.8 by norm_num)
        (show (0.8 : ℚ) ≤ v / 100 by norm_num; linarith)
      exact this
  · rw [roundDouble_one_half]
    constructor
    · intro h
      by_contra hlt
      have hlt' : v < 50 := not_le.mp hlt
      have hv1 : v ≤ 7036874417766399 / 2 ^ 47 := by
        by_cases hq : 32 ≤ v
        · obtain ⟨n, hn⟩ := double_grid 47 hd hv (by norm_num at hq ⊢; linarith)
            (by norm_num; linarith)
          have hn1 : (n : ℚ) < 7036874417766400 := by
            have : (n : ℚ) = v * 2 ^ 47 := by
              rw [hn]
              field_simp
            rw [this]
            norm_num
            linarith
          have hn2 : n < 7036874417766400 := by exact_mod_cast hn1
          have hn3 : n ≤ 7036874417766399 := by omega
          have hn4 : (n : ℚ) ≤ 7036874417766399 := by exact_mod_cast hn3
          rw [hn]
          exact div_le_div_of_nonneg_right hn4 (by positivity)
        · have : v < 32 := not_le.mp hq
          norm_num at this ⊢
          linarith
      have hup := roundDouble_mono hq0
        (show v / 100 ≤ 7036874417766399 / 2 ^ 47 / 100 by linarith)
      have e : roundDouble (7036874417766399 / 2 ^ 47 / 100) = 9007199254740991 / 2 ^ 54 :=
        roundDouble_eval _ 54 9007199254740990 9007199254740991 (by norm_num)
          (by norm_num) (by norm_num) (by norm_num) (by norm_num) (by norm_num)
      rw [e] at hup
      norm_num at h hup
      linarith
    · intro h
      have := roundDouble_mono (show (0 : ℚ) ≤ 0.5 by norm_num)
        (show (0.5 : ℚ) ≤ v / 100 by norm_num; linarith)
      rw [roundDouble_one_half] at this
      exact this

/-- On every double, the level computed with the rounded quotient and the rounded literals
is the level computed over the exact rationals. -/
theorem getConfidenceLevelDouble_eq {v : ℚ} (hd : IsDouble v) :
    getConfidenceLevelDouble v = getConfidenceLevel v := by
  by_cases hv : v > 1
  · obtain ⟨t80, t50⟩ := fdiv_hundred_thresholds hd (lt_trans (by norm_num) hv)
    unfold getConfidenceLevelDouble getConfidenceLevel
    simp only [if_pos hv, ge_iff_le, t80, t50]
    have a : (0.8 : ℚ) ≤ v / 100 ↔ 80 ≤ v := by
      rw [le_div_iff₀ (by norm_num)]
      norm_num
    have b : (0.5 : ℚ) ≤ v / 100 ↔ 50 ≤ v := by
      rw [le_div_iff₀ (by norm_num)]
      norm_num
    simp only [a, b]
  · have t80 := double_ge_four_fifths hd
    unfold getConfidenceLevelDouble getConfidenceLevel
    simp only [if_neg hv, ge_iff_le, t80, roundDouble_one_half]
    norm_num

/-- On a double raw confidence of at most 100, the level that a per-item mapping computes
with the rounded quotient `confValue / 100` and the rounded literals is the level computed
over the exact rationals. -/
theorem getConfidenceLevelDouble_item {v : ℚ} (hd : IsDouble v) (h100 : v ≤ 100) :
    getConfidenceLevelDouble (if v > 1 then fdiv v 100 else v)
      = getConfidenceLevel (confFraction v) := by
  by_cases hv : v > 1
  · have hv0 : 0 < v := lt_trans (by norm_num) hv
    obtain ⟨t80, t50⟩ := fdiv_hundred_thresholds hd hv0
    have hq1 : fdiv v 100 ≤ 1 := by
      have := roundDouble_mono (show (0 : ℚ) ≤ v / 100 by positivity)
        (show v / 100 ≤ 1 by rw [div_le_iff₀ (by norm_num)]; linarith)
      rw [roundDouble_one] at this
      exact this
    have hq2 : v / 100 ≤ 1 := by
      rw [div_le_iff₀ (by norm_num)]
      linarith
    unfold getConfidenceLevelDouble getConfidenceLevel confFraction
    simp only [if_pos hv, if_neg (not_lt.mpr hq1), if_neg (not_lt.mpr hq2), ge_iff_le, t80, t50]
    have a : (0.8 : ℚ) ≤ v / 100 ↔ 80 ≤ v := by
      rw [le_div_iff₀ (by norm_num)]
      norm_num
    have b : (0.5 : ℚ) ≤ v / 100 ↔ 50 ≤ v := by
      rw [le_div_iff₀ (by norm_num)]
      norm_num
    simp only [a, b]
  · have t80 := double_ge_four_fifths hd
    unfold getConfidenceLevelDouble getConfidenceLevel confFraction
    simp only [if_neg hv, ge_iff_le, t80, roundDouble_one_half]
    norm_num

/-! ## Confidence classification -/

/-- Claim C4: on every confidence `c` of `[0, 1]`, `getConfidenceLevel` returns `ALTO`
iff `c ≥ 0.8`, `MEDIO` iff `0.5 ≤ c < 0.8` and `BAJO` iff `c < 0.5`; in particular
`0.8` is `ALTO`, `0.79999` is `MEDIO`, `0.5` is `MEDIO` and `0.49999` is `BAJO`. -/
theorem getConfidenceLevel_unit_interval :
    (∀ c : ℚ, 0 ≤ c → c ≤ 1 →
      (getConfidenceLevel c = "ALTO" ↔ c ≥ 0.8) ∧
      (getConfidenceLevel c = "MEDIO" ↔ 0.5 ≤ c ∧ c < 0.8) ∧
      (getConfidenceLevel c = "BAJO" ↔ c < 0.5)) ∧
    getConfidenceLevel 0.8 = "ALTO" ∧ getConfidenceLevel 0.79999 = "MEDIO" ∧
    getConfidenceLevel 0.5 = "MEDIO" ∧ getConfidenceLevel 0.49999 = "BAJO" := by
  refine ⟨?_, by norm_num [getConfidenceLevel], by norm_num [getConfidenceLevel],
    by norm_num [getConfidenceLevel], by norm_num [getConfidenceLevel]⟩
  intro c _ h1
  have hn : ¬ c > 1 := not_lt.mpr h1
  have e1 : ("MEDIO" : String) ≠ "ALTO" := by decide
  have e2 : ("BAJO" : String) ≠ "ALTO" := by decide
  have e3 : ("ALTO" : String) ≠ "MEDIO" := by decide
  have e4 : ("BAJO" : String) ≠ "MEDIO" := by decide
  have e5 : ("ALTO" : String) ≠ "BAJO" := by decide
  have e6 : ("MEDIO" : String) ≠ "BAJO" := by decide
  simp only [getConfidenceLevel, if_neg hn]
  by_cases ha : c ≥ 0.8
  · have hb : (0.5 : ℚ) ≤ c := by norm_num at ha ⊢; linarith
    have hc : ¬ c < 0.8 := not_lt.mpr ha
    have hd : ¬ c < 0.5 := not_lt.mpr hb
    simp [if_pos ha, e3, e5, ha, hc, hd]
  · by_cases hb : c ≥ 0.5
    · have hc : c < 0.8 := not_le.mp ha
      have hd : ¬ c < 0.5 := not_lt.mpr hb
      simp only [if_neg ha, if_pos hb]
      exact ⟨⟨fun h => absurd h e1, fun h => absurd h ha⟩, ⟨fun _ => ⟨hb, hc⟩, fun _ => trivial⟩,
        ⟨fun h => absurd h e6, fun h => absurd h hd⟩⟩
    · have hd : c < 0.5 := not_le.mp hb
      simp only [if_neg ha, if_neg hb]
      exact ⟨⟨fun h => absurd h e2, fun h => absurd h ha⟩,
        ⟨fun h => absurd h e4, fun h => absurd h.1 hb⟩, ⟨fun _ => hd, fun _ => trivial⟩⟩

/-- Claim C4, at the confidence `3/4`: the level is `MEDIO`. -/
theorem getConfidenceLevel_unit_interval_witness :
    (getConfidenceLevel (3 / 4) = "ALTO" ↔ (3 / 4 : ℚ) ≥ 0.8) ∧
    (getConfidenceLevel (3 / 4) = "MEDIO" ↔ 0.5 ≤ (3 / 4 : ℚ) ∧ (3 / 4 : ℚ) < 0.8) ∧
    (getConfidenceLevel (3 / 4) = "BAJO" ↔ (3 / 4 : ℚ) < 0.5) :=
  getConfidenceLevel_unit_interval.1 (3 / 4) (by norm_num) (by norm_num)

/-- The label of an entry whose `tag.en` is a non-empty string is that string. -/
theorem labelOf_some (s : String) (c : Option ℚ) (h : s ≠ "") :
    labelOf { en := some s, confidence := c } = s := by
  simp [labelOf, strFalsy, h]

/-! ## Provenance of the emitted items -/

/-- Every entry of `all_tags` is the item of an input tag. -/
theorem mem_all_tags {d : AnalysisData} {it : TagItem}
    (h : it ∈ (generateSceneContext d).all_tags) : ∃ t ∈ d.tags.getD [], it = tagItem t := by
  simp only [generateSceneContext, List.mem_map] at h
  obtain ⟨t, ht, rfl⟩ := h
  exact ⟨t, List.mem_of_mem_take (List.mem_of_mem_take ht), rfl⟩

/-- Every entry of `objects_detected.all_objects` is the item of an input object. -/
theorem mem_all_objects {d : AnalysisData} {it : ObjectItem}
    (h : it ∈ (generateSceneContext d).objects_detected.all_objects) :
    ∃ o ∈ d.objects.getD [], it = objectItem o := by
  simp only [generateSceneContext, List.mem_map] at h
  obtain ⟨o, ho, rfl⟩ := h
  exact ⟨o, List.mem_of_mem_take ho, rfl⟩

/-- Every entry of `objects_detected.high_confidence` is the item of an input object
that passed the raw filter `o.confidence >= 0.5`. -/
theorem mem_high_confidence {d : AnalysisData} {it : ObjectItem}
    (h : it ∈ (generateSceneContext d).objects_detected.high_confidence) :
    ∃ o ∈ d.objects.getD [], passesThreshold 0.5 o = true ∧ it = objectItem o := by
  simp only [generateSceneContext, List.mem_map] at h
  obtain ⟨o, ho, rfl⟩ := h
  have ho2 := List.mem_of_mem_take ho
  rw [List.mem_filter] at ho2
  exact ⟨o, ho2.1, ho2.2, rfl⟩

/-- The category lists of the context are those of `categorizeTags`, cut at 8. -/
theorem tags_by_category_get (d : AnalysisData) (cat : Category) :
    (generateSceneContext d).tags_by_category.get cat
      = ((categorizeTags ((d.tags.getD []).take 20)).get cat).take 8 := by
  cases cat <;> rfl

/-- Every entry of a list of `tags_by_category` is the item of an input tag. -/
theorem mem_tags_by_category {d : AnalysisData} {cat : Category} {it : TagItem}
    (h : it ∈ (generateSceneContext d).tags_by_category.get cat) :
    ∃ t ∈ d.tags.getD [], it = tagItem t := by
  rw [tags_by_category_get, categorizeTags_get] at h
  have h2 := List.mem_of_mem_take h
  rw [List.mem_map] at h2
  obtain ⟨t, ht, rfl⟩ := h2
  exact ⟨t, List.mem_of_mem_take (List.mem_of_mem_filter ht), rfl⟩

/-- The surfaced confidence of an item whose raw confidence is in `[0, 100]`. -/
theorem surfaced_mem_range {c : Option ℚ} (h : ∀ v, c = some v → 0 ≤ v ∧ v ≤ 100) :
    0 ≤ toFixed2 (confPercent (orZero c)) ∧ toFixed2 (confPercent (orZero c)) ≤ 100 := by
  have hv : 0 ≤ orZero c ∧ orZero c ≤ 100 := by
    cases c with
    | none => simp [orZero]
    | some v => simpa [orZero] using h v rfl
  have hp := confPercent_mem_range hv.1 hv.2
  exact toFixed2_mem_range hp.1 hp.2

/-! ## Claims on the per-item confidence -/

/-- Claim C1, the code at the failing input: a tag of raw confidence 250 is surfaced in
`all_tags` with confidence 250, outside `[0, 100]`, while `calculateAverageConfidence`
clamps the average of that same tag to 100, which is the `overall_confidence` of the same
context. -/
theorem all_tags_confidence_not_clamped :
    (generateSceneContext outOfRangeTagData).all_tags
        = [{ tag := "sky", confidence := 250, level := "BAJO" }] ∧
    (∃ it ∈ (generateSceneContext outOfRangeTagData).all_tags, 100 < it.confidence) ∧
    calculateAverageConfidence [{ en := some "sky", confidence := some 250 }] = 100 ∧
    (generateSceneContext outOfRangeTagData).overall_confidence = 100 := by
  have h : labelOf ⟨some "sky", some 250⟩ = "sky" := by decide
  have e : (generateSceneContext outOfRangeTagData).all_tags
      = [{ tag := "sky", confidence := 250, level := "BAJO" }] := by
    norm_num [generateSceneContext, outOfRangeTagData, tagItem, h, toFixed2, confPercent,
      confFraction, getConfidenceLevel, orZero, Int.floor_eq_iff]
  have a : calculateAverageConfidence [{ en := some "sky", confidence := some 250 }] = 100 := by
    norm_num [calculateAverageConfidence, orZero]
  refine ⟨e, ?_, a, ?_⟩
  · rw [e]
    exact ⟨_, List.mem_singleton.mpr rfl, by norm_num⟩
  · show toFixed2 (calculateAverageConfidence
        (List.take 20 [{ en := some "sky", confidence := some 250 }])) = 100
    rw [show List.take 20 [({ en := some "sky", confidence := some 250 } : Tag)]
      = [{ en := some "sky", confidence := some 250 }] from rfl, a]
    norm_num [toFixed2, Int.floor_eq_iff]

/-- Claim C2, the code at the failing input: an object reported at 30 on the 0-100
scale passes the raw filter `confidence >= 0.5` and is emitted in
`objects_detected.high_confidence` with confidence 30 and level `BAJO`. -/
theorem high_confidence_admits_low_percentage :
    (generateSceneContext lowPercentObjectData).objects_detected.high_confidence
      = [{ name := "cat", confidence := 30, level := "BAJO" }] := by
  have h : labelOf ⟨some "cat", some 30⟩ = "cat" := by decide
  have hp : passesThreshold (1 / 2) ⟨some "cat", some 30⟩ = true := by
    norm_num [passesThreshold]
  norm_num [generateSceneContext, lowPercentObjectData, objectItem, h, hp, toFixed2,
    confPercent, confFraction, getConfidenceLevel, orZero, Int.floor_eq_iff]

/-! ## Claims on the level label -/

/-- On an argument at most 1, `getConfidenceLevel` reads the thresholds 80 and 50 on
the percentage `100 * c`. -/
theorem getConfidenceLevel_of_le_one {c : ℚ} (h : c ≤ 1) :
    LevelByThresholds (100 * c) (getConfidenceLevel c) := by
  have hn : ¬ c > 1 := not_lt.mpr h
  have e1 : ("MEDIO" : String) ≠ "ALTO" := by decide
  have e2 : ("BAJO" : String) ≠ "ALTO" := by decide
  have e3 : ("ALTO" : String) ≠ "MEDIO" := by decide
  have e4 : ("BAJO" : String) ≠ "MEDIO" := by decide
  have e5 : ("ALTO" : String) ≠ "BAJO" := by decide
  have e6 : ("MEDIO" : String) ≠ "BAJO" := by decide
  unfold LevelByThresholds getConfidenceLevel
  simp only [if_neg hn]
  by_cases ha : c ≥ 0.8
  · rw [if_pos ha]
    have h80 : (80 : ℚ) ≤ 100 * c := by norm_num at ha; linarith
    exact ⟨Or.inl rfl, ⟨fun _ => h80, fun _ => rfl⟩,
      ⟨fun h => absurd h e3, fun h => absurd h.2 (not_lt.mpr h80)⟩,
      ⟨fun h => absurd h e5, fun h => absurd h (not_lt.mpr (by linarith))⟩⟩
  · rw [if_neg ha]
    have h80 : 100 * c < 80 := by norm_num at ha; linarith
    by_cases hb : c ≥ 0.5
    · rw [if_pos hb]
      have h50 : (50 : ℚ) ≤ 100 * c := by norm_num at hb; linarith
      exact ⟨Or.inr (Or.inl rfl), ⟨fun h => absurd h e1, fun h => absurd h (not_le.mpr h80)⟩,
        ⟨fun _ => ⟨h50, h80⟩, fun _ => rfl⟩,
        ⟨fun h => absurd h e6, fun h => absurd h (not_lt.mpr h50)⟩⟩
    · rw [if_neg hb]
      have h50 : 100 * c < 50 := by norm_num at hb; linarith
      exact ⟨Or.inr (Or.inr rfl), ⟨fun h => absurd h e2, fun h => absurd h (not_le.mpr h80)⟩,
        ⟨fun h => absurd h e4, fun h => absurd h.1 (not_le.mpr h50)⟩,
        ⟨fun _ => h50, fun _ => rfl⟩⟩

/-- The level computed by a per-item mapping from a raw confidence of at most 100
reads the thresholds on the unrounded percentage of that same raw confidence. -/
theorem item_level_by_thresholds {v : ℚ} (h : v ≤ 100) :
    LevelByThresholds (confPercent v) (getConfidenceLevel (confFraction v)) := by
  unfold confPercent confFraction
  by_cases hv : v > 1
  · rw [if_pos hv, if_pos hv]
    have h1 : v / 100 ≤ 1 := by rw [div_le_iff₀ (by norm_num)]; linarith
    have := getConfidenceLevel_of_le_one h1
    rwa [mul_div_cancel₀ v (by norm_num : (100 : ℚ) ≠ 0)] at this
  · rw [if_neg hv, if_neg hv]
    have := getConfidenceLevel_of_le_one (not_lt.mp hv)
    rwa [mul_comm] at this

/-- Claim C3, refuted as stated: a tag of raw confidence 150 is emitted with normalized
confidence 150 and level `BAJO`, and a tag of raw confidence 0.79996 is emitted with
surfaced confidence 80 and level `MEDIO`; and for the raw confidence `0.7999999999999999`
(`7205759403792793 / 2^53`) the percentage `confValue * 100` that the code computes in
double arithmetic is exactly 80, before any rounding to two decimals, while the level is
`MEDIO`. -/
theorem level_not_by_thresholds_on_surfaced :
    (generateSceneContext levelMismatchData).all_tags
        = [{ tag := "dog", confidence := 150, level := "BAJO" },
           { tag := "cat", confidence := 80, level := "MEDIO" }] ∧
    (∃ it ∈ (generateSceneContext levelMismatchData).all_tags,
      80 ≤ it.confidence ∧ it.level = "BAJO") ∧
    (∃ it ∈ (generateSceneContext levelMismatchData).all_tags,
      80 ≤ it.confidence ∧ it.level = "MEDIO") ∧
    fmul (7205759403792793 / 2 ^ 53) 100 = 80 ∧
    getConfidenceLevel (confFraction (7205759403792793 / 2 ^ 53)) = "MEDIO" := by
  have h1 : labelOf ⟨some "dog", some 150⟩ = "dog" := by decide
  have h2 : ∀ c, labelOf ⟨some "cat", c⟩ = "cat" := fun c => labelOf_some "cat" c (by decide)
  have e : (generateSceneContext levelMismatchData).all_tags
      = [{ tag := "dog", confidence := 150, level := "BAJO" },
         { tag := "cat", confidence := 80, level := "MEDIO" }] := by
    norm_num [generateSceneContext, levelMismatchData, tagItem, h1, h2, toFixed2, confPercent,
      confFraction, getConfidenceLevel, orZero, Int.floor_eq_iff]
  refine ⟨e, ?_, ?_, ?_, ?_⟩
  · rw [e]
    exact ⟨_, List.mem_cons_self _ _, by norm_num, rfl⟩
  · rw [e]
    exact ⟨_, List.mem_cons_of_mem _ (List.mem_singleton.mpr rfl), by norm_num, rfl⟩
  · have := roundDouble_eval (7205759403792793 / 2 ^ 53 * 100) 46 5629499534213119
      5629499534213120 (by norm_num) (by norm_num) (by norm_num) (by norm_num) (by norm_num)
      (by norm_num)
    unfold fmul
    rw [this]
    norm_num
  · norm_num [confFraction, getConfidenceLevel]

/-- The level computed by a per-item mapping is one of the three labels, and for a raw
confidence of at most 100 it reads the thresholds on that raw confidence in its own unit. -/
theorem item_level_by_raw_thresholds (v : ℚ) :
    (getConfidenceLevel (confFraction v) = "ALTO" ∨
      getConfidenceLevel (confFraction v) = "MEDIO" ∨
      getConfidenceLevel (confFraction v) = "BAJO") ∧
    (v ≤ 100 → LevelByRawThresholds v (getConfidenceLevel (confFraction v))) := by
  constructor
  · unfold getConfidenceLevel
    simp only []
    split_ifs <;>
      first
        | exact Or.inl rfl
        | exact Or.inr (Or.inl rfl)
        | exact Or.inr (Or.inr rfl)
  · intro h
    obtain ⟨_, hA, hM, hB⟩ := item_level_by_thresholds h
    constructor
    · intro h1
      have e : confPercent v = v * 100 := by
        unfold confPercent
        rw [if_neg (not_lt.mpr h1)]
      rw [e] at hA hM hB
      refine ⟨hA.trans ?_, hM.trans ?_, hB.trans ?_⟩
      · constructor <;> intro h <;> norm_num at h ⊢ <;> linarith
      · constructor <;> intro h <;> norm_num at h ⊢ <;> constructor <;> linarith
      · constructor <;> intro h <;> norm_num at h ⊢ <;> linarith
    · intro h1
      have e : confPercent v = v := by
        unfold confPercent
        rw [if_pos h1]
      rw [e] at hA hM hB
      exact ⟨hA, hM, hB⟩

/-- A list paired with its image under a map, entry by entry. -/
theorem forall₂_map_self {α β : Type} (R : α → β → Prop) (f : α → β) (l : List α)
    (h : ∀ a ∈ l, R a (f a)) : List.Forall₂ R l (l.map f) := by
  induction l with
  | nil => exact List.Forall₂.nil
  | cons a l ih =>
    exact List.Forall₂.cons (h a (List.mem_cons_self a l))
      (ih fun b hb => h b (List.mem_cons_of_mem a hb))

/-- Every tag is read correctly by its own item. -/
theorem tagItem_level_by_raw (t : Tag) : TagLevelByRaw t (tagItem t) :=
  ⟨rfl, (item_level_by_raw_thresholds (orZero t.confidence)).1,
    (item_level_by_raw_thresholds (orZero t.confidence)).2⟩

/-- Every object is read correctly by its own item. -/
theorem objectItem_level_by_raw (o : Tag) : ObjectLevelByRaw o (objectItem o) :=
  ⟨rfl, (item_level_by_raw_thresholds (orZero o.confidence)).1,
    (item_level_by_raw_thresholds (orZero o.confidence)).2⟩

/-- Claim C3, amended: each emitted list is built entry by entry from the input entries it
keeps (`all_tags` from the first 20 tags, `all_objects` from the first 10 objects,
`high_confidence` from the first 5 objects passing the raw filter, each category list from
the first 8 tags of that category). Every item carries the label of its entry and a level
among `ALTO` / `MEDIO` / `BAJO`; this holds for every item, whatever the other entries
are. When the raw confidence `v` of the entry (0 when missing) is at most 100, the level
is fixed by thresholds on `v` in its own unit: for `v ≤ 1`, `ALTO` iff `v ≥ 0.8`, `MEDIO`
iff `0.5 ≤ v < 0.8`, `BAJO` iff `v < 0.5`; for `1 < v ≤ 100`, `ALTO` iff `v ≥ 80`, `MEDIO`
iff `50 ≤ v < 80`, `BAJO` iff `v < 50`. The level is the same when the quotient `v / 100`
and the literals `0.8` and `0.5` are rounded as doubles, for every double `v ≤ 100`. -/
theorem level_by_raw_thresholds (d : AnalysisData) :
    List.Forall₂ TagLevelByRaw ((d.tags.getD []).take 20) (generateSceneContext d).all_tags ∧
    List.Forall₂ ObjectLevelByRaw ((d.objects.getD []).take 10)
      (generateSceneContext d).objects_detected.all_objects ∧
    List.Forall₂ ObjectLevelByRaw (((d.objects.getD []).filter (passesThreshold 0.5)).take 5)
      (generateSceneContext d).objects_detected.high_confidence ∧
    (∀ cat, List.Forall₂ TagLevelByRaw
      ((((d.tags.getD []).take 20).filter fun t =>
        decide (categoryOf (toLowerCase (labelOf t)) = cat)).take 8)
      ((generateSceneContext d).tags_by_category.get cat)) ∧
    (∀ v : ℚ, v ≤ 1 →
      (getConfidenceLevel (confFraction v) = "ALTO" ↔ 0.8 ≤ v) ∧
      (getConfidenceLevel (confFraction v) = "MEDIO" ↔ 0.5 ≤ v ∧ v < 0.8) ∧
      (getConfidenceLevel (confFraction v) = "BAJO" ↔ v < 0.5)) ∧
    (∀ v : ℚ, 1 < v → v ≤ 100 →
      (getConfidenceLevel (confFraction v) = "ALTO" ↔ 80 ≤ v) ∧
      (getConfidenceLevel (confFraction v) = "MEDIO" ↔ 50 ≤ v ∧ v < 80) ∧
      (getConfidenceLevel (confFraction v) = "BAJO" ↔ v < 50)) ∧
    (∀ v : ℚ, IsDouble v → v ≤ 100 →
      getConfidenceLevelDouble (if v > 1 then fdiv v 100 else v)
        = getConfidenceLevel (confFraction v)) := by
  refine ⟨?_, ?_, ?_, ?_, ?_, ?_, fun v hd h100 => getConfidenceLevelDouble_item hd h100⟩
  · show List.Forall₂ TagLevelByRaw ((d.tags.getD []).take 20)
      ((((d.tags.getD []).take 20).take 20).map tagItem)
    rw [List.take_take, Nat.min_self]
    exact forall₂_map_self _ _ _ fun t _ => tagItem_level_by_raw t
  · exact forall₂_map_self _ _ _ fun o _ => objectItem_level_by_raw o
  · exact forall₂_map_self _ _ _ fun o _ => objectItem_level_by_raw o
  · intro cat
    rw [tags_by_category_get, categorizeTags_get, ← List.map_take]
    exact forall₂_map_self _ _ _ fun t _ => tagItem_level_by_raw t
  · intro v h1
    exact ((item_level_by_raw_thresholds v).2 (by linarith)).1 h1
  · intro v h1 h100
    exact ((item_level_by_raw_thresholds v).2 h100).2 h1

/-- Claim C3, amended, at a response with a tag at 0.85 and an object at 62: the tag item
is `ALTO` because `0.8 ≤ 0.85`, the object item is `MEDIO` because `50 ≤ 62 < 80`. -/
theorem level_by_raw_thresholds_witness :
    (0.85 : ℚ) ≤ 1 ∧ (1 : ℚ) < 62 ∧ (62 : ℚ) ≤ 100 ∧
    getConfidenceLevel (confFraction 0.85) = "ALTO" ∧
    getConfidenceLevel (confFraction 62) = "MEDIO" ∧
    List.Forall₂ TagLevelByRaw ((mixedUnitData.tags.getD []).take 20)
      (generateSceneContext mixedUnitData).all_tags :=
  ⟨by norm_num, by norm_num, by norm_num,
    (((level_by_raw_thresholds mixedUnitData).2.2.2.2.1 0.85 (by norm_num)).1).mpr (by norm_num),
    (((level_by_raw_thresholds mixedUnitData).2.2.2.2.2.1 62 (by norm_num) (by norm_num)).2.1).mpr
      (by norm_num),
    (level_by_raw_thresholds mixedUnitData).1⟩

/-! ## Claims on normalization and aggregation -/

/-- Claim C5: the per-item normalization `confPercent` yields `100 * v` for a raw value
`v ≤ 1` and `v` itself for `v > 1`, so that a raw 0.8 and a raw 80 both normalize to 80;
every item of `all_tags` and of the object lists surfaces that value rounded to two
decimals, which is again 80 for both. -/
theorem confPercent_units :
    (∀ v : ℚ, v ≤ 1 → confPercent v = 100 * v) ∧
    (∀ v : ℚ, v > 1 → confPercent v = v) ∧
    confPercent 0.8 = 80 ∧ confPercent 80 = 80 ∧
    (∀ d : AnalysisData, (generateSceneContext d).all_tags.map TagItem.confidence
      = ((d.tags.getD []).take 20).map fun t => toFixed2 (confPercent (orZero t.confidence))) ∧
    (∀ d : AnalysisData,
      (generateSceneContext d).objects_detected.all_objects.map ObjectItem.confidence
      = ((d.objects.getD []).take 10).map fun o => toFixed2 (confPercent (orZero o.confidence))) ∧
    toFixed2 (confPercent 0.8) = 80 ∧ toFixed2 (confPercent 80) = 80 := by
  refine ⟨?_, ?_, ?_, ?_, ?_, ?_, ?_, ?_⟩
  · intro v hv
    rw [confPercent, if_neg (not_lt.mpr hv), mul_comm]
  · intro v hv
    rw [confPercent, if_pos hv]
  · norm_num [confPercent]
  · norm_num [confPercent]
  · intro d
    simp [generateSceneContext, tagItem, List.take_take, Function.comp_def]
  · intro d
    simp [generateSceneContext, objectItem, Function.comp_def]
  · norm_num [confPercent, toFixed2, Int.floor_eq_iff]
  · norm_num [confPercent, toFixed2, Int.floor_eq_iff]

/-- Claim C5, at the raw values 1/4 (a fraction) and 30 (a percentage). -/
theorem confPercent_units_witness :
    confPercent (1 / 4) = 100 * (1 / 4) ∧ confPercent 30 = 30 :=
  ⟨confPercent_units.1 (1 / 4) (by norm_num), confPercent_units.2.1 30 (by norm_num)⟩

/-- Claim C6: `calculateAverageConfidence` returns 0 on the empty list; on a non-empty
list it fixes the unit from the first tag (a fraction iff its confidence is at most 1),
scales every confidence by that one decision, takes the arithmetic mean and clamps it to
`[0, 100]`; the confidences `[0.9, 0.5]` give 70. -/
theorem calculateAverageConfidence_spec :
    calculateAverageConfidence [] = 0 ∧
    (∀ (t : Tag) (ts : List Tag),
      calculateAverageConfidence (t :: ts) =
        min 100 (max 0 (((t :: ts).map fun x =>
          if orZero t.confidence ≤ 1 then orZero x.confidence * 100
          else orZero x.confidence).sum / (((t :: ts).length : ℕ) : ℚ)))) ∧
    (∀ tags : List Tag, 0 ≤ calculateAverageConfidence tags ∧
      calculateAverageConfidence tags ≤ 100) ∧
    calculateAverageConfidence
      [{ en := none, confidence := some 0.9 }, { en := none, confidence := some 0.5 }] = 70 := by
  have hcons : ∀ (t : Tag) (ts : List Tag),
      calculateAverageConfidence (t :: ts) =
        min 100 (max 0 (((t :: ts).map fun x =>
          if orZero t.confidence ≤ 1 then orZero x.confidence * 100
          else orZero x.confidence).sum / (((t :: ts).length : ℕ) : ℚ))) := by
    intro t ts
    unfold calculateAverageConfidence
    rw [if_neg (by simp)]
    simp only [foldl_add_eq_sum, zero_add, List.get?_cons_zero, Option.some_bind,
      decide_eq_true_eq]
  refine ⟨by simp [calculateAverageConfidence], hcons, ?_, ?_⟩
  · intro tags
    cases tags with
    | nil => simp [calculateAverageConfidence]
    | cons t ts =>
      rw [hcons]
      exact ⟨le_min (by norm_num) (le_max_left _ _), min_le_left _ _⟩
  · rw [hcons]
    norm_num [orZero]

/-! ## Claims on color harmony and mood -/

/-- The radicand `distSq`, read over the reals, is the sum of the squared channel
differences. -/
theorem distSq_cast (x y : Rgb) :
    ((distSq x y : ℕ) : ℝ)
      = ((x.r : ℝ) - y.r) ^ 2 + ((x.g : ℝ) - y.g) ^ 2 + ((x.b : ℝ) - y.b) ^ 2 := by
  have hz : (0 : ℤ) ≤ ((x.r : ℤ) - y.r) ^ 2 + ((x.g : ℤ) - y.g) ^ 2 + ((x.b : ℤ) - y.b) ^ 2 := by
    positivity
  have h1 : ((distSq x y : ℕ) : ℤ)
      = ((x.r : ℤ) - y.r) ^ 2 + ((x.g : ℤ) - y.g) ^ 2 + ((x.b : ℤ) - y.b) ^ 2 :=
    Int.toNat_of_nonneg hz
  have h2 : (((distSq x y : ℕ) : ℤ) : ℝ)
      = ((((x.r : ℤ) - y.r) ^ 2 + ((x.g : ℤ) - y.g) ^ 2 + ((x.b : ℤ) - y.b) ^ 2 : ℤ) : ℝ) := by
    rw [h1]
  push_cast at h2
  exact h2

/-- A hex value that `hexToRgb` decodes is present and not the empty string. -/
theorem strFalsy_of_decoded {hex : Option String} {rgb : Rgb} (h : hexToRgb hex = some rgb) :
    strFalsy hex = false := by
  cases hex with
  | none =>
    have : hexToRgb none = none := by decide
    rw [this] at h
    cases h
  | some str =>
    by_cases he : str = ""
    · subst he
      have : hexToRgb (some "") = none := by decide
      rw [this] at h
      cases h
    · simp [strFalsy, he]

/-- Claim C7: `analyzeColorHarmony` returns `Insuficientes datos` for every list of fewer
than two colors; when the first two colors decode to `rgb1` and `rgb2`, it classifies by
their Euclidean distance `d`: `Contrastado` iff `d > 200`, `Complementario` iff
`100 < d ≤ 200`, `Análogo` iff `d ≤ 100`; black with white is `Contrastado` and the
single color `#FF0000` is `Insuficientes datos`. -/
theorem analyzeColorHarmony_spec :
    (∀ colors : List Color, colors.length < 2 →
      analyzeColorHarmony colors = "Insuficientes datos") ∧
    (∀ (c1 c2 : Color) (rest : List Color) (rgb1 rgb2 : Rgb),
      hexToRgb c1.hex = some rgb1 → hexToRgb c2.hex = some rgb2 →
      (analyzeColorHarmony (c1 :: c2 :: rest) = "Contrastado" ↔
        200 < Real.sqrt (((rgb1.r : ℝ) - rgb2.r) ^ 2 + ((rgb1.g : ℝ) - rgb2.g) ^ 2
          + ((rgb1.b : ℝ) - rgb2.b) ^ 2)) ∧
      (analyzeColorHarmony (c1 :: c2 :: rest) = "Complementario" ↔
        100 < Real.sqrt (((rgb1.r : ℝ) - rgb2.r) ^ 2 + ((rgb1.g : ℝ) - rgb2.g) ^ 2
          + ((rgb1.b : ℝ) - rgb2.b) ^ 2) ∧
        Real.sqrt (((rgb1.r : ℝ) - rgb2.r) ^ 2 + ((rgb1.g : ℝ) - rgb2.g) ^ 2
          + ((rgb1.b : ℝ) - rgb2.b) ^ 2) ≤ 200) ∧
      (analyzeColorHarmony (c1 :: c2 :: rest) = "Análogo" ↔
        Real.sqrt (((rgb1.r : ℝ) - rgb2.r) ^ 2 + ((rgb1.g : ℝ) - rgb2.g) ^ 2
          + ((rgb1.b : ℝ) - rgb2.b) ^ 2) ≤ 100)) ∧
    analyzeColorHarmony [{ hex := some "#000000", percentage := none },
      { hex := some "#FFFFFF", percentage := none }] = "Contrastado" ∧
    analyzeColorHarmony [{ hex := some "#FF0000", percentage := none }]
      = "Insuficientes datos" := by
  refine ⟨?_, ?_, by decide, by decide⟩
  · intro colors h
    rw [analyzeColorHarmony, if_pos h]
  · intro c1 c2 rest rgb1 rgb2 h1 h2
    have f1 := strFalsy_of_decoded h1
    have f2 := strFalsy_of_decoded h2
    have key : analyzeColorHarmony (c1 :: c2 :: rest)
        = if sqrtGt (distSq rgb1 rgb2) 200 then "Contrastado"
          else if sqrtGt (distSq rgb1 rgb2) 100 then "Complementario" else "Análogo" := by
      simp [analyzeColorHarmony, f1, f2, h1, h2]
    have h200 := sqrtGt_iff (distSq rgb1 rgb2) 200
    have h100 := sqrtGt_iff (distSq rgb1 rgb2) 100
    rw [distSq_cast] at h200 h100
    push_cast at h200 h100
    have e1 : ("Contrastado" : String) ≠ "Complementario" := by decide
    have e2 : ("Contrastado" : String) ≠ "Análogo" := by decide
    have e3 : ("Complementario" : String) ≠ "Contrastado" := by decide
    have e4 : ("Complementario" : String) ≠ "Análogo" := by decide
    have e5 : ("Análogo" : String) ≠ "Contrastado" := by decide
    have e6 : ("Análogo" : String) ≠ "Complementario" := by decide
    rw [key]
    by_cases ha : sqrtGt (distSq rgb1 rgb2) 200 = true
    · have d200 := h200.mp ha
      rw [if_pos ha]
      exact ⟨⟨fun _ => d200, fun _ => rfl⟩,
        ⟨fun h => absurd h e1, fun h => absurd h.2 (not_le.mpr d200)⟩,
        ⟨fun h => absurd h e2, fun h => absurd h (not_le.mpr (by linarith))⟩⟩
    · have d200 : ¬ _ := fun h => ha (h200.mpr h)
      rw [if_neg ha]
      by_cases hb : sqrtGt (distSq rgb1 rgb2) 100 = true
      · have d100 := h100.mp hb
        rw [if_pos hb]
        exact ⟨⟨fun h => absurd h e3, fun h => absurd h d200⟩,
          ⟨fun _ => ⟨d100, not_lt.mp d200⟩, fun _ => rfl⟩,
          ⟨fun h => absurd h e4, fun h => absurd h (not_le.mpr d100)⟩⟩
      · have d100 : ¬ _ := fun h => hb (h100.mpr h)
        rw [if_neg hb]
        exact ⟨⟨fun h => absurd h e5, fun h => absurd h d200⟩,
          ⟨fun h => absurd h e6, fun h => absurd h.1 d100⟩,
          ⟨fun _ => not_lt.mp d100, fun _ => rfl⟩⟩

/-- Claim C7, at red followed by blue: the two decode, and their distance exceeds 200. -/
theorem analyzeColorHarmony_spec_witness :
    (analyzeColorHarmony [{ hex := some "#FF0000", percentage := none },
        { hex := some "#0000FF", percentage := none }] = "Contrastado" ↔
      200 < Real.sqrt ((((255 : ℕ) : ℝ) - (0 : ℕ)) ^ 2 + (((0 : ℕ) : ℝ) - (0 : ℕ)) ^ 2
        + (((0 : ℕ) : ℝ) - (255 : ℕ)) ^ 2)) ∧
    analyzeColorHarmony [{ hex := some "#FF0000", percentage := none },
        { hex := some "#0000FF", percentage := none }] = "Contrastado" :=
  ⟨(analyzeColorHarmony_spec.2.1 { hex := some "#FF0000", percentage := none }
      { hex := some "#0000FF", percentage := none } [] ⟨255, 0, 0⟩ ⟨0, 0, 255⟩
      (by decide) (by decide)).1, by decide⟩

/-- Claim C8, the code at the failing input: with colors given in the order black (10
percent), near-black (20 percent), white (70 percent), `color_analysis.dominant` starts
with white and near-black, whose harmony class is `Contrastado`, while
`color_analysis.color_harmony` is `Análogo`, the class of the first two input colors. -/
theorem color_harmony_ignores_dominance_order :
    (generateSceneContext unsortedColorData).color_analysis.color_harmony = "Análogo" ∧
    (generateSceneContext unsortedColorData).color_analysis.dominant.map DominantColor.hex
      = [some "#FFFFFF", some "#000001", some "#000000"] ∧
    analyzeColorHarmony [{ hex := some "#FFFFFF", percentage := some 70 },
      { hex := some "#000001", percentage := some 20 }] = "Contrastado" := by
  refine ⟨by decide, by decide, by decide⟩

/-- Claim C9, the code at the failing input: for the single color `#3C3C3C`, of
brightness 60, `detectMood` divides by 3, works with 20 and returns
`Oscuro y Misterioso`, although the average brightness of the one color is 60. -/
theorem detectMood_divides_by_three :
    calculateBrightness (some "#3C3C3C") = 60 ∧
    moodBrightness singleGrey = 20 ∧
    detectMood singleGrey [] = "Oscuro y Misterioso" := by
  have hb : calculateBrightness (some "#3C3C3C") = 60 := by
    have : hexToRgb (some "#3C3C3C") = some ⟨60, 60, 60⟩ := by decide
    simp only [calculateBrightness, this, mathRound_div_thousand]
    norm_num
  have hm : moodBrightness singleGrey = 20 := by
    norm_num [moodBrightness, singleGrey, hb]
  refine ⟨hb, hm, ?_⟩
  norm_num [detectMood, hm]

/-! ## Claims on hex decoding and brightness -/

/-- The character class of the regular expression is the set of the hexadecimal digits. -/
theorem isHexChar_iff (c : Char) : isHexChar c = true ↔ c ∈ hexDigits := by
  constructor
  · intro h
    simp only [isHexChar, Bool.decide_or, Bool.decide_and, Bool.or_eq_true, Bool.and_eq_true,
      decide_eq_true_eq] at h
    have hc : c = Char.ofNat c.toNat := (Char.ofNat_toNat c).symm
    rcases h with ⟨h1, h2⟩ | ⟨h1, h2⟩ | ⟨h1, h2⟩
    · have a1 : 48 ≤ c.toNat := h1
      have a2 : c.toNat ≤ 57 := h2
      generalize c.toNat = n at hc a1 a2
      subst hc
      interval_cases n <;> decide
    · have a1 : 97 ≤ c.toNat := h1
      have a2 : c.toNat ≤ 102 := h2
      generalize c.toNat = n at hc a1 a2
      subst hc
      interval_cases n <;> decide
    · have a1 : 65 ≤ c.toNat := h1
      have a2 : c.toNat ≤ 70 := h2
      generalize c.toNat = n at hc a1 a2
      subst hc
      interval_cases n <;> decide
  · intro h
    simp only [hexDigits, List.mem_cons, List.mem_singleton] at h
    rcases h with h | h | h | h | h | h | h | h | h | h | h | h | h | h | h | h | h | h | h | h | h | h | h <;>
      first
      | (subst h; decide)
      | simp at h

/-- The regular expression accepts six hex digits, bare or after `#`, and the three
captured pairs are decoded. -/
theorem hexToRgbStr_of_body (s : String) (a b c d e f : Char)
    (hs : s.data = [a, b, c, d, e, f] ∨ s.data = ['#', a, b, c, d, e, f])
    (ha : isHexChar a = true) (hb : isHexChar b = true) (hc : isHexChar c = true)
    (hd : isHexChar d = true) (he : isHexChar e = true) (hf : isHexChar f = true) :
    hexToRgbStr s = some { r := parseHexPair a b, g := parseHexPair c d, b := parseHexPair e f } := by
  have hne : a ≠ '#' := by
    rintro rfl
    exact absurd ha (by decide)
  rcases hs with hs | hs
  · unfold hexToRgbStr
    rw [hs]
    simp [ha, hb, hc, hd, he, hf, hne]
  · unfold hexToRgbStr
    rw [hs]
    simp [ha, hb, hc, hd, he, hf]

/-- The regular expression accepts valid hex colors only. -/
theorem valid_of_hexToRgbStr (s : String) (rgb : Rgb) (h : hexToRgbStr s = some rgb) :
    ValidHex s := by
  unfold hexToRgbStr at h
  simp only at h
  split at h
  · rename_i a b c d e f hbody
    split at h
    · rename_i hall
      simp only [Bool.and_eq_true] at hall
      obtain ⟨⟨⟨⟨⟨ha, hb⟩, hc⟩, hd⟩, he⟩, hf⟩ := hall
      refine ⟨a, b, c, d, e, f, ?_, (isHexChar_iff a).mp ha, (isHexChar_iff b).mp hb,
        (isHexChar_iff c).mp hc, (isHexChar_iff d).mp hd, (isHexChar_iff e).mp he,
        (isHexChar_iff f).mp hf⟩
      split at hbody
      · rename_i rest hrest
        right
        rw [hrest, hbody]
      · left
        exact hbody
    · cases h
  · cases h

/-- Claim C10: on every valid hex color (six hex digits of any letter case, after an
optional `#`) `hexToRgb` decodes the three channels and `calculateBrightness` returns
`round(0.299 R + 0.587 G + 0.114 B)`, which is 255 for `#FFFFFF` and 0 for `#000000`; on
every other string, and on an absent hex, `hexToRgb` returns null and
`calculateBrightness` returns 50. -/
theorem calculateBrightness_spec :
    (∀ (s : String) (a b c d e f : Char),
      (s.data = [a, b, c, d, e, f] ∨ s.data = ['#', a, b, c, d, e, f]) →
      a ∈ hexDigits → b ∈ hexDigits → c ∈ hexDigits → d ∈ hexDigits → e ∈ hexDigits →
      f ∈ hexDigits →
      hexToRgb (some s) = some { r := 16 * hexDigitVal a + hexDigitVal b,
                                 g := 16 * hexDigitVal c + hexDigitVal d,
                                 b := 16 * hexDigitVal e + hexDigitVal f } ∧
      calculateBrightness (some s)
        = mathRound (0.299 * ((16 * hexDigitVal a + hexDigitVal b : ℕ) : ℚ)
            + 0.587 * ((16 * hexDigitVal c + hexDigitVal d : ℕ) : ℚ)
            + 0.114 * ((16 * hexDigitVal e + hexDigitVal f : ℕ) : ℚ))) ∧
    hexDigits.map hexDigitVal
      = [0, 1, 2, 3, 4, 5, 6, 7, 8, 9, 10, 11, 12, 13, 14, 15, 10, 11, 12, 13, 14, 15] ∧
    (∀ s : String, ¬ ValidHex s →
      hexToRgb (some s) = none ∧ calculateBrightness (some s) = 50) ∧
    hexToRgb none = none ∧ calculateBrightness none = 50 ∧
    calculateBrightness (some "#FFFFFF") = 255 ∧ calculateBrightness (some "#000000") = 0 := by
  refine ⟨?_, by decide, ?_, by decide, ?_, ?_, ?_⟩
  · intro s a b c d e f hs ha hb hc hd he hf
    have h : hexToRgb (some s) = some { r := 16 * hexDigitVal a + hexDigitVal b,
                                        g := 16 * hexDigitVal c + hexDigitVal d,
                                        b := 16 * hexDigitVal e + hexDigitVal f } :=
      hexToRgbStr_of_body s a b c d e f hs ((isHexChar_iff a).mpr ha) ((isHexChar_iff b).mpr hb)
        ((isHexChar_iff c).mpr hc) ((isHexChar_iff d).mpr hd) ((isHexChar_iff e).mpr he)
        ((isHexChar_iff f).mpr hf)
    refine ⟨h, ?_⟩
    simp only [calculateBrightness, h]
    congr 1
    push_cast
    norm_num
    ring
  · intro s hs
    have hnone : hexToRgb (some s) = none := by
      cases hr : hexToRgb (some s) with
      | none => rfl
      | some rgb => exact absurd (valid_of_hexToRgbStr s rgb hr) hs
    exact ⟨hnone, by simp only [calculateBrightness, hnone]⟩
  · have : hexToRgb none = none := by decide
    simp only [calculateBrightness, this]
  · have : hexToRgb (some "#FFFFFF") = some ⟨255, 255, 255⟩ := by decide
    simp only [calculateBrightness, this, mathRound_div_thousand]
    norm_num
  · have : hexToRgb (some "#000000") = some ⟨0, 0, 0⟩ := by decide
    simp only [calculateBrightness, this, mathRound_div_thousand]
    norm_num

/-- Claim C10, at the mixed-case color `#1a2B3c` and at the malformed string `red`. -/
theorem calculateBrightness_spec_witness :
    (hexToRgb (some "#1a2B3c") = some { r := 26, g := 43, b := 60 } ∧
      calculateBrightness (some "#1a2B3c")
        = mathRound (0.299 * ((26 : ℕ) : ℚ) + 0.587 * ((43 : ℕ) : ℚ) + 0.114 * ((60 : ℕ) : ℚ))) ∧
    (hexToRgb (some "red") = none ∧ calculateBrightness (some "red") = 50) :=
  ⟨calculateBrightness_spec.1 "#1a2B3c" '1' 'a' '2' 'B' '3' 'c' (Or.inr rfl)
      (by decide) (by decide) (by decide) (by decide) (by decide) (by decide),
    calculateBrightness_spec.2.2.1 "red" (by
      rintro ⟨a, b, c, d, e, f, h | h, _⟩
      · have hl : "red".data.length = 6 := by rw [h]; rfl
        exact absurd hl (by decide)
      · have hl : "red".data.length = 7 := by rw [h]; rfl
        exact absurd hl (by decide))⟩

/-! ## Claims on the brightness scale -/

/-- The value of a hexadecimal digit is at most 15. -/
theorem hexDigitVal_le (c : Char) : hexDigitVal c ≤ 15 := by
  unfold hexDigitVal
  split_ifs with h1 h2 h3
  · have a2 : c.toNat ≤ 57 := h1.2
    have : '0'.toNat = 48 := rfl
    omega
  · have a2 : c.toNat ≤ 102 := h2.2
    have : 'a'.toNat = 97 := rfl
    omega
  · have a2 : c.toNat ≤ 70 := h3.2
    have : 'A'.toNat = 65 := rfl
    omega
  · omega

/-- Every channel decoded by `hexToRgb` is at most 255. -/
theorem hexToRgbStr_le (s : String) (rgb : Rgb) (h : hexToRgbStr s = some rgb) :
    rgb.r ≤ 255 ∧ rgb.g ≤ 255 ∧ rgb.b ≤ 255 := by
  unfold hexToRgbStr at h
  simp only at h
  split at h
  · rename_i a b c d e f _
    split at h
    · simp only [Option.some.injEq] at h
      subst h
      have ha := hexDigitVal_le a
      have hb := hexDigitVal_le b
      have hc := hexDigitVal_le c
      have hd := hexDigitVal_le d
      have he := hexDigitVal_le e
      have hf := hexDigitVal_le f
      simp only [parseHexPair]
      omega
    · cases h
  · cases h

/-- Claim C11, the code at the failing input: `calculateBrightness` returns 255 for
`#FFFFFF`, above the range 0-100 announced by its comment; its values range over
0 to 255. -/
theorem calculateBrightness_exceeds_hundred :
    calculateBrightness (some "#FFFFFF") = 255 ∧
    (100 : ℤ) < calculateBrightness (some "#FFFFFF") ∧
    (∀ hex : Option String, 0 ≤ calculateBrightness hex ∧ calculateBrightness hex ≤ 255) := by
  have hw : calculateBrightness (some "#FFFFFF") = 255 := by
    have : hexToRgb (some "#FFFFFF") = some ⟨255, 255, 255⟩ := by decide
    simp only [calculateBrightness, this, mathRound_div_thousand]
    norm_num
  refine ⟨hw, by rw [hw]; norm_num, ?_⟩
  intro hex
  unfold calculateBrightness
  cases h : hexToRgb hex with
  | none => simp
  | some rgb =>
    obtain ⟨hr, hg, hb⟩ := hexToRgbStr_le _ rgb h
    simp only [mathRound_div_thousand]
    have h2 : (rgb.r * 299 + rgb.g * 587 + rgb.b * 114 + 500) / 1000 ≤ 255 := by omega
    constructor
    · exact Int.natCast_nonneg _
    · exact_mod_cast h2

/-! ## Claims on the categorization of tags -/

/-- A statement over all categories is the conjunction of its five instances. -/
theorem forall_category (P : Category → Prop) :
    (∀ c, P c) ↔ P .entities ∧ P .attributes ∧ P .environment ∧ P .actions ∧ P .concepts := by
  constructor
  · intro h
    exact ⟨h _, h _, h _, h _, h _⟩
  · rintro ⟨h1, h2, h3, h4, h5⟩ c
    cases c <;> assumption

/-- The test of the inner loop of `categorizeTags` on one category is `MatchesCategory`. -/
theorem any_includes_iff (name : String) (cat : Category) :
    ((keywordsOf cat).any fun kw => includes name kw) = true ↔ MatchesCategory name cat := by
  simp [MatchesCategory, includes, List.any_eq_true]

/-- The inner loop of `categorizeTags`, as a cascade over the five keyword lists. -/
theorem categoryOf_eq_cascade (name : String) :
    categoryOf name =
      if ((keywordsOf .entities).any fun kw => includes name kw) = true then .entities
      else if ((keywordsOf .attributes).any fun kw => includes name kw) = true then .attributes
      else if ((keywordsOf .environment).any fun kw => includes name kw) = true then .environment
      else if ((keywordsOf .actions).any fun kw => includes name kw) = true then .actions
      else .concepts := by
  have hk : keywords =
      [(.entities, keywordsOf .entities), (.attributes, keywordsOf .attributes),
       (.environment, keywordsOf .environment), (.actions, keywordsOf .actions),
       (.concepts, keywordsOf .concepts)] := by decide
  unfold categoryOf
  rw [hk]
  simp only [List.find?_cons, List.find?_nil]
  cases (keywordsOf .entities).any fun kw => includes name kw <;>
  cases (keywordsOf .attributes).any fun kw => includes name kw <;>
  cases (keywordsOf .environment).any fun kw => includes name kw <;>
  cases (keywordsOf .actions).any fun kw => includes name kw <;>
  cases (keywordsOf .concepts).any fun kw => includes name kw <;>
  rfl

/-- The category chosen for a lower-cased label is the first matching one, `concepts`
when none matches. -/
theorem categoryOf_eq_iff (name : String) (cat : Category) :
    categoryOf name = cat ↔ FirstMatchingCategory name cat := by
  rw [categoryOf_eq_cascade]
  unfold FirstMatchingCategory
  have e := any_includes_iff name
  by_cases h1 : MatchesCategory name .entities
  · rw [if_pos ((e _).mpr h1)]
    cases cat <;> simp [forall_category, h1, Category.rank]
  rw [if_neg (mt (e _).mp h1)]
  by_cases h2 : MatchesCategory name .attributes
  · rw [if_pos ((e _).mpr h2)]
    cases cat <;> simp [forall_category, h1, h2, Category.rank]
  rw [if_neg (mt (e _).mp h2)]
  by_cases h3 : MatchesCategory name .environment
  · rw [if_pos ((e _).mpr h3)]
    cases cat <;> simp [forall_category, h1, h2, h3, Category.rank]
  rw [if_neg (mt (e _).mp h3)]
  by_cases h4 : MatchesCategory name .actions
  · rw [if_pos ((e _).mpr h4)]
    cases cat <;> simp [forall_category, h1, h2, h3, h4, Category.rank]
  rw [if_neg (mt (e _).mp h4)]
  by_cases h5 : MatchesCategory name .concepts <;>
  cases cat <;> simp [forall_category, h1, h2, h3, h4, h5, Category.rank]

/-- Filtering a list by each of the five categories splits it into five parts whose
lengths add up to the length of the list. -/
theorem length_filter_categories (f : Tag → Category) (tags : List Tag) :
    (tags.filter fun t => decide (f t = .entities)).length
      + (tags.filter fun t => decide (f t = .attributes)).length
      + (tags.filter fun t => decide (f t = .environment)).length
      + (tags.filter fun t => decide (f t = .actions)).length
      + (tags.filter fun t => decide (f t = .concepts)).length = tags.length := by
  induction tags with
  | nil => simp
  | cons t ts ih =>
    cases h : f t <;> simp [List.filter_cons, h] <;> omega

/-- Membership of the item of a tag in a category list of `categorizeTags`. -/
theorem tagItem_mem_categorizeTags (tags : List Tag) (t : Tag) (cat : Category) (ht : t ∈ tags) :
    tagItem t ∈ (categorizeTags tags).get cat ↔ categoryOf (toLowerCase (labelOf t)) = cat := by
  rw [categorizeTags_get, List.mem_map]
  constructor
  · rintro ⟨u, hu, heq⟩
    have hl : labelOf u = labelOf t := congrArg TagItem.tag heq
    have hc := (List.mem_filter.mp hu).2
    rw [hl] at hc
    exact of_decide_eq_true hc
  · intro h
    exact ⟨t, List.mem_filter.mpr ⟨ht, decide_eq_true h⟩, rfl⟩

/-- Lower-casing acts character by character. -/
theorem toLowerCase_eq (s : String) : toLowerCase s = String.mk (s.data.map Char.toLower) :=
  String.map_eq _ _

/-- The result of `categorizeTags` on a single tag. -/
theorem categorizeTags_singleton (t : Tag) :
    categorizeTags [t]
      = Categorized.push
          { entities := [], attributes := [], environment := [], actions := [], concepts := [] }
          (categoryOf (toLowerCase (labelOf t))) (tagItem t) := rfl

/-- Claim C12: `categorizeTags` puts every tag in the first category, in the order
entities, attributes, environment, actions, concepts, one of whose keywords is a substring
of the lower-cased label, and in concepts when no keyword matches; `dog` goes to entities,
`beautiful` (a keyword of attributes and of concepts) only to attributes, and a label
without any keyword to concepts. -/
theorem categorizeTags_first_match :
    (∀ (tags : List Tag) (t : Tag) (cat : Category), t ∈ tags →
      (tagItem t ∈ (categorizeTags tags).get cat ↔
        FirstMatchingCategory (toLowerCase (labelOf t)) cat)) ∧
    (∀ c : Option ℚ, categorizeTags [{ en := some "dog", confidence := c }]
      = { entities := [tagItem { en := some "dog", confidence := c }], attributes := [],
          environment := [], actions := [], concepts := [] }) ∧
    (∀ c : Option ℚ, categorizeTags [{ en := some "beautiful", confidence := c }]
      = { entities := [], attributes := [tagItem { en := some "beautiful", confidence := c }],
          environment := [], actions := [], concepts := [] }) ∧
    (∀ c : Option ℚ, categorizeTags [{ en := some "xyz", confidence := c }]
      = { entities := [], attributes := [], environment := [], actions := [],
          concepts := [tagItem { en := some "xyz", confidence := c }] }) := by
  refine ⟨?_, ?_, ?_, ?_⟩
  · intro tags t cat ht
    rw [tagItem_mem_categorizeTags tags t cat ht, categoryOf_eq_iff]
  · intro c
    have h : categoryOf (toLowerCase (labelOf { en := some "dog", confidence := c }))
        = .entities := by
      rw [labelOf_some "dog" c (by decide), toLowerCase_eq]
      decide
    rw [categorizeTags_singleton, h]
    rfl
  · intro c
    have h : categoryOf (toLowerCase (labelOf { en := some "beautiful", confidence := c }))
        = .attributes := by
      rw [labelOf_some "beautiful" c (by decide), toLowerCase_eq]
      decide
    rw [categorizeTags_singleton, h]
    rfl
  · intro c
    have h : categoryOf (toLowerCase (labelOf { en := some "xyz", confidence := c }))
        = .concepts := by
      rw [labelOf_some "xyz" c (by decide), toLowerCase_eq]
      decide
    rw [categorizeTags_singleton, h]
    rfl

/-- Claim C12, at the single tag `dog`: its item is in the entities list exactly because
entities is the first category with a matching keyword. -/
theorem categorizeTags_first_match_witness :
    (tagItem { en := some "dog", confidence := some 90 }
        ∈ (categorizeTags [{ en := some "dog", confidence := some 90 }]).get .entities ↔
      FirstMatchingCategory (toLowerCase (labelOf { en := some "dog", confidence := some 90 }))
        .entities) :=
  categorizeTags_first_match.1 [{ en := some "dog", confidence := some 90 }]
    { en := some "dog", confidence := some 90 } .entities (List.mem_singleton.mpr rfl)

/-- Claim C13: `categorizeTags` retains every input tag: each category list is the input
filtered by category, so a sublist of the input items in input order; the five lengths add
up to the length of the input; and the item of every input tag is in exactly one of the
five lists. -/
theorem categorizeTags_retains_all (tags : List Tag) :
    (∀ cat, (categorizeTags tags).get cat
      = (tags.filter fun t => decide (categoryOf (toLowerCase (labelOf t)) = cat)).map tagItem) ∧
    (∀ cat, ((categorizeTags tags).get cat).Sublist (tags.map tagItem)) ∧
    (categorizeTags tags).entities.length + (categorizeTags tags).attributes.length
      + (categorizeTags tags).environment.length + (categorizeTags tags).actions.length
      + (categorizeTags tags).concepts.length = tags.length ∧
    (∀ t ∈ tags, ∃! cat, tagItem t ∈ (categorizeTags tags).get cat) := by
  refine ⟨categorizeTags_get tags, ?_, ?_, ?_⟩
  · intro cat
    rw [categorizeTags_get]
    exact (List.filter_sublist tags).map tagItem
  · have h := length_filter_categories (fun t => categoryOf (toLowerCase (labelOf t))) tags
    have e1 := congrArg List.length (categorizeTags_get tags .entities)
    have e2 := congrArg List.length (categorizeTags_get tags .attributes)
    have e3 := congrArg List.length (categorizeTags_get tags .environment)
    have e4 := congrArg List.length (categorizeTags_get tags .actions)
    have e5 := congrArg List.length (categorizeTags_get tags .concepts)
    simp only [List.length_map, Categorized.get] at e1 e2 e3 e4 e5
    rw [e1, e2, e3, e4, e5]
    exact h
  · intro t ht
    refine ⟨categoryOf (toLowerCase (labelOf t)), ?_, ?_⟩
    · exact (tagItem_mem_categorizeTags tags t _ ht).mpr rfl
    · intro cat hcat
      exact ((tagItem_mem_categorizeTags tags t cat ht).mp hcat).symm

/-- Claim C13, at two tags: the item of `sky` is in exactly one category list. -/
theorem categorizeTags_retains_all_witness :
    ∃! cat, tagItem { en := some "sky", confidence := some 80 }
      ∈ (categorizeTags [{ en := some "dog", confidence := some 90 },
          { en := some "sky", confidence := some 80 }]).get cat :=
  (categorizeTags_retains_all [{ en := some "dog", confidence := some 90 },
      { en := some "sky", confidence := some 80 }]).2.2.2
    { en := some "sky", confidence := some 80 }
    (List.mem_cons_of_mem _ (List.mem_singleton.mpr rfl))

/-! ## Claims on the scene type -/

/-- A word without the separator that starts a list `l ++ sep :: m` lies inside `l`. -/
theorem prefix_of_prefix_append_sep {kw l m : List Char} {sep : Char} (hsp : sep ∉ kw)
    (h : kw <+: l ++ sep :: m) : kw <+: l := by
  obtain ⟨t, ht⟩ := h
  rcases List.append_eq_append_iff.mp ht with ⟨a, ha, _⟩ | ⟨c, hc, hc2⟩
  · exact ⟨a, ha.symm⟩
  · cases c with
    | nil =>
      rw [List.append_nil] at hc
      rw [hc]
    | cons x c =>
      simp only [List.cons_append, List.cons.injEq] at hc2
      exfalso
      apply hsp
      rw [hc, hc2.1]
      simp

/-- A non-empty word without the separator occurs in `l ++ sep :: m` exactly when it
occurs in `l` or in `m`. -/
theorem infix_append_sep_iff {kw l m : List Char} {sep : Char} (hne : kw ≠ [])
    (hsp : sep ∉ kw) : kw <:+: l ++ sep :: m ↔ kw <:+: l ∨ kw <:+: m := by
  constructor
  · intro h
    induction l with
    | nil =>
      rw [List.nil_append, List.infix_cons_iff] at h
      rcases h with h | h
      · rcases List.prefix_cons_iff.mp h with h0 | ⟨t, ht, _⟩
        · exact absurd h0 hne
        · exfalso
          apply hsp
          rw [ht]
          simp
      · exact Or.inr h
    | cons a l ih =>
      rw [List.cons_append, List.infix_cons_iff] at h
      rcases h with h | h
      · have h2 : kw <+: (a :: l) ++ sep :: m := by simpa using h
        exact Or.inl (prefix_of_prefix_append_sep hsp h2).isInfix
      · rcases ih h with h3 | h3
        · exact Or.inl (List.infix_cons h3)
        · exact Or.inr h3
  · rintro (h | h)
    · exact h.trans (List.prefix_append l (sep :: m)).isInfix
    · exact h.trans ((List.suffix_cons sep m).isInfix.trans
        (List.suffix_append l (sep :: m)).isInfix)

/-- Occurrence of a word without blanks in the accumulating loop of `join`. -/
theorem infix_intercalate_go {kw : List Char} (hne : kw ≠ []) (hsp : ' ' ∉ kw)
    (parts : List String) (acc : String) :
    kw <:+: (String.intercalate.go acc " " parts).data ↔
      kw <:+: acc.data ∨ ∃ p ∈ parts, kw <:+: p.data := by
  induction parts generalizing acc with
  | nil => simp [String.intercalate.go]
  | cons a as ih =>
    rw [String.intercalate.go, ih]
    have e : (acc ++ " " ++ a).data = acc.data ++ ' ' :: a.data := by
      simp [String.data_append]
    rw [e, infix_append_sep_iff hne hsp]
    simp only [List.mem_cons, exists_eq_or_imp, or_assoc]

/-- A non-empty keyword without blanks occurs in the joined labels exactly when it occurs
in one of the labels. -/
theorem includes_tagNamesOf (tags : List Tag) (kw : String) (hne : kw.data ≠ [])
    (hsp : ' ' ∉ kw.data) : includes (tagNamesOf tags) kw = labelHas tags kw := by
  rw [Bool.eq_iff_iff]
  unfold includes tagNamesOf labelHas join
  rw [decide_eq_true_iff, List.any_eq_true]
  cases tags with
  | nil =>
    simp only [List.map_nil, String.intercalate, List.not_mem_nil, false_and, exists_false,
      iff_false]
    intro h
    exact hne (List.eq_nil_of_infix_nil h)
  | cons t ts =>
    simp only [List.map_cons, String.intercalate]
    rw [infix_intercalate_go hne hsp]
    simp only [List.mem_map, List.mem_cons, exists_eq_or_imp, decide_eq_true_eq,
      exists_exists_and_eq_and]

/-- Claim C14: `detectSceneType` returns the label of the first rule, in the order
portrait/person, landscape/mountain, food/drink, animal, building/architecture,
nature/outdoor, one of whose keywords occurs case-insensitively in some tag label, and
`General` when none does; a tag with `mountain` gives `Paisaje`, and tags with both
`portrait` and `mountain` give `Retrato`. -/
theorem detectSceneType_first_rule :
    (∀ tags objects : List Tag,
      detectSceneType tags objects = firstRuleLabel sceneTypeRules "General" tags) ∧
    (∀ tags objects : List Tag, labelHas tags "portrait" = true →
      detectSceneType tags objects = "Retrato") ∧
    (∀ tags objects : List Tag, labelHas tags "mountain" = true →
      labelHas tags "portrait" = false → labelHas tags "person" = false →
      detectSceneType tags objects = "Paisaje") ∧
    (∀ (objects : List Tag) (c : Option ℚ),
      detectSceneType [{ en := some "Mountain view", confidence := c }] objects = "Paisaje") ∧
    (∀ (objects : List Tag) (c₁ c₂ : Option ℚ),
      detectSceneType [{ en := some "mountain", confidence := c₁ },
        { en := some "portrait", confidence := c₂ }] objects = "Retrato") ∧
    (∀ objects : List Tag, detectSceneType [] objects = "General") := by
  have main : ∀ tags objects : List Tag,
      detectSceneType tags objects = firstRuleLabel sceneTypeRules "General" tags := by
    intro tags objects
    unfold detectSceneType firstRuleLabel sceneTypeRules
    simp only [includes_tagNamesOf tags "portrait" (by decide) (by decide),
      includes_tagNamesOf tags "person" (by decide) (by decide),
      includes_tagNamesOf tags "landscape" (by decide) (by decide),
      includes_tagNamesOf tags "mountain" (by decide) (by decide),
      includes_tagNamesOf tags "food" (by decide) (by decide),
      includes_tagNamesOf tags "drink" (by decide) (by decide),
      includes_tagNamesOf tags "animal" (by decide) (by decide),
      includes_tagNamesOf tags "building" (by decide) (by decide),
      includes_tagNamesOf tags "architecture" (by decide) (by decide),
      includes_tagNamesOf tags "nature" (by decide) (by decide),
      includes_tagNamesOf tags "outdoor" (by decide) (by decide),
      List.find?_cons, List.find?_nil, List.any_cons, List.any_nil, Bool.or_false]
    generalize (labelHas tags "portrait" || labelHas tags "person") = b1
    generalize (labelHas tags "landscape" || labelHas tags "mountain") = b2
    generalize (labelHas tags "food" || labelHas tags "drink") = b3
    generalize labelHas tags "animal" = b4
    generalize (labelHas tags "building" || labelHas tags "architecture") = b5
    generalize (labelHas tags "nature" || labelHas tags "outdoor") = b6
    cases b1 <;> cases b2 <;> cases b3 <;> cases b4 <;> cases b5 <;> cases b6 <;> rfl
  refine ⟨main, ?_, ?_, ?_, ?_, ?_⟩
  · intro tags objects h
    rw [main]
    simp [firstRuleLabel, sceneTypeRules, h]
  · intro tags objects h h1 h2
    rw [main]
    simp [firstRuleLabel, sceneTypeRules, h, h1, h2]
  · intro objects c
    rw [main]
    unfold firstRuleLabel labelHas
    simp only [List.any_cons, List.any_nil, Bool.or_false,
      labelOf_some "Mountain view" c (by decide), toLowerCase_eq]
    decide
  · intro objects c₁ c₂
    rw [main]
    unfold firstRuleLabel labelHas
    simp only [List.any_cons, List.any_nil, Bool.or_false,
      labelOf_some "mountain" c₁ (by decide), labelOf_some "portrait" c₂ (by decide),
      toLowerCase_eq]
    decide
  · intro objects
    rw [main]
    decide

/-- Claim C14, at the tags `mountain` and `lake`: `mountain` occurs, `portrait` and
`person` do not, and the scene type is `Paisaje`. -/
theorem detectSceneType_first_rule_witness :
    detectSceneType [{ en := some "mountain", confidence := some 90 },
      { en := some "lake", confidence := some 80 }] [] = "Paisaje" :=
  detectSceneType_first_rule.2.2.1
    [{ en := some "mountain", confidence := some 90 }, { en := some "lake", confidence := some 80 }]
    []
    (by
      unfold labelHas
      simp only [List.any_cons, List.any_nil, Bool.or_false, labelOf_some "mountain" _ (by decide),
        labelOf_some "lake" _ (by decide), toLowerCase_eq]
      decide)
    (by
      unfold labelHas
      simp only [List.any_cons, List.any_nil, Bool.or_false, labelOf_some "mountain" _ (by decide),
        labelOf_some "lake" _ (by decide), toLowerCase_eq]
      decide)
    (by
      unfold labelHas
      simp only [List.any_cons, List.any_nil, Bool.or_false, labelOf_some "mountain" _ (by decide),
        labelOf_some "lake" _ (by decide), toLowerCase_eq]
      decide)

/-! ## Claims on missing sections -/

/-- Rounding 50 to two decimals gives 50. -/
theorem toFixed2_fifty : toFixed2 50 = 50 := by
  norm_num [toFixed2, Int.floor_eq_iff]

/-- Without colors, the mood is decided by the tags alone, at brightness 50. -/
theorem detectMood_nil (tags : List Tag) :
    detectMood [] tags = "Tranquilo y Sereno" ∨ detectMood [] tags = "Dinámico y Energético" ∨
      detectMood [] tags = "Neutral" := by
  have hb : moodBrightness [] = 50 := by simp [moodBrightness]
  unfold detectMood
  simp only [hb]
  rw [if_neg (by norm_num), if_neg (by norm_num)]
  split_ifs
  · exact Or.inl rfl
  · exact Or.inr (Or.inl rfl)
  · exact Or.inr (Or.inr rfl)

/-- Claim C15: called with any tag section (in particular a non-empty tag list) and with
the colors and the objects section both absent, `generateSceneContext` returns a context
whose object lists, dominant colors and palette are empty, whose object and color
diversity are 0, whose harmony is `Insuficientes datos`, vibrancy `Baja`, average
brightness 50, and whose mood is one of the three outcomes of brightness 50. -/
theorem generateSceneContext_missing_sections (tags : Option (List Tag)) :
    (generateSceneContext { tags := tags, colors := none, objects := none }).objects_detected.high_confidence = [] ∧
    (generateSceneContext { tags := tags, colors := none, objects := none }).objects_detected.all_objects = [] ∧
    (generateSceneContext { tags := tags, colors := none, objects := none }).color_analysis.dominant = [] ∧
    (generateSceneContext { tags := tags, colors := none, objects := none }).color_analysis.palette = [] ∧
    (generateSceneContext { tags := tags, colors := none, objects := none }).composition_metrics.object_diversity = 0 ∧
    (generateSceneContext { tags := tags, colors := none, objects := none }).composition_metrics.color_diversity = 0 ∧
    (generateSceneContext { tags := tags, colors := none, objects := none }).color_analysis.color_harmony
      = "Insuficientes datos" ∧
    (generateSceneContext { tags := tags, colors := none, objects := none }).composition_metrics.vibrancy = "Baja" ∧
    (generateSceneContext { tags := tags, colors := none, objects := none }).color_analysis.avg_brightness = 50 ∧
    ((generateSceneContext { tags := tags, colors := none, objects := none }).scene_analysis.mood
        = "Tranquilo y Sereno" ∨
      (generateSceneContext { tags := tags, colors := none, objects := none }).scene_analysis.mood
        = "Dinámico y Energético" ∨
      (generateSceneContext { tags := tags, colors := none, objects := none }).scene_analysis.mood
        = "Neutral") := by
  refine ⟨rfl, rfl, rfl, rfl, rfl, rfl, rfl, rfl, ?_, ?_⟩
  · exact toFixed2_fifty
  · exact detectMood_nil _

/-! ## Claims on the color name -/

/-- The search loop over a table of hex keys is the loop over the decoded table. -/
theorem foldl_colorNameStep_eq (rgb : Rgb) (es : List (String × String))
    (ps : List (Rgb × String)) (st : Option ℕ × String)
    (h : es.map (fun e => (hexToRgbStr e.1, e.2)) = ps.map (fun p => (some p.1, p.2))) :
    es.foldl (colorNameStep rgb) st = ps.foldl (paletteStep rgb) st := by
  induction es generalizing ps st with
  | nil =>
    cases ps with
    | nil => rfl
    | cons p ps => simp at h
  | cons e es ih =>
    cases ps with
    | nil => simp at h
    | cons p ps =>
      simp only [List.map_cons, List.cons.injEq, Prod.mk.injEq] at h
      obtain ⟨⟨h1, h2⟩, h3⟩ := h
      have hstep : colorNameStep rgb st e = paletteStep rgb st p := by
        unfold colorNameStep paletteStep
        rw [h1, h2]
      rw [List.foldl_cons, List.foldl_cons, hstep]
      exact ih ps _ h3

/-- The search loop started from a current minimum `m`: either nothing in the table is
strictly closer and the state is unchanged, or the result is the first entry of the table
among those at the least distance, which is below `m`. -/
theorem foldl_paletteStep_some (rgb : Rgb) (ps : List (Rgb × String)) (m : ℕ) (nm : String) :
    (ps.foldl (paletteStep rgb) (some m, nm) = (some m, nm) ∧
      ∀ p ∈ ps, m ≤ distSq rgb p.1) ∨
    (∃ pre e post, ps = pre ++ e :: post ∧
      ps.foldl (paletteStep rgb) (some m, nm) = (some (distSq rgb e.1), e.2) ∧
      distSq rgb e.1 < m ∧
      (∀ x ∈ pre, distSq rgb e.1 < distSq rgb x.1) ∧
      (∀ x ∈ post, distSq rgb e.1 ≤ distSq rgb x.1)) := by
  induction ps generalizing m nm with
  | nil => exact Or.inl ⟨rfl, by simp⟩
  | cons p ps ih =>
    rw [List.foldl_cons]
    by_cases hlt : distSq rgb p.1 < m
    · have hs : paletteStep rgb (some m, nm) p = (some (distSq rgb p.1), p.2) := by
        simp [paletteStep, hlt]
      rw [hs]
      rcases ih (distSq rgb p.1) p.2 with ⟨hres, hall⟩ | ⟨pre, e, post, hps, hres, hlt2, hpre, hpost⟩
      · exact Or.inr ⟨[], p, ps, rfl, hres, hlt, by simp, hall⟩
      · refine Or.inr ⟨p :: pre, e, post, by rw [hps]; rfl, hres, lt_trans hlt2 hlt, ?_, hpost⟩
        intro x hx
        rcases List.mem_cons.mp hx with rfl | hx
        · exact hlt2
        · exact hpre x hx
    · have hs : paletteStep rgb (some m, nm) p = (some m, nm) := by
        simp [paletteStep, hlt]
      rw [hs]
      rcases ih m nm with ⟨hres, hall⟩ | ⟨pre, e, post, hps, hres, hlt2, hpre, hpost⟩
      · refine Or.inl ⟨hres, ?_⟩
        intro x hx
        rcases List.mem_cons.mp hx with rfl | hx
        · exact not_lt.mp hlt
        · exact hall x hx
      · refine Or.inr ⟨p :: pre, e, post, by rw [hps]; rfl, hres, hlt2, ?_, hpost⟩
        intro x hx
        rcases List.mem_cons.mp hx with rfl | hx
        · exact lt_of_lt_of_le hlt2 (not_lt.mp hlt)
        · exact hpre x hx

/-- The search loop started from `Infinity` over a non-empty table returns the first entry
among those at the least distance. -/
theorem foldl_paletteStep_none (rgb : Rgb) (p : Rgb × String) (ps : List (Rgb × String))
    (nm : String) :
    ∃ pre e post, p :: ps = pre ++ e :: post ∧
      ((p :: ps).foldl (paletteStep rgb) (none, nm)).2 = e.2 ∧
      (∀ x ∈ pre, distSq rgb e.1 < distSq rgb x.1) ∧
      (∀ x ∈ post, distSq rgb e.1 ≤ distSq rgb x.1) := by
  rw [List.foldl_cons]
  have hs : paletteStep rgb (none, nm) p = (some (distSq rgb p.1), p.2) := rfl
  rw [hs]
  rcases foldl_paletteStep_some rgb ps (distSq rgb p.1) p.2 with
    ⟨hres, hall⟩ | ⟨pre, e, post, hps, hres, hlt, hpre, hpost⟩
  · exact ⟨[], p, ps, rfl, by rw [hres], by simp, hall⟩
  · refine ⟨p :: pre, e, post, by rw [hps]; rfl, by rw [hres], ?_, hpost⟩
    intro x hx
    rcases List.mem_cons.mp hx with rfl | hx
    · exact hlt
    · exact hpre x hx

/-- Claim C16: on every valid hex color, decoded as `rgb`, `colorNameFromHex` returns the
name of an entry `e` of the twelve reference colors whose Euclidean distance to `rgb` is
least over the whole palette, and every reference color before `e` in palette order is
strictly farther; so `#404040`, at equal distance from Negro, Gris and Púrpura, is named
Negro. -/
theorem colorNameFromHex_nearest :
    (∀ (hex : Option String) (rgb : Rgb), hexToRgb hex = some rgb →
      ∃ pre e post, referencePalette = pre ++ e :: post ∧
        colorNameFromHex hex = e.2 ∧
        (∀ x ∈ referencePalette,
          Real.sqrt ((distSq rgb e.1 : ℕ) : ℝ) ≤ Real.sqrt ((distSq rgb x.1 : ℕ) : ℝ)) ∧
        (∀ x ∈ pre,
          Real.sqrt ((distSq rgb e.1 : ℕ) : ℝ) < Real.sqrt ((distSq rgb x.1 : ℕ) : ℝ))) ∧
    referencePalette.map Prod.snd
      = ["Negro", "Blanco", "Rojo", "Verde", "Azul", "Amarillo", "Magenta", "Cyan", "Gris",
         "Naranja", "Púrpura", "Rosa"] ∧
    colorNames.map (fun e => (hexToRgbStr e.1, e.2))
      = referencePalette.map (fun p => (some p.1, p.2)) ∧
    colorNameFromHex (some "#404040") = "Negro" ∧
    distSq ⟨64, 64, 64⟩ ⟨0, 0, 0⟩ = distSq ⟨64, 64, 64⟩ ⟨128, 128, 128⟩ ∧
    colorNameFromHex (some "#FFA500") = "Naranja" := by
  have htable : colorNames.map (fun e => (hexToRgbStr e.1, e.2))
      = referencePalette.map (fun p => (some p.1, p.2)) := by decide
  refine ⟨?_, by decide, htable, by decide, by decide, by decide⟩
  intro hex rgb h
  have hname : colorNameFromHex hex
      = (referencePalette.foldl (paletteStep rgb) (none, "Desconocido")).2 := by
    unfold colorNameFromHex
    rw [h]
    exact congrArg Prod.snd (foldl_colorNameStep_eq rgb _ _ _ htable)
  obtain ⟨pre, e, post, hps, hres, hpre, hpost⟩ :=
    foldl_paletteStep_none rgb (⟨0, 0, 0⟩, "Negro") referencePalette.tail "Desconocido"
  have hps2 : referencePalette = pre ++ e :: post := hps
  refine ⟨pre, e, post, hps2, ?_, ?_, ?_⟩
  · rw [hname]
    exact hres
  · intro x hx
    apply Real.sqrt_le_sqrt
    rw [hps2] at hx
    have hle : distSq rgb e.1 ≤ distSq rgb x.1 := by
      rcases List.mem_append.mp hx with hx | hx
      · exact le_of_lt (hpre x hx)
      · rcases List.mem_cons.mp hx with rfl | hx
        · exact le_refl _
        · exact hpost x hx
    exact_mod_cast hle
  · intro x hx
    apply Real.sqrt_lt_sqrt (by positivity)
    exact_mod_cast hpre x hx

/-- Claim C16, at the color `#0000F0`: the nearest reference color is Azul. -/
theorem colorNameFromHex_nearest_witness :
    ∃ pre e post, referencePalette = pre ++ e :: post ∧
      colorNameFromHex (some "#0000F0") = e.2 ∧
      (∀ x ∈ referencePalette,
        Real.sqrt ((distSq ⟨0, 0, 240⟩ e.1 : ℕ) : ℝ)
          ≤ Real.sqrt ((distSq ⟨0, 0, 240⟩ x.1 : ℕ) : ℝ)) ∧
      (∀ x ∈ pre,
        Real.sqrt ((distSq ⟨0, 0, 240⟩ e.1 : ℕ) : ℝ)
          < Real.sqrt ((distSq ⟨0, 0, 240⟩ x.1 : ℕ) : ℝ)) :=
  colorNameFromHex_nearest.1 (some "#0000F0") ⟨0, 0, 240⟩ (by decide)

/-! ## Claims on the color analysis -/

/-- The sort by percentage is a permutation of its input. -/
theorem sortByPercentage_perm (colors : List Color) : (sortByPercentage colors).Perm colors :=
  List.perm_insertionSort _ colors

/-- The sort by percentage puts the percentages, missing ones counted as 0, in
descending order. -/
theorem sortByPercentage_sorted (colors : List Color) :
    (sortByPercentage colors).Pairwise
      fun a b => orZero a.percentage ≥ orZero b.percentage := by
  haveI : IsTotal Color (fun a b => orZero a.percentage ≥ orZero b.percentage) :=
    ⟨fun a b => le_total _ _⟩
  haveI : IsTrans Color (fun a b => orZero a.percentage ≥ orZero b.percentage) :=
    ⟨fun _ _ _ h1 h2 => le_trans h2 h1⟩
  exact List.sorted_insertionSort _ colors

/-- The sort by percentage is stable: the colors of any one percentage keep their input
order. -/
theorem sortByPercentage_stable (colors : List Color) (p : ℚ) :
    (sortByPercentage colors).filter (fun c => decide (orZero c.percentage = p))
      = colors.filter (fun c => decide (orZero c.percentage = p)) := by
  have hsub : (colors.filter fun c => decide (orZero c.percentage = p)).Sublist
      (sortByPercentage colors) := by
    apply List.sublist_insertionSort
    · rw [List.pairwise_iff_forall_sublist]
      intro a b hab
      have ha := hab.subset (List.mem_cons_self a [b])
      have hb := hab.subset (List.mem_cons_of_mem a (List.mem_singleton.mpr rfl))
      have ha2 := of_decide_eq_true (List.mem_filter.mp ha).2
      have hb2 := of_decide_eq_true (List.mem_filter.mp hb).2
      show orZero b.percentage ≤ orZero a.percentage
      rw [ha2, hb2]
    · exact List.filter_sublist colors
  have hsub2 := hsub.filter (fun c => decide (orZero c.percentage = p))
  rw [List.filter_filter] at hsub2
  simp only [Bool.and_self] at hsub2
  have hlen := ((sortByPercentage_perm colors).filter
    (fun c => decide (orZero c.percentage = p))).length_eq
  exact (hsub2.eq_of_length hlen.symm).symm

/-- Claim C17: `analyzeColorsAdvanced` works on a list `sorted` that is a permutation of
the input, in descending order of percentage (a missing one counted as 0), with the
colors of equal percentage in their input order; `palette` is the hex values of `sorted`
and `dominant` its first five colors. On three colors with a tie, the two colors at 20
percent keep their input order behind the color at 70 percent. -/
theorem analyzeColorsAdvanced_sorted :
    (∀ colors : List Color, ∃ sorted : List Color,
      sorted.Perm colors ∧
      sorted.Pairwise (fun a b => orZero a.percentage ≥ orZero b.percentage) ∧
      (∀ p : ℚ, sorted.filter (fun c => decide (orZero c.percentage = p))
        = colors.filter (fun c => decide (orZero c.percentage = p))) ∧
      (∀ a b : Color, [a, b].Sublist colors → orZero a.percentage ≥ orZero b.percentage →
        [a, b].Sublist sorted) ∧
      (analyzeColorsAdvanced colors).palette = sorted.map Color.hex ∧
      (analyzeColorsAdvanced colors).dominant
        = (sorted.take 5).map fun c =>
            { hex := c.hex, rgb := hexToRgb c.hex, percentage := orZero c.percentage }) ∧
    (analyzeColorsAdvanced
      [{ hex := some "#111111", percentage := some 20 },
       { hex := some "#222222", percentage := some 20 },
       { hex := some "#333333", percentage := some 70 }]).palette
      = [some "#333333", some "#111111", some "#222222"] := by
  refine ⟨?_, by decide⟩
  intro colors
  refine ⟨sortByPercentage colors, sortByPercentage_perm colors, sortByPercentage_sorted colors,
    sortByPercentage_stable colors, ?_, ?_, ?_⟩
  · intro a b hab hr
    exact List.pair_sublist_insertionSort hr hab
  · cases colors with
    | nil => rfl
    | cons c cs => simp [analyzeColorsAdvanced]
  · cases colors with
    | nil => rfl
    | cons c cs => simp [analyzeColorsAdvanced]

/-- Claim C17, at a list of two colors given in ascending order of percentage. -/
theorem analyzeColorsAdvanced_sorted_witness :
    ∃ sorted : List Color,
      sorted.Perm [{ hex := some "#111111", percentage := some 20 },
        { hex := some "#333333", percentage := some 70 }] ∧
      sorted.Pairwise (fun a b => orZero a.percentage ≥ orZero b.percentage) ∧
      (∀ p : ℚ, sorted.filter (fun c => decide (orZero c.percentage = p))
        = [{ hex := some "#111111", percentage := some 20 },
            { hex := some "#333333", percentage := some 70 }].filter
            (fun c => decide (orZero c.percentage = p))) ∧
      (∀ a b : Color, [a, b].Sublist [{ hex := some "#111111", percentage := some 20 },
          { hex := some "#333333", percentage := some 70 }] →
        orZero a.percentage ≥ orZero b.percentage → [a, b].Sublist sorted) ∧
      (analyzeColorsAdvanced [{ hex := some "#111111", percentage := some 20 },
        { hex := some "#333333", percentage := some 70 }]).palette = sorted.map Color.hex ∧
      (analyzeColorsAdvanced [{ hex := some "#111111", percentage := some 20 },
        { hex := some "#333333", percentage := some 70 }]).dominant
        = (sorted.take 5).map fun c =>
            { hex := c.hex, rgb := hexToRgb c.hex, percentage := orZero c.percentage } :=
  analyzeColorsAdvanced_sorted.1 [{ hex := some "#111111", percentage := some 20 },
    { hex := some "#333333", percentage := some 70 }]

/-- Claim C18: `analyzeColorsAdvanced` returns the average brightness 50 for the empty
color list, the context reports 50 when the colors section is absent, and for every
non-empty list the average is the arithmetic mean of `calculateBrightness` over all input
colors; seven colors, one of them malformed, average `(5 * 255 + 0 + 50) / 7`. -/
theorem analyzeColorsAdvanced_avg_brightness :
    (analyzeColorsAdvanced []).avg_brightness = 50 ∧
    (∀ (tags : Option (List Tag)) (objects : Option (List Tag)),
      (generateSceneContext { tags := tags, colors := none, objects := objects
        }).color_analysis.avg_brightness = 50) ∧
    (∀ (c : Color) (cs : List Color),
      (analyzeColorsAdvanced (c :: cs)).avg_brightness
        = ((((c :: cs).map fun x => calculateBrightness x.hex).sum : ℤ) : ℚ)
            / (((c :: cs).length : ℕ) : ℚ)) ∧
    (analyzeColorsAdvanced sevenColors).avg_brightness = (5 * 255 + 0 + 50) / 7 := by
  have hcons : ∀ (c : Color) (cs : List Color),
      (analyzeColorsAdvanced (c :: cs)).avg_brightness
        = ((((c :: cs).map fun x => calculateBrightness x.hex).sum : ℤ) : ℚ)
            / (((c :: cs).length : ℕ) : ℚ) := by
    intro c cs
    simp [analyzeColorsAdvanced]
  refine ⟨rfl, ?_, hcons, ?_⟩
  · intro tags objects
    exact toFixed2_fifty
  · have hw : calculateBrightness (some "#FFFFFF") = 255 := by
      have : hexToRgb (some "#FFFFFF") = some ⟨255, 255, 255⟩ := by decide
      simp only [calculateBrightness, this, mathRound_div_thousand]
      norm_num
    have hk : calculateBrightness (some "#000000") = 0 := by
      have : hexToRgb (some "#000000") = some ⟨0, 0, 0⟩ := by decide
      simp only [calculateBrightness, this, mathRound_div_thousand]
      norm_num
    have hz : calculateBrightness (some "zzz") = 50 := by
      have : hexToRgb (some "zzz") = none := by decide
      simp only [calculateBrightness, this]
    unfold sevenColors
    rw [hcons]
    simp only [List.map_cons, List.map_nil, List.sum_cons, List.sum_nil, List.length_cons,
      List.length_nil, hw, hk, hz]
    norm_num

/-! ## Claims on the composition metrics -/

/-- The four-label cascade shared by `calculateVibrancy` and `calculateComplexity`, read as
four intervals of the score. -/
theorem four_buckets (x a b c : ℚ) (hab : b < a) (hbc : c < b) :
    ((if x > a then "Muy Alta" else if x > b then "Alta" else if x > c then "Media"
        else "Baja") = "Muy Alta" ↔ x > a) ∧
    ((if x > a then "Muy Alta" else if x > b then "Alta" else if x > c then "Media"
        else "Baja") = "Alta" ↔ b < x ∧ x ≤ a) ∧
    ((if x > a then "Muy Alta" else if x > b then "Alta" else if x > c then "Media"
        else "Baja") = "Media" ↔ c < x ∧ x ≤ b) ∧
    ((if x > a then "Muy Alta" else if x > b then "Alta" else if x > c then "Media"
        else "Baja") = "Baja" ↔ x ≤ c) := by
  have e1 : ("Muy Alta" : String) ≠ "Alta" := by decide
  have e2 : ("Muy Alta" : String) ≠ "Media" := by decide
  have e3 : ("Muy Alta" : String) ≠ "Baja" := by decide
  have e4 : ("Alta" : String) ≠ "Muy Alta" := by decide
  have e5 : ("Alta" : String) ≠ "Media" := by decide
  have e6 : ("Alta" : String) ≠ "Baja" := by decide
  have e7 : ("Media" : String) ≠ "Muy Alta" := by decide
  have e8 : ("Media" : String) ≠ "Alta" := by decide
  have e9 : ("Media" : String) ≠ "Baja" := by decide
  have e10 : ("Baja" : String) ≠ "Muy Alta" := by decide
  have e11 : ("Baja" : String) ≠ "Alta" := by decide
  have e12 : ("Baja" : String) ≠ "Media" := by decide
  by_cases h1 : x > a
  · simp only [if_pos h1]
    exact ⟨⟨fun _ => h1, fun _ => trivial⟩,
      ⟨fun h => absurd h e1, fun h => absurd h.2 (not_le.mpr h1)⟩,
      ⟨fun h => absurd h e2, fun h => absurd h.2 (not_le.mpr (by linarith))⟩,
      ⟨fun h => absurd h e3, fun h => absurd h (not_le.mpr (by linarith))⟩⟩
  · simp only [if_neg h1]
    have h1' : x ≤ a := not_lt.mp h1
    by_cases h2 : x > b
    · simp only [if_pos h2]
      exact ⟨⟨fun h => absurd h e4, fun h => absurd h h1⟩,
        ⟨fun _ => ⟨h2, h1'⟩, fun _ => trivial⟩,
        ⟨fun h => absurd h e5, fun h => absurd h.2 (not_le.mpr h2)⟩,
        ⟨fun h => absurd h e6, fun h => absurd h (not_le.mpr (by linarith))⟩⟩
    · simp only [if_neg h2]
      have h2' : x ≤ b := not_lt.mp h2
      by_cases h3 : x > c
      · simp only [if_pos h3]
        exact ⟨⟨fun h => absurd h e7, fun h => absurd h h1⟩,
          ⟨fun h => absurd h e8, fun h => absurd h.1 h2⟩,
          ⟨fun _ => ⟨h3, h2'⟩, fun _ => trivial⟩,
          ⟨fun h => absurd h e9, fun h => absurd h (not_le.mpr h3)⟩⟩
      · simp only [if_neg h3]
        exact ⟨⟨fun h => absurd h e10, fun h => absurd h h1⟩,
          ⟨fun h => absurd h e11, fun h => absurd h.1 h2⟩,
          ⟨fun h => absurd h e12, fun h => absurd h.1 h3⟩,
          ⟨fun _ => not_lt.mp h3, fun _ => trivial⟩⟩

/-- A product `count * literal` of the complexity score, against the exact product: two
roundings, one of the literal and one of the product. -/
theorem fmul_literal_bounds (n : ℕ) (c : ℚ) (hc : 0 ≤ c) :
    (n : ℚ) * c * (1 - 1 / 2 ^ 53) ^ 2 ≤ fmul n (roundDouble c) ∧
    fmul n (roundDouble c) ≤ (n : ℚ) * c * (1 + 1 / 2 ^ 53) ^ 2 ∧
    0 ≤ fmul n (roundDouble c) := by
  have hn : (0 : ℚ) ≤ n := Nat.cast_nonneg n
  have hr := roundDouble_rel c hc
  have hrc : 0 ≤ roundDouble c := roundDouble_nonneg hc
  have hp : 0 ≤ (n : ℚ) * roundDouble c := mul_nonneg hn hrc
  refine ⟨?_, ?_, roundDouble_nonneg hp⟩
  · apply roundDouble_lower (mul_nonneg hn hc)
    rw [pow_one, mul_assoc]
    exact mul_le_mul_of_nonneg_left hr.1 hn
  · apply roundDouble_upper hp
    rw [pow_one, mul_assoc]
    exact mul_le_mul_of_nonneg_left hr.2 hn

/-- The computed complexity score against the exact score `(4 t + 3 o + 3 c) / 20`: five
roundings lie on the longest path of the expression. -/
theorem complexityScore_bounds (tags : List Tag) (colors : List Color) (objects : List Tag) :
    ((4 * tags.length + 3 * objects.length + 3 * colors.length : ℕ) : ℚ) / 20
        * (1 - 1 / 2 ^ 53) ^ 5 ≤ complexityScore tags colors objects ∧
    complexityScore tags colors objects
      ≤ ((4 * tags.length + 3 * objects.length + 3 * colors.length : ℕ) : ℚ) / 20
        * (1 + 1 / 2 ^ 53) ^ 5 := by
  obtain ⟨a1, a2, a0⟩ := fmul_literal_bounds tags.length 0.4 (by norm_num)
  obtain ⟨b1, b2, b0⟩ := fmul_literal_bounds objects.length 0.3 (by norm_num)
  obtain ⟨c1, c2, c0⟩ := fmul_literal_bounds colors.length 0.3 (by norm_num)
  have ht : (0 : ℚ) ≤ tags.length := Nat.cast_nonneg _
  have ho : (0 : ℚ) ≤ objects.length := Nat.cast_nonneg _
  have hc : (0 : ℚ) ≤ colors.length := Nat.cast_nonneg _
  have hA : (0 : ℚ) ≤ (tags.length : ℚ) * 0.4 + (objects.length : ℚ) * 0.3 := by positivity
  have hC : (0 : ℚ) ≤ (colors.length : ℚ) * 0.3 := by positivity
  have hABC : (0 : ℚ) ≤ (tags.length : ℚ) * 0.4 + (objects.length : ℚ) * 0.3
      + (colors.length : ℚ) * 0.3 := by positivity
  have hE : ((4 * tags.length + 3 * objects.length + 3 * colors.length : ℕ) : ℚ) / 20
      = ((tags.length : ℚ) * 0.4 + (objects.length : ℚ) * 0.3 + (colors.length : ℚ) * 0.3) / 2 := by
    push_cast
    norm_num
    ring
  rw [hE]
  have s1lo : ((tags.length : ℚ) * 0.4 + (objects.length : ℚ) * 0.3) * (1 - 1 / 2 ^ 53) ^ 3
      ≤ fadd (fmul tags.length (roundDouble 0.4)) (fmul objects.length (roundDouble 0.3)) := by
    apply roundDouble_lower hA
    rw [add_mul]
    linarith
  have s1hi : fadd (fmul tags.length (roundDouble 0.4)) (fmul objects.length (roundDouble 0.3))
      ≤ ((tags.length : ℚ) * 0.4 + (objects.length : ℚ) * 0.3) * (1 + 1 / 2 ^ 53) ^ 3 := by
    apply roundDouble_upper (add_nonneg a0 b0)
    rw [add_mul]
    linarith
  have s10 : 0 ≤ fadd (fmul tags.length (roundDouble 0.4)) (fmul objects.length (roundDouble 0.3)) :=
    roundDouble_nonneg (add_nonneg a0 b0)
  have w1 := lower_weaken hC (show 2 ≤ 3 by norm_num)
  have w2 := upper_weaken hC (show 2 ≤ 3 by norm_num)
  have s2lo : ((tags.length : ℚ) * 0.4 + (objects.length : ℚ) * 0.3 + (colors.length : ℚ) * 0.3)
        * (1 - 1 / 2 ^ 53) ^ 4
      ≤ fadd (fadd (fmul tags.length (roundDouble 0.4)) (fmul objects.length (roundDouble 0.3)))
          (fmul colors.length (roundDouble 0.3)) := by
    apply roundDouble_lower hABC
    rw [add_mul]
    linarith
  have s2hi : fadd (fadd (fmul tags.length (roundDouble 0.4)) (fmul objects.length (roundDouble 0.3)))
          (fmul colors.length (roundDouble 0.3))
      ≤ ((tags.length : ℚ) * 0.4 + (objects.length : ℚ) * 0.3 + (colors.length : ℚ) * 0.3)
        * (1 + 1 / 2 ^ 53) ^ 4 := by
    apply roundDouble_upper (add_nonneg s10 c0)
    rw [add_mul]
    linarith
  have s20 : 0 ≤ fadd (fadd (fmul tags.length (roundDouble 0.4))
      (fmul objects.length (roundDouble 0.3))) (fmul colors.length (roundDouble 0.3)) :=
    roundDouble_nonneg (add_nonneg s10 c0)
  unfold complexityScore
  constructor
  · apply roundDouble_lower (div_nonneg hABC (by norm_num))
    rw [div_mul_eq_mul_div]
    exact div_le_div_of_nonneg_right s2lo (by norm_num)
  · apply roundDouble_upper (div_nonneg s20 (by norm_num))
    rw [div_mul_eq_mul_div]
    exact div_le_div_of_nonneg_right s2hi (by norm_num)

/-- The complexity score of 6 tags, 8 objects and 4 colors, operation by operation:
`6 * 0.4` rounds to `2.4000000000000004`, the first sum to `4.800000000000001`, the second
to `6.000000000000001`, and the half of it is `3.0000000000000004`. -/
theorem complexityScore_six_eight_four :
    complexityScore (List.replicate 6 blankTag) (List.replicate 4 blankColor)
      (List.replicate 8 blankTag) = 6755399441055745 / 2 ^ 51 := by
  have p1 : roundDouble (6 * (7205759403792794 / 2 ^ 54)) = 5404319552844596 / 2 ^ 51 := by
    apply roundDouble_eval _ 51 5404319552844595 5404319552844596 <;> norm_num
  have p2 : roundDouble (8 * (5404319552844595 / 2 ^ 54)) = 5404319552844595 / 2 ^ 51 := by
    apply roundDouble_eval _ 51 5404319552844595 5404319552844595 <;> norm_num
  have p3 : roundDouble (4 * (5404319552844595 / 2 ^ 54)) = 5404319552844595 / 2 ^ 52 := by
    apply roundDouble_eval _ 52 5404319552844595 5404319552844595 <;> norm_num
  have s1 : roundDouble (5404319552844596 / 2 ^ 51 + 5404319552844595 / 2 ^ 51)
      = 5404319552844596 / 2 ^ 50 := by
    apply roundDouble_eval _ 50 5404319552844595 5404319552844596 <;> norm_num
  have s2 : roundDouble (5404319552844596 / 2 ^ 50 + 5404319552844595 / 2 ^ 52)
      = 6755399441055745 / 2 ^ 50 := by
    apply roundDouble_eval _ 50 6755399441055744 6755399441055745 <;> norm_num
  have s3 : roundDouble (6755399441055745 / 2 ^ 50 / 2) = 6755399441055745 / 2 ^ 51 := by
    apply roundDouble_eval _ 51 6755399441055745 6755399441055745 <;> norm_num
  simp only [complexityScore, fmul, fadd, fdiv, List.length_replicate, Nat.cast_ofNat,
    roundDouble_two_fifths, roundDouble_three_tenths, p1, p2, p3, s1, s2, s3]

/-- Claim C20, refuted as stated: for 6 tags, 8 objects and 4 colors the exact score
`(4 * 6 + 3 * 8 + 3 * 4) / 20` is 3, for which the claim gives `Baja`, while the score that
the code computes in double arithmetic is `6755399441055745 / 2^51`, that is
`3.0000000000000004`, and the code returns `Media`. -/
theorem calculateComplexity_rounds_past_three :
    ((4 * (List.replicate 6 blankTag).length + 3 * (List.replicate 8 blankTag).length
        + 3 * (List.replicate 4 blankColor).length : ℕ) : ℚ) / 20 = 3 ∧
    complexityScore (List.replicate 6 blankTag) (List.replicate 4 blankColor)
      (List.replicate 8 blankTag) = 6755399441055745 / 2 ^ 51 ∧
    (3 : ℚ) < 6755399441055745 / 2 ^ 51 ∧
    calculateComplexity (List.replicate 6 blankTag) (List.replicate 4 blankColor)
      (List.replicate 8 blankTag) = "Media" := by
  refine ⟨by norm_num [List.length_replicate], complexityScore_six_eight_four, by norm_num, ?_⟩
  unfold calculateComplexity
  simp only [complexityScore_six_eight_four]
  norm_num

/-- Claim C20, amended: `calculateComplexity` computes the score
`(tagCount * 0.4 + objectCount * 0.3 + colorCount * 0.3) / 2` in double arithmetic
(`complexityScore`) and returns `Muy Alta` iff that computed score exceeds 7, `Alta` iff it
is in `(5, 7]`, `Media` iff in `(3, 5]`, `Baja` iff at most 3. The computed score is within
the relative error `(1 ± 2^-53)^5` of the exact score `(4 t + 3 o + 3 c) / 20`, so the
label is the one of the exact score whenever the exact score is not 3, 5 or 7: above 7 it
is `Muy Alta`, strictly between 5 and 7 `Alta`, strictly between 3 and 5 `Media`, below 3
`Baja`. -/
theorem calculateComplexity_rounded_score (tags : List Tag) (colors : List Color)
    (objects : List Tag) :
    (calculateComplexity tags colors objects = "Muy Alta" ↔
      complexityScore tags colors objects > 7) ∧
    (calculateComplexity tags colors objects = "Alta" ↔
      5 < complexityScore tags colors objects ∧ complexityScore tags colors objects ≤ 7) ∧
    (calculateComplexity tags colors objects = "Media" ↔
      3 < complexityScore tags colors objects ∧ complexityScore tags colors objects ≤ 5) ∧
    (calculateComplexity tags colors objects = "Baja" ↔
      complexityScore tags colors objects ≤ 3) ∧
    ((4 * tags.length + 3 * objects.length + 3 * colors.length : ℕ) : ℚ) / 20
        * (1 - 1 / 2 ^ 53) ^ 5 ≤ complexityScore tags colors objects ∧
    complexityScore tags colors objects
      ≤ ((4 * tags.length + 3 * objects.length + 3 * colors.length : ℕ) : ℚ) / 20
        * (1 + 1 / 2 ^ 53) ^ 5 ∧
    (((4 * tags.length + 3 * objects.length + 3 * colors.length : ℕ) : ℚ) / 20 > 7 →
      calculateComplexity tags colors objects = "Muy Alta") ∧
    (5 < ((4 * tags.length + 3 * objects.length + 3 * colors.length : ℕ) : ℚ) / 20 →
      ((4 * tags.length + 3 * objects.length + 3 * colors.length : ℕ) : ℚ) / 20 < 7 →
      calculateComplexity tags colors objects = "Alta") ∧
    (3 < ((4 * tags.length + 3 * objects.length + 3 * colors.length : ℕ) : ℚ) / 20 →
      ((4 * tags.length + 3 * objects.length + 3 * colors.length : ℕ) : ℚ) / 20 < 5 →
      calculateComplexity tags colors objects = "Media") ∧
    (((4 * tags.length + 3 * objects.length + 3 * colors.length : ℕ) : ℚ) / 20 < 3 →
      calculateComplexity tags colors objects = "Baja") := by
  have hb := four_buckets (complexityScore tags colors objects) 7 5 3 (by norm_num) (by norm_num)
  have hdef : calculateComplexity tags colors objects
      = if complexityScore tags colors objects > 7 then "Muy Alta"
        else if complexityScore tags colors objects > 5 then "Alta"
        else if complexityScore tags colors objects > 3 then "Media"
        else "Baja" := rfl
  rw [← hdef] at hb
  obtain ⟨lo, hi⟩ := complexityScore_bounds tags colors objects
  generalize complexityScore tags colors objects = s at *
  generalize 4 * tags.length + 3 * objects.length + 3 * colors.length = N at *
  have hlo5 : (1 : ℚ) - 1 / 2 ^ 50 ≤ (1 - 1 / 2 ^ 53) ^ 5 := by norm_num
  have hhi5 : (1 + 1 / 2 ^ 53 : ℚ) ^ 5 ≤ 1 + 1 / 2 ^ 50 := by norm_num
  have hN : (0 : ℚ) ≤ (N : ℚ) / 20 := by positivity
  have lo' : (N : ℚ) / 20 * (1 - 1 / 2 ^ 50) ≤ s :=
    le_trans (mul_le_mul_of_nonneg_left hlo5 hN) lo
  have hi' : s ≤ (N : ℚ) / 20 * (1 + 1 / 2 ^ 50) :=
    le_trans hi (mul_le_mul_of_nonneg_left hhi5 hN)
  -- the exact score is a multiple of 1/20: off a threshold it is at least 1/20 away from it
  have above : ∀ m : ℕ, (m : ℚ) ≤ 200 → (m : ℚ) / 20 < (N : ℚ) / 20 → (m : ℚ) / 20 < s := by
    intro m hm h
    have h1 : (m : ℚ) < N := by linarith
    have h2 : m + 1 ≤ N := by exact_mod_cast h1
    have h3 : (m : ℚ) + 1 ≤ N := by exact_mod_cast h2
    have : (0 : ℚ) ≤ (m : ℚ) := Nat.cast_nonneg m
    nlinarith
  have below : ∀ m : ℕ, (m : ℚ) ≤ 200 → (N : ℚ) / 20 < (m : ℚ) / 20 → s < (m : ℚ) / 20 := by
    intro m hm h
    have h1 : (N : ℚ) < m := by linarith
    have h2 : N + 1 ≤ m := by exact_mod_cast h1
    have h3 : (N : ℚ) + 1 ≤ m := by exact_mod_cast h2
    have : (0 : ℚ) ≤ (N : ℚ) := Nat.cast_nonneg N
    nlinarith
  refine ⟨hb.1, hb.2.1, hb.2.2.1, hb.2.2.2, lo, hi, ?_, ?_, ?_, ?_⟩
  · intro h
    have := above 140 (by norm_num) (by norm_num at h ⊢; linarith)
    exact hb.1.mpr (by norm_num at this; linarith)
  · intro h1 h2
    have a := above 100 (by norm_num) (by norm_num at h1 ⊢; linarith)
    have b := below 140 (by norm_num) (by norm_num at h2 ⊢; linarith)
    exact hb.2.1.mpr ⟨by norm_num at a; linarith, by norm_num at b; linarith⟩
  · intro h1 h2
    have a := above 60 (by norm_num) (by norm_num at h1 ⊢; linarith)
    have b := below 100 (by norm_num) (by norm_num at h2 ⊢; linarith)
    exact hb.2.2.1.mpr ⟨by norm_num at a; linarith, by norm_num at b; linarith⟩
  · intro h
    have b := below 60 (by norm_num) (by norm_num at h ⊢; linarith)
    exact hb.2.2.2.mpr (by norm_num at b; linarith)

/-- Claim C20, amended, at 20 tags, 20 objects and 20 colors: the exact score is 10, above
7, and the label is `Muy Alta`. -/
theorem calculateComplexity_rounded_score_witness :
    ((4 * (List.replicate 20 blankTag).length + 3 * (List.replicate 20 blankTag).length
        + 3 * (List.replicate 20 blankColor).length : ℕ) : ℚ) / 20 > 7 ∧
    calculateComplexity (List.replicate 20 blankTag) (List.replicate 20 blankColor)
      (List.replicate 20 blankTag) = "Muy Alta" :=
  ⟨by norm_num [List.length_replicate],
    (calculateComplexity_rounded_score (List.replicate 20 blankTag)
      (List.replicate 20 blankColor) (List.replicate 20 blankTag)).2.2.2.2.2.2.1
      (by norm_num [List.length_replicate])⟩

/-- The exact saturation of a color is nonnegative. -/
theorem exactSaturation_nonneg (c : Color) : 0 ≤ exactSaturation c := by
  unfold exactSaturation
  cases hexToRgb c.hex with
  | none => exact le_rfl
  | some rgb =>
    show 0 ≤ if Nat.max (Nat.max rgb.r rgb.g) rgb.b = 0 then (0 : ℚ)
      else (((Nat.max (Nat.max rgb.r rgb.g) rgb.b : ℕ) : ℚ)
        - ((Nat.min (Nat.min rgb.r rgb.g) rgb.b : ℕ) : ℚ))
        / ((Nat.max (Nat.max rgb.r rgb.g) rgb.b : ℕ) : ℚ)
    split_ifs with h
    · exact le_rfl
    · have hle : Nat.min (Nat.min rgb.r rgb.g) rgb.b ≤ Nat.max (Nat.max rgb.r rgb.g) rgb.b :=
        le_trans (Nat.min_le_right _ _) (Nat.le_max_right _ _)
      have hq : ((Nat.min (Nat.min rgb.r rgb.g) rgb.b : ℕ) : ℚ)
          ≤ ((Nat.max (Nat.max rgb.r rgb.g) rgb.b : ℕ) : ℚ) := by exact_mod_cast hle
      exact div_nonneg (by linarith) (Nat.cast_nonneg _)

/-- The saturation that the code computes is the exact saturation rounded to a double. -/
theorem saturation_eq_roundDouble (c : Color) : saturation c = roundDouble (exactSaturation c) := by
  unfold saturation exactSaturation
  cases hexToRgb c.hex with
  | none => exact roundDouble_zero.symm
  | some rgb =>
    show (if Nat.max (Nat.max rgb.r rgb.g) rgb.b = 0 then (0 : ℚ) else _)
      = roundDouble (if Nat.max (Nat.max rgb.r rgb.g) rgb.b = 0 then (0 : ℚ) else _)
    split_ifs with h
    · exact roundDouble_zero.symm
    · rfl

/-- The computed saturation against the exact saturation: one rounding. -/
theorem saturation_bounds (c : Color) :
    exactSaturation c * (1 - 1 / 2 ^ 53) ^ 1 ≤ saturation c ∧
    saturation c ≤ exactSaturation c * (1 + 1 / 2 ^ 53) ^ 1 ∧ 0 ≤ saturation c := by
  rw [saturation_eq_roundDouble, pow_one, pow_one]
  have h := roundDouble_rel (exactSaturation c) (exactSaturation_nonneg c)
  exact ⟨h.1, h.2, roundDouble_nonneg (exactSaturation_nonneg c)⟩

/-- The running sum of `reduce((a, b) => a + b)` against the exact sum: one more rounding
for each color added. -/
theorem foldl_fadd_bounds (cs : List Color) (a A : ℚ) (k : ℕ) (hk : 1 ≤ k) (hA : 0 ≤ A)
    (ha0 : 0 ≤ a) (hlo : A * (1 - 1 / 2 ^ 53) ^ k ≤ a) (hhi : a ≤ A * (1 + 1 / 2 ^ 53) ^ k) :
    (A + (cs.map exactSaturation).sum) * (1 - 1 / 2 ^ 53) ^ (k + cs.length)
        ≤ (cs.map saturation).foldl fadd a ∧
    (cs.map saturation).foldl fadd a
        ≤ (A + (cs.map exactSaturation).sum) * (1 + 1 / 2 ^ 53) ^ (k + cs.length) ∧
    0 ≤ (cs.map saturation).foldl fadd a := by
  induction cs generalizing a A k with
  | nil =>
    simp only [List.map_nil, List.sum_nil, add_zero, List.length_nil, List.foldl_nil]
    exact ⟨hlo, hhi, ha0⟩
  | cons c cs ih =>
    obtain ⟨s1, s2, s0⟩ := saturation_bounds c
    have he := exactSaturation_nonneg c
    have w1 := lower_weaken he hk
    have w2 := upper_weaken he hk
    have hsum0 : 0 ≤ a + saturation c := add_nonneg ha0 s0
    have lo' : (A + exactSaturation c) * (1 - 1 / 2 ^ 53) ^ (k + 1) ≤ fadd a (saturation c) := by
      apply roundDouble_lower (add_nonneg hA he)
      rw [add_mul]
      linarith
    have hi' : fadd a (saturation c) ≤ (A + exactSaturation c) * (1 + 1 / 2 ^ 53) ^ (k + 1) := by
      apply roundDouble_upper hsum0
      rw [add_mul]
      linarith
    have h := ih (fadd a (saturation c)) (A + exactSaturation c) (k + 1) (by omega)
      (add_nonneg hA he) (roundDouble_nonneg hsum0) lo' hi'
    have e : k + 1 + cs.length = k + (c :: cs).length := by
      simp only [List.length_cons]
      omega
    rw [e] at h
    simp only [List.map_cons, List.sum_cons, List.foldl_cons, ← add_assoc]
    exact h

/-- The computed average saturation of `n` colors against the exact mean: `n + 1`
roundings lie on the longest path, one quotient per saturation, `n - 1` sums and the final
quotient. -/
theorem avgSaturation_bounds (c : Color) (cs : List Color) :
    ((c :: cs).map exactSaturation).sum / ((c :: cs).length : ℚ)
        * (1 - 1 / 2 ^ 53) ^ ((c :: cs).length + 1) ≤ avgSaturation (c :: cs) ∧
    avgSaturation (c :: cs)
      ≤ ((c :: cs).map exactSaturation).sum / ((c :: cs).length : ℚ)
        * (1 + 1 / 2 ^ 53) ^ ((c :: cs).length + 1) := by
  obtain ⟨s1, s2, s0⟩ := saturation_bounds c
  obtain ⟨f1, f2, f0⟩ := foldl_fadd_bounds cs (saturation c) (exactSaturation c) 1 le_rfl
    (exactSaturation_nonneg c) s0 s1 s2
  have hn : (0 : ℚ) < ((c :: cs).length : ℚ) := by
    simp only [List.length_cons]
    positivity
  have hsum : 0 ≤ ((c :: cs).map exactSaturation).sum := by
    apply List.sum_nonneg
    intro x hx
    rw [List.mem_map] at hx
    obtain ⟨y, _, rfl⟩ := hx
    exact exactSaturation_nonneg y
  have e : 1 + cs.length = (c :: cs).length := by
    simp only [List.length_cons]
    omega
  rw [e] at f1 f2
  have hdef : avgSaturation (c :: cs)
      = roundDouble ((cs.map saturation).foldl fadd (saturation c) / ((c :: cs).length : ℚ)) := by
    simp only [avgSaturation, List.map_cons, reduceAdd, fdiv, List.length_cons, List.length_map]
  rw [hdef]
  simp only [List.map_cons, List.sum_cons] at hsum ⊢
  constructor
  · apply roundDouble_lower (div_nonneg hsum (le_of_lt hn))
    rw [div_mul_eq_mul_div]
    exact div_le_div_of_nonneg_right f1 (le_of_lt hn)
  · apply roundDouble_upper (div_nonneg f0 (le_of_lt hn))
    rw [div_mul_eq_mul_div]
    exact div_le_div_of_nonneg_right f2 (le_of_lt hn)

/-- The computed saturations of the three colors of `roundingSample`: the doubles `0.1`
and `0.2`, and 0. -/
theorem saturation_samples :
    saturation { hex := some "#0A0909", percentage := some 50 } = 7205759403792794 / 2 ^ 56 ∧
    saturation { hex := some "#0A0808", percentage := some 30 } = 7205759403792794 / 2 ^ 55 ∧
    saturation { hex := some "#000000", percentage := some 20 } = 0 := by
  have h1 : hexToRgb (some "#0A0909") = some ⟨10, 9, 9⟩ := by decide
  have h2 : hexToRgb (some "#0A0808") = some ⟨10, 8, 8⟩ := by decide
  have h3 : hexToRgb (some "#000000") = some ⟨0, 0, 0⟩ := by decide
  have e1 : roundDouble (1 / 10) = 7205759403792794 / 2 ^ 56 := by
    apply roundDouble_eval _ 56 7205759403792793 7205759403792794 <;> norm_num
  have e2 : roundDouble (1 / 5) = 7205759403792794 / 2 ^ 55 := by
    apply roundDouble_eval _ 55 7205759403792793 7205759403792794 <;> norm_num
  refine ⟨?_, ?_, ?_⟩
  · simp only [saturation, h1, fdiv]
    norm_num [Nat.max_def, Nat.min_def]
    rw [e1]
    norm_num
  · simp only [saturation, h2, fdiv]
    norm_num [Nat.max_def, Nat.min_def]
    rw [e2]
    norm_num
  · simp only [saturation, h3]
    norm_num [Nat.max_def, Nat.min_def]

/-- The exact saturations of the three colors of `roundingSample`: `1/10`, `1/5` and 0. -/
theorem exactSaturation_samples :
    exactSaturation { hex := some "#0A0909", percentage := some 50 } = 1 / 10 ∧
    exactSaturation { hex := some "#0A0808", percentage := some 30 } = 1 / 5 ∧
    exactSaturation { hex := some "#000000", percentage := some 20 } = 0 := by
  have h1 : hexToRgb (some "#0A0909") = some ⟨10, 9, 9⟩ := by decide
  have h2 : hexToRgb (some "#0A0808") = some ⟨10, 8, 8⟩ := by decide
  have h3 : hexToRgb (some "#000000") = some ⟨0, 0, 0⟩ := by decide
  refine ⟨?_, ?_, ?_⟩
  · simp only [exactSaturation, h1]
    norm_num [Nat.max_def, Nat.min_def]
  · simp only [exactSaturation, h2]
    norm_num [Nat.max_def, Nat.min_def]
  · simp only [exactSaturation, h3]
    norm_num [Nat.max_def, Nat.min_def]

/-- The average saturation of `roundingSample`, operation by operation: `0.1 + 0.2` rounds
to `0.30000000000000004`, adding 0 keeps it, and the third of it rounds to
`0.10000000000000002`. -/
theorem avgSaturation_roundingSample :
    avgSaturation roundingSample = 7205759403792795 / 2 ^ 56 := by
  have t1 : roundDouble (7205759403792794 / 2 ^ 56 + 7205759403792794 / 2 ^ 55)
      = 5404319552844596 / 2 ^ 54 := by
    apply roundDouble_eval _ 54 5404319552844595 5404319552844596 <;> norm_num
  have t2 : roundDouble (5404319552844596 / 2 ^ 54 + 0) = 5404319552844596 / 2 ^ 54 := by
    apply roundDouble_eval _ 54 5404319552844596 5404319552844596 <;> norm_num
  have t3 : roundDouble (1351079888211149 / 13510798882111488) = 7205759403792795 / 2 ^ 56 := by
    apply roundDouble_eval _ 56 7205759403792794 7205759403792795 <;> norm_num
  simp only [avgSaturation, roundingSample, List.map_cons, List.map_nil, reduceAdd,
    List.foldl_cons, List.foldl_nil, saturation_samples.1, saturation_samples.2.1,
    saturation_samples.2.2, fadd, fdiv, List.length_cons, List.length_nil, t1, t2]
  norm_num
  rw [t3]
  norm_num

/-- Claim C19, refuted as stated: the colors `#0A0909`, `#0A0808` and `#000000` have the
exact saturations `1/10`, `1/5` and 0, of mean exactly `1/10`, for which the claim gives
`Baja`; the average that the code computes in double arithmetic is
`7205759403792795 / 2^56`, that is `0.10000000000000002`, above the double `0.1`, and the
code returns `Media`. -/
theorem calculateVibrancy_rounds_past_tenth :
    (roundingSample.map exactSaturation).sum / (roundingSample.length : ℚ) = 1 / 10 ∧
    avgSaturation roundingSample = 7205759403792795 / 2 ^ 56 ∧
    roundDouble 0.1 < 7205759403792795 / 2 ^ 56 ∧
    calculateVibrancy roundingSample = "Media" := by
  refine ⟨?_, avgSaturation_roundingSample, ?_, ?_⟩
  · simp only [roundingSample, List.map_cons, List.map_nil, exactSaturation_samples.1,
      exactSaturation_samples.2.1, exactSaturation_samples.2.2, List.sum_cons, List.sum_nil,
      List.length_cons, List.length_nil]
    norm_num
  · rw [roundDouble_one_tenth]
    norm_num
  · unfold calculateVibrancy
    rw [if_neg (by decide)]
    simp only [avgSaturation_roundingSample, roundDouble_one_half, roundDouble_three_tenths,
      roundDouble_one_tenth]
    norm_num

/-- Claim C19, amended: `calculateVibrancy` returns `Baja` for the empty list; the
saturation of a color is 0 for a hex that does not decode and for `max = 0`, and otherwise
the quotient `(max - min) / max` of its channels rounded to a double; for a non-empty list
the saturations are summed from left to right and divided by their number in double
arithmetic (`avgSaturation`), and the result is `Muy Alta` iff that computed average
exceeds the double `0.5`, `Alta` iff it is in `(0.3, 0.5]`, `Media` iff in `(0.1, 0.3]`,
`Baja` iff at most `0.1`, the bounds being the doubles that these literals denote. The
computed average of `n` colors is within the relative error `(1 ± 2^-53)^(n+1)` of the
exact mean of the exact saturations. -/
theorem calculateVibrancy_rounded_mean :
    calculateVibrancy [] = "Baja" ∧
    (∀ c : Color, hexToRgb c.hex = none → saturation c = 0) ∧
    (∀ (c : Color) (rgb : Rgb), hexToRgb c.hex = some rgb →
      saturation c =
        if max (max rgb.r rgb.g) rgb.b = 0 then 0
        else roundDouble
          ((((max (max rgb.r rgb.g) rgb.b : ℕ) : ℚ) - ((min (min rgb.r rgb.g) rgb.b : ℕ) : ℚ))
            / ((max (max rgb.r rgb.g) rgb.b : ℕ) : ℚ))) ∧
    (∀ (c : Color) (cs : List Color),
      (calculateVibrancy (c :: cs) = "Muy Alta" ↔ avgSaturation (c :: cs) > roundDouble 0.5) ∧
      (calculateVibrancy (c :: cs) = "Alta" ↔
        roundDouble 0.3 < avgSaturation (c :: cs) ∧ avgSaturation (c :: cs) ≤ roundDouble 0.5) ∧
      (calculateVibrancy (c :: cs) = "Media" ↔
        roundDouble 0.1 < avgSaturation (c :: cs) ∧ avgSaturation (c :: cs) ≤ roundDouble 0.3) ∧
      (calculateVibrancy (c :: cs) = "Baja" ↔ avgSaturation (c :: cs) ≤ roundDouble 0.1)) ∧
    (∀ (c : Color) (cs : List Color),
      avgSaturation (c :: cs)
        = fdiv ((cs.map saturation).foldl fadd (saturation c)) (((c :: cs).length : ℕ) : ℚ)) ∧
    (∀ (c : Color) (cs : List Color),
      ((c :: cs).map exactSaturation).sum / ((c :: cs).length : ℚ)
          * (1 - 1 / 2 ^ 53) ^ ((c :: cs).length + 1) ≤ avgSaturation (c :: cs) ∧
      avgSaturation (c :: cs)
        ≤ ((c :: cs).map exactSaturation).sum / ((c :: cs).length : ℚ)
          * (1 + 1 / 2 ^ 53) ^ ((c :: cs).length + 1)) ∧
    roundDouble 0.5 = 1 / 2 ∧
    roundDouble 0.3 = 5404319552844595 / 2 ^ 54 ∧
    roundDouble 0.1 = 7205759403792794 / 2 ^ 56 ∧
    saturation { hex := some "#FF8000", percentage := none } = 1 ∧
    saturation { hex := some "#000000", percentage := none } = 0 ∧
    saturation { hex := some "#6699CC", percentage := none } = 1 / 2 := by
  refine ⟨rfl, ?_, ?_, ?_, ?_, avgSaturation_bounds, roundDouble_one_half,
    roundDouble_three_tenths, roundDouble_one_tenth, ?_, ?_, ?_⟩
  · intro c h
    simp only [saturation, h]
  · intro c rgb h
    simp only [saturation, h, fdiv]
  · intro c cs
    have hdef : calculateVibrancy (c :: cs)
        = if avgSaturation (c :: cs) > roundDouble 0.5 then "Muy Alta"
          else if avgSaturation (c :: cs) > roundDouble 0.3 then "Alta"
          else if avgSaturation (c :: cs) > roundDouble 0.1 then "Media"
          else "Baja" := by
      unfold calculateVibrancy
      rw [if_neg (by simp)]
    rw [hdef]
    exact four_buckets _ _ _ _ (by rw [roundDouble_one_half, roundDouble_three_tenths]; norm_num)
      (by rw [roundDouble_three_tenths, roundDouble_one_tenth]; norm_num)
  · intro c cs
    simp only [avgSaturation, List.map_cons, reduceAdd, List.length_cons, List.length_map]
  · have h : hexToRgb (some "#FF8000") = some ⟨255, 128, 0⟩ := by decide
    simp only [saturation, h, fdiv]
    norm_num [Nat.max_def, Nat.min_def]
    exact roundDouble_one
  · have h : hexToRgb (some "#000000") = some ⟨0, 0, 0⟩ := by decide
    simp only [saturation, h]
    norm_num [Nat.max_def, Nat.min_def]
  · have h : hexToRgb (some "#6699CC") = some ⟨102, 153, 204⟩ := by decide
    have e : roundDouble (1 / 2) = 1 / 2 := by
      have := roundDouble_one_half
      norm_num at this ⊢
      exact this
    simp only [saturation, h, fdiv]
    norm_num [Nat.max_def, Nat.min_def]
    rw [e]

/-- Claim C19, amended, at a color with a malformed hex: its saturation is 0. -/
theorem calculateVibrancy_rounded_mean_witness :
    hexToRgb (some "zzz") = none ∧
    saturation { hex := some "zzz", percentage := some 40 } = 0 :=
  ⟨by decide,
    calculateVibrancy_rounded_mean.2.1 { hex := some "zzz", percentage := some 40 } (by decide)⟩

/-! ## Claims on the list caps -/

/-- Claim C21: every context returned by `generateSceneContext` respects the caps:
`high_confidence` has at most 5 entries, `all_objects` at most 10, `dominant` at most 5,
`palette` at most 8, each list of `tags_by_category` at most 8, `all_tags` at most 20; and
the three diversities are the minimum of 10 and the number of objects, colors and tags. -/
theorem generateSceneContext_caps (d : AnalysisData) :
    (generateSceneContext d).objects_detected.high_confidence.length ≤ 5 ∧
    (generateSceneContext d).objects_detected.all_objects.length ≤ 10 ∧
    (generateSceneContext d).color_analysis.dominant.length ≤ 5 ∧
    (generateSceneContext d).color_analysis.palette.length ≤ 8 ∧
    (∀ cat, ((generateSceneContext d).tags_by_category.get cat).length ≤ 8) ∧
    (generateSceneContext d).all_tags.length ≤ 20 ∧
    (generateSceneContext d).composition_metrics.object_diversity
      = min (d.objects.getD []).length 10 ∧
    (generateSceneContext d).composition_metrics.color_diversity
      = min (d.colors.getD []).length 10 ∧
    (generateSceneContext d).composition_metrics.tag_diversity
      = min (d.tags.getD []).length 10 ∧
    (generateSceneContext d).composition_metrics.tag_diversity
      = min ((d.tags.getD []).take 20).length 10 := by
  refine ⟨?_, ?_, ?_, ?_, ?_, ?_, rfl, rfl, ?_, rfl⟩
  · simp only [generateSceneContext, List.length_map, List.length_take]
    exact Nat.min_le_left _ _
  · simp only [generateSceneContext, List.length_map, List.length_take]
    exact Nat.min_le_left _ _
  · simp only [generateSceneContext, List.length_map, List.length_take]
    exact Nat.min_le_left _ _
  · simp only [generateSceneContext, List.length_take]
    exact Nat.min_le_left _ _
  · intro cat
    rw [tags_by_category_get, List.length_take]
    exact Nat.min_le_left _ _
  · simp only [generateSceneContext, List.length_map, List.length_take]
    omega
  · show min ((d.tags.getD []).take 20).length 10 = min (d.tags.getD []).length 10
    rw [List.length_take]
    omega

/-! ## Claims on the setting -/

/-- Claim C22: `detectSetting` returns the label of the first rule, in the order indoor,
outdoor/sky, night, day, one of whose keywords occurs case-insensitively in some tag
label, and `No especificado` when none does; tags with both `indoor` and `night` give
`Interior`. -/
theorem detectSetting_first_rule :
    (∀ tags : List Tag, detectSetting tags = firstRuleLabel settingRules "No especificado" tags) ∧
    (∀ tags : List Tag, labelHas tags "indoor" = true → detectSetting tags = "Interior") ∧
    (∀ tags : List Tag, labelHas tags "indoor" = false → labelHas tags "outdoor" = false →
      labelHas tags "sky" = false → labelHas tags "night" = true →
      detectSetting tags = "Noche") ∧
    (∀ c₁ c₂ : Option ℚ,
      detectSetting [{ en := some "Night", confidence := c₁ },
        { en := some "Indoor", confidence := c₂ }] = "Interior") ∧
    detectSetting [] = "No especificado" := by
  have main : ∀ tags : List Tag,
      detectSetting tags = firstRuleLabel settingRules "No especificado" tags := by
    intro tags
    unfold detectSetting firstRuleLabel settingRules
    simp only [includes_tagNamesOf tags "indoor" (by decide) (by decide),
      includes_tagNamesOf tags "outdoor" (by decide) (by decide),
      includes_tagNamesOf tags "sky" (by decide) (by decide),
      includes_tagNamesOf tags "night" (by decide) (by decide),
      includes_tagNamesOf tags "day" (by decide) (by decide),
      List.find?_cons, List.find?_nil, List.any_cons, List.any_nil, Bool.or_false]
    generalize labelHas tags "indoor" = b1
    generalize (labelHas tags "outdoor" || labelHas tags "sky") = b2
    generalize labelHas tags "night" = b3
    generalize labelHas tags "day" = b4
    cases b1 <;> cases b2 <;> cases b3 <;> cases b4 <;> rfl
  refine ⟨main, ?_, ?_, ?_, ?_⟩
  · intro tags h
    rw [main]
    simp [firstRuleLabel, settingRules, h]
  · intro tags h1 h2 h3 h4
    rw [main]
    simp [firstRuleLabel, settingRules, h1, h2, h3, h4]
  · intro c₁ c₂
    rw [main]
    unfold firstRuleLabel labelHas
    simp only [List.any_cons, List.any_nil, Bool.or_false,
      labelOf_some "Night" c₁ (by decide), labelOf_some "Indoor" c₂ (by decide),
      toLowerCase_eq]
    decide
  · rw [main]
    decide

/-- Claim C22, at the tags `indoor` and `night`: `indoor` occurs and the setting is
`Interior`. -/
theorem detectSetting_first_rule_witness :
    detectSetting [{ en := some "indoor", confidence := some 90 },
      { en := some "night", confidence := some 80 }] = "Interior" :=
  detectSetting_first_rule.2.1
    [{ en := some "indoor", confidence := some 90 }, { en := some "night", confidence := some 80 }]
    (by
      unfold labelHas
      simp only [List.any_cons, List.any_nil, Bool.or_false, labelOf_some "indoor" _ (by decide),
        labelOf_some "night" _ (by decide), toLowerCase_eq]
      decide)

/-! ## Claims on the two confidence representations -/

/-- The product `100 * 0.7999999999999999` is rounded up to 80. -/
theorem fmul_hundred_below_four_fifths :
    fmul 100 (7205759403792793 / 2 ^ 53) = 80 := by
  have := roundDouble_eval (100 * (7205759403792793 / 2 ^ 53)) 46 5629499534213119
    5629499534213120 (by norm_num) (by norm_num) (by norm_num) (by norm_num) (by norm_num)
    (by norm_num)
  unfold fmul
  rw [this]
  norm_num

/-- The rational `7205759403792793 / 2^53`, printed `0.7999999999999999`, is a double: the
one just below the double `0.8`. -/
theorem isDouble_below_four_fifths : IsDouble (7205759403792793 / 2 ^ 53) := by
  unfold IsDouble
  exact roundDouble_eval _ 53 7205759403792793 7205759403792793 (by norm_num)
    (by norm_num) (by norm_num) (by norm_num) (by norm_num) (by norm_num)

/-- Claim C23, refuted as stated: the double `v = 7205759403792793 / 2^53`, printed
`0.7999999999999999`, lies in `(0.01, 1]`; the product `100 * v` that JavaScript computes
is exactly 80, so `getConfidenceLevel(100 * v)` is `ALTO` while `getConfidenceLevel(v)` is
`MEDIO`, also when the quotient and the literals inside `getConfidenceLevel` are rounded
as doubles. -/
theorem getConfidenceLevel_product_mismatch :
    IsDouble (7205759403792793 / 2 ^ 53) ∧
    roundDouble 0.01 < 7205759403792793 / 2 ^ 53 ∧ (7205759403792793 / 2 ^ 53 : ℚ) ≤ 1 ∧
    fmul 100 (7205759403792793 / 2 ^ 53) = 80 ∧
    getConfidenceLevel (fmul 100 (7205759403792793 / 2 ^ 53)) = "ALTO" ∧
    getConfidenceLevel (7205759403792793 / 2 ^ 53) = "MEDIO" ∧
    getConfidenceLevelDouble (fmul 100 (7205759403792793 / 2 ^ 53)) = "ALTO" ∧
    getConfidenceLevelDouble (7205759403792793 / 2 ^ 53) = "MEDIO" := by
  have a : getConfidenceLevel (80 : ℚ) = "ALTO" := by norm_num [getConfidenceLevel]
  have b : getConfidenceLevel (7205759403792793 / 2 ^ 53 : ℚ) = "MEDIO" := by
    norm_num [getConfidenceLevel]
  refine ⟨isDouble_below_four_fifths, ?_, by norm_num, fmul_hundred_below_four_fifths, ?_, b,
    ?_, ?_⟩
  · rw [roundDouble_one_hundredth]
    norm_num
  · rw [fmul_hundred_below_four_fifths]
    exact a
  · rw [fmul_hundred_below_four_fifths, getConfidenceLevelDouble_eq roundDouble_eighty]
    exact a
  · rw [getConfidenceLevelDouble_eq isDouble_below_four_fifths]
    exact b

/-- The level of the rounded product `100 * v` is the level of `v`, for every double `v`
of `(0.01, 1]` other than the one just below `0.8`. -/
theorem getConfidenceLevel_fmul_hundred (v : ℚ) (hd : IsDouble v)
    (h1 : roundDouble 0.01 < v) (h2 : v ≤ 1) (hne : v ≠ 7205759403792793 / 2 ^ 53) :
    getConfidenceLevel (fmul 100 v) = getConfidenceLevel v := by
  rw [roundDouble_one_hundredth] at h1
  have hv0 : 0 < v := lt_trans (by norm_num) h1
  have hp0 : 0 ≤ 100 * v := by linarith
  unfold fmul
  by_cases ha : 4 / 5 ≤ v
  · -- both levels are ALTO
    have hm := roundDouble_mono (show (0 : ℚ) ≤ 80 by norm_num) (show (80 : ℚ) ≤ 100 * v by linarith)
    rw [roundDouble_eighty] at hm
    rw [(getConfidenceLevel_percent (lt_of_lt_of_le (by norm_num) hm)).1 hm,
      (getConfidenceLevel_fraction h2).1 ha]
  · have ha' : v < 4 / 5 := not_le.mp ha
    by_cases hb : 1 / 2 ≤ v
    · -- both levels are MEDIO: the doubles of [1/2, 1) are the multiples of 1 / 2^53
      obtain ⟨n, hn⟩ := double_grid 53 hd hv0 (by linarith) (by linarith)
      have hn1 : (n : ℚ) < 36028797018963968 / 5 := by
        have : (n : ℚ) = v * 2 ^ 53 := by
          rw [hn]
          field_simp
        rw [this]
        norm_num
        linarith
      have hn2 : 5 * n < 36028797018963968 := by
        have : (5 : ℚ) * n < 36028797018963968 := by linarith
        exact_mod_cast this
      have hn3 : n ≠ 7205759403792793 := by
        intro h
        apply hne
        rw [hn, h]
        norm_num
      have hn4 : n ≤ 7205759403792792 := by omega
      have hn5 : (n : ℚ) ≤ 7205759403792792 := by exact_mod_cast hn4
      have hv1 : v ≤ 7205759403792792 / 2 ^ 53 := by
        rw [hn]
        exact div_le_div_of_nonneg_right hn5 (by positivity)
      have hup := roundDouble_mono hp0
        (show 100 * v ≤ 100 * (7205759403792792 / 2 ^ 53) by linarith)
      have e : roundDouble (100 * (7205759403792792 / 2 ^ 53)) = 5629499534213119 / 2 ^ 46 :=
        roundDouble_eval _ 46 5629499534213118 5629499534213119 (by norm_num)
          (by norm_num) (by norm_num) (by norm_num) (by norm_num) (by norm_num)
      rw [e] at hup
      have hlow := roundDouble_mono (show (0 : ℚ) ≤ 50 by norm_num)
        (show (50 : ℚ) ≤ 100 * v by linarith)
      rw [roundDouble_fifty] at hlow
      have hlt : roundDouble (100 * v) < 80 := lt_of_le_of_lt hup (by norm_num)
      rw [(getConfidenceLevel_percent (lt_of_lt_of_le (by norm_num) hlow)).2.1 hlow hlt,
        (getConfidenceLevel_fraction h2).2.1 hb ha']
    · -- both levels are BAJO
      have hb' : v < 1 / 2 := not_le.mp hb
      have hv1 : v ≤ 1 / 2 - 1 / 2 ^ 54 := by
        by_cases hq : 1 / 4 ≤ v
        · obtain ⟨n, hn⟩ := double_grid 54 hd hv0 (by linarith) (by linarith)
          have hn1 : (n : ℚ) < 2 ^ 53 := by
            have : (n : ℚ) = v * 2 ^ 54 := by
              rw [hn]
              field_simp
            rw [this]
            linarith
          have hn2 : n < 2 ^ 53 := by exact_mod_cast hn1
          have hn3 : n ≤ 2 ^ 53 - 1 := by omega
          have hn4 : (n : ℚ) ≤ 2 ^ 53 - 1 := by exact_mod_cast hn3
          rw [hn, div_le_iff₀ (by positivity)]
          norm_num at hn4 ⊢
          linarith
        · have : v < 1 / 4 := not_le.mp hq
          norm_num at this ⊢
          linarith
      have hv2 : 5764607523034236 / 2 ^ 59 ≤ v := by
        by_cases hq : v < 1 / 64
        · obtain ⟨n, hn⟩ := double_grid 59 hd hv0 (by norm_num at h1 ⊢; linarith)
            (by norm_num at hq ⊢; linarith)
          have hn1 : (5764607523034235 : ℚ) < n := by
            have : (n : ℚ) = v * 2 ^ 59 := by
              rw [hn]
              field_simp
            rw [this]
            norm_num at h1 ⊢
            linarith
          have hn2 : (5764607523034235 : ℤ) < n := by exact_mod_cast hn1
          have hn3 : (5764607523034236 : ℤ) ≤ n := by omega
          have hn4 : (5764607523034236 : ℚ) ≤ n := by exact_mod_cast hn3
          rw [hn]
          exact div_le_div_of_nonneg_right hn4 (by positivity)
        · have : 1 / 64 ≤ v := not_lt.mp hq
          norm_num at this ⊢
          linarith
      have hup := roundDouble_mono hp0
        (show 100 * v ≤ 100 * (1 / 2 - 1 / 2 ^ 54) by linarith)
      have e1 : roundDouble (100 * (1 / 2 - 1 / 2 ^ 54)) = 7036874417766399 / 2 ^ 47 :=
        roundDouble_eval _ 47 7036874417766399 7036874417766399 (by norm_num)
          (by norm_num) (by norm_num) (by norm_num) (by norm_num) (by norm_num)
      rw [e1] at hup
      have hlow := roundDouble_mono
        (show (0 : ℚ) ≤ 100 * (5764607523034236 / 2 ^ 59) by norm_num)
        (show 100 * (5764607523034236 / 2 ^ 59) ≤ 100 * v by linarith)
      have e2 : roundDouble (100 * (5764607523034236 / 2 ^ 59)) = 4503599627370497 / 2 ^ 52 :=
        roundDouble_eval _ 52 4503599627370496 4503599627370497 (by norm_num)
          (by norm_num) (by norm_num) (by norm_num) (by norm_num) (by norm_num)
      rw [e2] at hlow
      have hgt : 1 < roundDouble (100 * v) := lt_of_lt_of_le (by norm_num) hlow
      have hlt : roundDouble (100 * v) < 50 := lt_of_le_of_lt hup (by norm_num)
      rw [(getConfidenceLevel_percent hgt).2.2 hlt, (getConfidenceLevel_fraction h2).2.2 hb']

/-- Claim C23, amended: for every double `v` with `0.01 < v ≤ 1` other than
`0.7999999999999999` (`7205759403792793 / 2^53`), `getConfidenceLevel` gives the same
level to the product `100 * v`, computed in double arithmetic, and to `v` itself; the
bound `0.01` is the double that the literal denotes. The same holds when the quotient and
the literals inside `getConfidenceLevel` are rounded as doubles. -/
theorem getConfidenceLevel_product_eq_fraction (v : ℚ) (hd : IsDouble v)
    (h1 : roundDouble 0.01 < v) (h2 : v ≤ 1) (hne : v ≠ 7205759403792793 / 2 ^ 53) :
    getConfidenceLevel (fmul 100 v) = getConfidenceLevel v ∧
    getConfidenceLevelDouble (fmul 100 v) = getConfidenceLevelDouble v := by
  have h := getConfidenceLevel_fmul_hundred v hd h1 h2 hne
  have hv0 : 0 ≤ 100 * v := by
    rw [roundDouble_one_hundredth] at h1
    have : (0 : ℚ) < v := lt_trans (by norm_num) h1
    linarith
  have hp : IsDouble (fmul 100 v) := isDouble_roundDouble hv0
  exact ⟨h, by rw [getConfidenceLevelDouble_eq hp, getConfidenceLevelDouble_eq hd, h]⟩

/-- Claim C23, amended, at the double `0.75`: the product `100 * 0.75` and the fraction
`0.75` are both `MEDIO`. -/
theorem getConfidenceLevel_product_eq_fraction_witness :
    IsDouble (3 / 4) ∧ roundDouble 0.01 < 3 / 4 ∧
    (getConfidenceLevel (fmul 100 (3 / 4)) = getConfidenceLevel (3 / 4) ∧
      getConfidenceLevelDouble (fmul 100 (3 / 4)) = getConfidenceLevelDouble (3 / 4)) ∧
    getConfidenceLevel (3 / 4) = "MEDIO" :=
  have hd : IsDouble (3 / 4) := by
    unfold IsDouble
    have := roundDouble_eval (3 / 4) 53 6755399441055744 6755399441055744 (by norm_num)
      (by norm_num) (by norm_num) (by norm_num) (by norm_num) (by norm_num)
    rw [this]
    norm_num
  have h1 : roundDouble 0.01 < 3 / 4 := by
    rw [roundDouble_one_hundredth]
    norm_num
  ⟨hd, h1, getConfidenceLevel_product_eq_fraction (3 / 4) hd h1 (by norm_num) (by norm_num),
    by norm_num [getConfidenceLevel]⟩

/-! ## Claims on order independence and symmetry -/

/-- The test `labelHas` depends only on which labels are present. -/
theorem labelHas_congr (tags tags' : List Tag)
    (h : ∀ l, l ∈ tags.map labelOf ↔ l ∈ tags'.map labelOf) (kw : String) :
    labelHas tags kw = labelHas tags' kw := by
  have key : ∀ a b : List Tag, (∀ l, l ∈ a.map labelOf → l ∈ b.map labelOf) →
      labelHas a kw = true → labelHas b kw = true := by
    intro a b hab ha
    unfold labelHas at ha ⊢
    rw [List.any_eq_true] at ha ⊢
    obtain ⟨t, ht, hk⟩ := ha
    have hm := hab (labelOf t) (List.mem_map.mpr ⟨t, ht, rfl⟩)
    obtain ⟨u, hu, hul⟩ := List.mem_map.mp hm
    exact ⟨u, hu, by rw [hul]; exact hk⟩
  rw [Bool.eq_iff_iff]
  exact ⟨key tags tags' fun l => (h l).mp, key tags' tags fun l => (h l).mpr⟩

/-- The first-rule reading depends on the tags only through `labelHas`. -/
theorem firstRuleLabel_congr (rules : List (List String × String)) (dflt : String)
    (tags tags' : List Tag) (h : ∀ kw, labelHas tags kw = labelHas tags' kw) :
    firstRuleLabel rules dflt tags = firstRuleLabel rules dflt tags' := by
  have hf : (fun rule : List String × String => rule.1.any fun kw => labelHas tags kw)
      = (fun rule : List String × String => rule.1.any fun kw => labelHas tags' kw) := by
    funext rule
    simp only [h]
  unfold firstRuleLabel
  rw [hf]

/-- No keyword of the scene-type rules is empty or contains a blank. -/
theorem sceneTypeRules_keywords :
    ∀ rule ∈ sceneTypeRules, ∀ kw ∈ rule.1, kw.data ≠ [] ∧ ' ' ∉ kw.data := by
  decide

/-- The scene type, read off the rule table with the test `labelHas` on single labels. -/
theorem detectSceneType_eq_firstRuleLabel (tags objects : List Tag) :
    detectSceneType tags objects = firstRuleLabel sceneTypeRules "General" tags := by
  unfold detectSceneType firstRuleLabel sceneTypeRules
  simp only [includes_tagNamesOf tags "portrait" (by decide) (by decide),
    includes_tagNamesOf tags "person" (by decide) (by decide),
    includes_tagNamesOf tags "landscape" (by decide) (by decide),
    includes_tagNamesOf tags "mountain" (by decide) (by decide),
    includes_tagNamesOf tags "food" (by decide) (by decide),
    includes_tagNamesOf tags "drink" (by decide) (by decide),
    includes_tagNamesOf tags "animal" (by decide) (by decide),
    includes_tagNamesOf tags "building" (by decide) (by decide),
    includes_tagNamesOf tags "architecture" (by decide) (by decide),
    includes_tagNamesOf tags "nature" (by decide) (by decide),
    includes_tagNamesOf tags "outdoor" (by decide) (by decide),
    List.find?_cons, List.find?_nil, List.any_cons, List.any_nil, Bool.or_false]
  generalize (labelHas tags "portrait" || labelHas tags "person") = b1
  generalize (labelHas tags "landscape" || labelHas tags "mountain") = b2
  generalize (labelHas tags "food" || labelHas tags "drink") = b3
  generalize labelHas tags "animal" = b4
  generalize (labelHas tags "building" || labelHas tags "architecture") = b5
  generalize (labelHas tags "nature" || labelHas tags "outdoor") = b6
  cases b1 <;> cases b2 <;> cases b3 <;> cases b4 <;> cases b5 <;> cases b6 <;> rfl

/-- Claim C24: `detectSceneType` depends only on which tag labels are present: two tag
lists with the same labels, in particular a list and any permutation of it, give the same
scene type, whatever the objects; for every keyword of the rules, matching it against the
space-joined labels is matching it against some single label, no keyword containing a
blank. -/
theorem detectSceneType_order_independent :
    (∀ tags tags' objects objects' : List Tag, tags.Perm tags' →
      detectSceneType tags objects = detectSceneType tags' objects') ∧
    (∀ tags tags' objects objects' : List Tag,
      (∀ l, l ∈ tags.map labelOf ↔ l ∈ tags'.map labelOf) →
      detectSceneType tags objects = detectSceneType tags' objects') ∧
    (∀ (tags : List Tag), ∀ rule ∈ sceneTypeRules, ∀ kw ∈ rule.1,
      includes (tagNamesOf tags) kw = labelHas tags kw) ∧
    (∀ rule ∈ sceneTypeRules, ∀ kw ∈ rule.1, ' ' ∉ kw.data) := by
  have hlabels : ∀ tags tags' objects objects' : List Tag,
      (∀ l, l ∈ tags.map labelOf ↔ l ∈ tags'.map labelOf) →
      detectSceneType tags objects = detectSceneType tags' objects' := by
    intro tags tags' objects objects' h
    rw [detectSceneType_eq_firstRuleLabel, detectSceneType_eq_firstRuleLabel]
    exact firstRuleLabel_congr _ _ _ _ (labelHas_congr tags tags' h)
  refine ⟨?_, hlabels, ?_, ?_⟩
  · intro tags tags' objects objects' hp
    exact hlabels tags tags' objects objects' fun l => (hp.map labelOf).mem_iff
  · intro tags rule hr kw hk
    exact includes_tagNamesOf tags kw (sceneTypeRules_keywords rule hr kw hk).1
      (sceneTypeRules_keywords rule hr kw hk).2
  · intro rule hr kw hk
    exact (sceneTypeRules_keywords rule hr kw hk).2

/-- Claim C24, at the tags `mountain`, `lake` and their swap. -/
theorem detectSceneType_order_independent_witness :
    detectSceneType [{ en := some "mountain", confidence := some 90 },
        { en := some "lake", confidence := some 80 }] []
      = detectSceneType [{ en := some "lake", confidence := some 80 },
        { en := some "mountain", confidence := some 90 }] [] :=
  detectSceneType_order_independent.1 _ _ [] [] (List.Perm.swap _ _ [])

/-- The squared distance of two colors is symmetric. -/
theorem distSq_comm (x y : Rgb) : distSq x y = distSq y x := by
  unfold distSq
  congr 1
  ring

/-- Claim C25: `analyzeColorHarmony` is symmetric in its two leading colors: swapping the
first two colors of a list of at least two colors leaves the label unchanged. -/
theorem analyzeColorHarmony_swap (c1 c2 : Color) (rest : List Color) :
    analyzeColorHarmony (c1 :: c2 :: rest) = analyzeColorHarmony (c2 :: c1 :: rest) := by
  have h1 : ¬ (c1 :: c2 :: rest).length < 2 := by simp
  have h2 : ¬ (c2 :: c1 :: rest).length < 2 := by simp
  unfold analyzeColorHarmony
  rw [if_neg h1, if_neg h2]
  simp only [List.take, List.get?, Option.some_bind]
  cases strFalsy c1.hex <;> cases strFalsy c2.hex <;>
    cases hexToRgb c1.hex <;> cases hexToRgb c2.hex <;>
    simp [distSq_comm]

/-! ## Claims on the face-recognition response -/

/-- The level cascade of the face-recognition response, read as three intervals. -/
theorem three_levels (x : ℚ) :
    ((if x > 80 then "ALTO" else if x > 50 then "MEDIO" else "BAJO") = "ALTO" ↔ x > 80) ∧
    ((if x > 80 then "ALTO" else if x > 50 then "MEDIO" else "BAJO") = "MEDIO" ↔
      50 < x ∧ x ≤ 80) ∧
    ((if x > 80 then "ALTO" else if x > 50 then "MEDIO" else "BAJO") = "BAJO" ↔ x ≤ 50) := by
  have e1 : ("MEDIO" : String) ≠ "ALTO" := by decide
  have e2 : ("BAJO" : String) ≠ "ALTO" := by decide
  have e3 : ("ALTO" : String) ≠ "MEDIO" := by decide
  have e4 : ("BAJO" : String) ≠ "MEDIO" := by decide
  have e5 : ("ALTO" : String) ≠ "BAJO" := by decide
  have e6 : ("MEDIO" : String) ≠ "BAJO" := by decide
  by_cases h1 : x > 80
  · simp only [if_pos h1]
    exact ⟨⟨fun _ => h1, fun _ => trivial⟩,
      ⟨fun h => absurd h e3, fun h => absurd h.2 (not_le.mpr h1)⟩,
      ⟨fun h => absurd h e5, fun h => absurd h (not_le.mpr (by linarith))⟩⟩
  · simp only [if_neg h1]
    by_cases h2 : x > 50
    · simp only [if_pos h2]
      exact ⟨⟨fun h => absurd h e1, fun h => absurd h h1⟩,
        ⟨fun _ => ⟨h2, not_lt.mp h1⟩, fun _ => trivial⟩,
        ⟨fun h => absurd h e6, fun h => absurd h (not_le.mpr h2)⟩⟩
    · simp only [if_neg h2]
      exact ⟨⟨fun h => absurd h e2, fun h => absurd h h1⟩,
        ⟨fun h => absurd h e4, fun h => absurd h.1 h2⟩,
        ⟨fun _ => not_lt.mp h2, fun _ => trivial⟩⟩

/-- Claim C26: in the response of `/api/recognize-face`, for every non-empty list of
people, `topMatch.isMatch` is true iff the level of the first entry of `matches` is
`ALTO`, both meaning that the first score exceeds 80; and every entry of `matches` has
level `ALTO` iff its score exceeds 80, `MEDIO` iff the score is in `(50, 80]`, `BAJO` iff
it is at most 50. A score of exactly 80 is `MEDIO` and not a match. -/
theorem recognize_response_levels :
    (∀ (p : Person) (ps : List Person), ∃ top m,
      recognizeTopMatch (p :: ps) = some top ∧
      (recognizeMatches (p :: ps)).head? = some m ∧
      (top.isMatch = true ↔ m.level = "ALTO") ∧
      (top.isMatch = true ↔ p.score > 80) ∧
      (m.level = "ALTO" ↔ p.score > 80)) ∧
    (∀ people : List Person,
      List.Forall₂
        (fun q m => m.personId = q.id ∧ (m.level = "ALTO" ↔ q.score > 80) ∧
          (m.level = "MEDIO" ↔ 50 < q.score ∧ q.score ≤ 80) ∧
          (m.level = "BAJO" ↔ q.score ≤ 50))
        people (recognizeMatches people)) ∧
    recognizeTopMatch [] = none ∧
    recognizeMatches [{ id := some "ana", score := 80 }]
      = [{ personId := some "ana", confidence := 80, level := "MEDIO" }] ∧
    recognizeTopMatch [{ id := some "ana", score := 80 }]
      = some { personId := some "ana", confidence := 80, isMatch := false } := by
  refine ⟨?_, ?_, rfl, ?_, ?_⟩
  · intro p ps
    have hl := (three_levels p.score).1
    have htop : recognizeTopMatch (p :: ps)
        = some { personId := p.id, confidence := toFixed2 p.score,
                 isMatch := decide (p.score > (80 : ℚ)) } := by
      simp [recognizeTopMatch]
    refine ⟨_, _, htop, rfl, ?_, ?_, hl⟩
    · rw [hl]
      exact decide_eq_true_iff
    · exact decide_eq_true_iff
  · intro people
    induction people with
    | nil => exact List.Forall₂.nil
    | cons q qs ih =>
      exact List.Forall₂.cons ⟨rfl, three_levels q.score⟩ ih
  · norm_num [recognizeMatches, toFixed2, Int.floor_eq_iff]
  · norm_num [recognizeTopMatch, toFixed2, Int.floor_eq_iff]

end SceneContext
